import Mathlib

/-!
# Metronome timing engine: store, tap-tempo estimator and lookahead scheduler

A shallow embedding of `state.js`, `utils/clamp.js`, `ui/bindings.js`
(`computeTapTempoBpm`) and `audio/scheduler.js`.

Numbers are exact: a finite JavaScript number is a rational, and `NaN` is a
separate value of `JsNumber`.  Times on the audio clock are rationals in
seconds, tap timestamps are rationals in milliseconds, counters are naturals.

The scheduler is given twice: in exact arithmetic (`MetronomeScheduler`), and
with the result of every arithmetic operation rounded (`Rounded`), the rounding
of the code being `roundDouble`, to the nearest binary64 number.  The two
practice-timer setters are given for finite arguments (`actions`) and for
arguments that may be `NaN` (`jsNumberActions`).
-/

namespace Metronome

/-! ## Numbers -/

/-- A JavaScript number as the store receives it from `Number(...)`: either
`NaN` or a finite value. -/
inductive JsNumber where
  | nan
  | num (q : ℚ)
  deriving DecidableEq

/-- The expression `x || d` for a number `x`: `NaN` and `0` are falsy. -/
def JsNumber.orElse (x : JsNumber) (d : ℚ) : ℚ :=
  match x with
  | .nan => d
  | .num q => if q = 0 then d else q

/-- The expression `x || d` for a finite number `x`: only `0` is falsy. -/
def jsOr (x d : ℚ) : ℚ :=
  if x = 0 then d else x

/-- The function `Math.round`: nearest integer, ties towards plus infinity. -/
def mathRound (x : ℚ) : ℤ :=
  ⌊x + 1 / 2⌋

/-- The function `clamp(value, min, max)` of `utils/clamp.js`. -/
def clamp (value : JsNumber) (lo hi : ℚ) : ℚ :=
  match value with
  | .nan => lo
  | .num v => min hi (max lo v)

/-! ## State store (`state.js`) -/

/-- The `practiceTimer` record of the store. -/
structure PracticeTimer where
  mode : String
  totalSeconds : ℚ
  remainingSeconds : ℚ
  isRunning : Bool
  deriving DecidableEq

/-- The `overload` record of the store. -/
structure Overload where
  enabled : Bool
  stepBpm : ℚ
  intervalSec : ℚ
  maxBpm : ℚ
  targetBpm : ℚ
  lastIncrementAt : Option ℚ
  deriving DecidableEq

/-- The `tapTempo` record of the store (timestamps in milliseconds). -/
structure TapTempo where
  timestamps : List ℚ
  deriving DecidableEq

/-- The store state. -/
structure State where
  bpm : ℚ
  timeSignature : String
  subdivision : String
  accentEnabled : Bool
  isPlaying : Bool
  currentBeat : ℕ
  practiceTimer : PracticeTimer
  overload : Overload
  tapTempo : TapTempo
  deriving DecidableEq

/-- The constant `DEFAULT_STATE`. -/
def DEFAULT_STATE : State where
  bpm := 120
  timeSignature := "4/4"
  subdivision := "quarter"
  accentEnabled := true
  isPlaying := false
  currentBeat := 1
  practiceTimer := { mode := "off", totalSeconds := 0, remainingSeconds := 0, isRunning := false }
  overload :=
    { enabled := false, stepBpm := 1, intervalSec := 30, maxBpm := 160, targetBpm := 120,
      lastIncrementAt := none }
  tapTempo := { timestamps := [] }

namespace actions

/-- The action `actions.setBpm(newBpm)`: the mutator applied to the current
state by `setState`; `newBpm` is the value of `Number(newBpm)`. -/
def setBpm (draft : State) (newBpm : JsNumber) : State :=
  let bpm := clamp (.num (newBpm.orElse DEFAULT_STATE.bpm)) 40 240
  { draft with
    bpm := bpm
    overload :=
      { draft.overload with
        targetBpm := min draft.overload.maxBpm (max bpm (jsOr draft.overload.targetBpm bpm)) } }

/-- The expression `bpm + Number(delta)`: a sum with `NaN` is `NaN`. -/
def jsAdd (x : ℚ) (y : JsNumber) : JsNumber :=
  match y with
  | .nan => .nan
  | .num q => .num (x + q)

/-- The action `actions.stepBpm(delta)`; `delta` is the value of `Number(delta)`. -/
def stepBpm (draft : State) (delta : JsNumber) : State :=
  setBpm draft (jsAdd draft.bpm delta)

/-- The action `actions.setTimeSignature(sig)`. -/
def setTimeSignature (draft : State) (sig : String) : State :=
  { draft with timeSignature := sig, currentBeat := 1 }

/-- The action `actions.setSubdivision(subdiv)`. -/
def setSubdivision (draft : State) (subdiv : String) : State :=
  { draft with subdivision := subdiv }

/-- The action `actions.setAccentEnabled(enabled)`; `enabled` is the value of `!!enabled`. -/
def setAccentEnabled (draft : State) (enabled : Bool) : State :=
  { draft with accentEnabled := enabled }

/-- The action `actions.setPlaying(isPlaying)`; `isPlaying` is the value of `!!isPlaying`. -/
def setPlaying (draft : State) (isPlaying : Bool) : State :=
  let draft := { draft with isPlaying := isPlaying }
  if !draft.isPlaying then
    { draft with practiceTimer := { draft.practiceTimer with isRunning := false } }
  else if draft.isPlaying && decide (draft.practiceTimer.totalSeconds > 0) then
    { draft with practiceTimer := { draft.practiceTimer with isRunning := true } }
  else draft

/-- The action `actions.setCurrentBeat(beatIndex)`. -/
def setCurrentBeat (draft : State) (beatIndex : ℕ) : State :=
  { draft with currentBeat := beatIndex }

/-- The action `actions.setPracticeTimerPreset(seconds)`, for a finite `seconds`. -/
def setPracticeTimerPreset (draft : State) (seconds : ℚ) : State :=
  if seconds ≤ 0 then
    { draft with
      practiceTimer :=
        { mode := "off", totalSeconds := 0, remainingSeconds := 0, isRunning := false } }
  else
    { draft with
      practiceTimer :=
        { mode := "preset", totalSeconds := seconds, remainingSeconds := seconds,
          isRunning := draft.isPlaying } }

/-- The action `actions.setPracticeTimerCustom(minutes)`, for a finite `minutes`. -/
def setPracticeTimerCustom (draft : State) (minutes : ℚ) : State :=
  let secs : ℚ := max 0 (mathRound (minutes * 60))
  if secs ≤ 0 then
    { draft with
      practiceTimer :=
        { mode := "off", totalSeconds := 0, remainingSeconds := 0, isRunning := false } }
  else
    { draft with
      practiceTimer :=
        { mode := "custom", totalSeconds := secs, remainingSeconds := secs,
          isRunning := draft.isPlaying } }

/-- The action `actions.tickPracticeTimer(deltaSec)`, for a finite `deltaSec`. -/
def tickPracticeTimer (draft : State) (deltaSec : ℚ) : State :=
  let t := draft.practiceTimer
  if !t.isRunning || decide (t.totalSeconds ≤ 0) then draft
  else
    let t := { t with remainingSeconds := max 0 (t.remainingSeconds - deltaSec) }
    if t.remainingSeconds ≤ 0 then
      { draft with practiceTimer := { t with isRunning := false }, isPlaying := false }
    else { draft with practiceTimer := t }

/-- The argument object of `actions.configureOverload`: a field is `none` when
its `typeof` test fails (the property is absent or of another type). -/
structure OverloadConfig where
  enabled : Option Bool
  stepBpm : Option JsNumber
  intervalSec : Option JsNumber
  maxBpm : Option JsNumber

/-- The test `typeof x === "number" && x > 0` (false for `NaN`), with the value. -/
def positiveNumber : Option JsNumber → Option ℚ
  | some (.num q) => if q > 0 then some q else none
  | _ => none

/-- The action `actions.configureOverload({ enabled, stepBpm, intervalSec, maxBpm })`. -/
def configureOverload (draft : State) (cfg : OverloadConfig) : State :=
  let o := draft.overload
  let o := match cfg.enabled with
    | some b => { o with enabled := b }
    | none => o
  let o := match positiveNumber cfg.stepBpm with
    | some q => { o with stepBpm := q }
    | none => o
  let o := match positiveNumber cfg.intervalSec with
    | some q => { o with intervalSec := q }
    | none => o
  let o := match cfg.maxBpm with
    | some m => { o with maxBpm := clamp m 40 240 }
    | none => o
  let o := { o with targetBpm := clamp (.num (jsOr o.targetBpm draft.bpm)) draft.bpm o.maxBpm }
  { draft with overload := o }

/-- The action `actions.updateOverloadTarget(targetBpm)`. -/
def updateOverloadTarget (draft : State) (targetBpm : JsNumber) : State :=
  { draft with
    overload := { draft.overload with targetBpm := clamp targetBpm 40 draft.overload.maxBpm } }

/-- The loop `while (taps.length > 12) taps.shift()`. -/
def shiftOverflow : List ℚ → List ℚ
  | [] => []
  | a :: rest => if (a :: rest).length > 12 then shiftOverflow rest else a :: rest

/-- The action `actions.recordTap(timestampMs)`. -/
def recordTap (draft : State) (timestampMs : ℚ) : State :=
  { draft with tapTempo := { timestamps := shiftOverflow (draft.tapTempo.timestamps ++ [timestampMs]) } }

/-- The action `actions.clearTaps()`. -/
def clearTaps (draft : State) : State :=
  { draft with tapTempo := { timestamps := [] } }

end actions

/-- A call of one of the store actions, with its arguments. -/
inductive Action where
  | setBpm (newBpm : JsNumber)
  | stepBpm (delta : JsNumber)
  | setTimeSignature (sig : String)
  | setSubdivision (subdiv : String)
  | setAccentEnabled (enabled : Bool)
  | setPlaying (isPlaying : Bool)
  | setCurrentBeat (beatIndex : ℕ)
  | setPracticeTimerPreset (seconds : ℚ)
  | setPracticeTimerCustom (minutes : ℚ)
  | tickPracticeTimer (deltaSec : ℚ)
  | configureOverload (cfg : actions.OverloadConfig)
  | updateOverloadTarget (targetBpm : JsNumber)
  | recordTap (timestampMs : ℚ)
  | clearTaps

/-- The store after one action: `setState` applied to the mutator of the action. -/
def applyAction (s : State) : Action → State
  | .setBpm x => actions.setBpm s x
  | .stepBpm d => actions.stepBpm s d
  | .setTimeSignature sig => actions.setTimeSignature s sig
  | .setSubdivision sub => actions.setSubdivision s sub
  | .setAccentEnabled b => actions.setAccentEnabled s b
  | .setPlaying b => actions.setPlaying s b
  | .setCurrentBeat i => actions.setCurrentBeat s i
  | .setPracticeTimerPreset secs => actions.setPracticeTimerPreset s secs
  | .setPracticeTimerCustom m => actions.setPracticeTimerCustom s m
  | .tickPracticeTimer d => actions.tickPracticeTimer s d
  | .configureOverload cfg => actions.configureOverload s cfg
  | .updateOverloadTarget t => actions.updateOverloadTarget s t
  | .recordTap t => actions.recordTap s t
  | .clearTaps => actions.clearTaps s

/-- The store after a sequence of actions, first action first. -/
def applyActions (s : State) (acts : List Action) : State :=
  acts.foldl applyAction s

/-- The store after a sequence of `actions.setBpm` calls, first call first. -/
def setBpmAll (s : State) (inputs : List JsNumber) : State :=
  inputs.foldl actions.setBpm s

/-! ## Tap-tempo estimator (`ui/bindings.js`) -/

/-- The loop that pushes `timestamps[i] - timestamps[i - 1]` for `i = 1 ..`. -/
def intervalsOf : List ℚ → List ℚ
  | a :: b :: rest => (b - a) :: intervalsOf (b :: rest)
  | _ => []

/-- The method `Array.prototype.slice(start, stop)` for indices inside the array. -/
def slice (l : List ℚ) (start stop : ℕ) : List ℚ :=
  (l.take stop).drop start

/-- The function `computeTapTempoBpm(timestamps)`; `none` is `null`. -/
def computeTapTempoBpm (timestamps : List ℚ) : Option ℚ :=
  if timestamps.length < 4 then none
  else
    let intervals := intervalsOf timestamps
    if intervals.length < 3 then none
    else
      let sorted := intervals.insertionSort (fun a b => a ≤ b)
      let trimmed := if sorted.length > 4 then slice sorted 1 (sorted.length - 1) else sorted
      let avgMs := jsOr (trimmed.foldl (fun sum v => sum + v) 0 / trimmed.length) 0
      if avgMs ≤ 0 then none
      else
        let bpm := 60000 / avgMs
        some (clamp (.num (mathRound bpm)) 40 240)

/-! ## Lookahead scheduler (`audio/scheduler.js`) -/

/-- The constant `LOOKAHEAD_MS`: the period of the poll timer, in milliseconds. -/
def LOOKAHEAD_MS : ℚ := 25

/-- The constant `SCHEDULE_AHEAD_SEC`: the width of the lookahead window. -/
def SCHEDULE_AHEAD_SEC : ℚ := 1 / 10

/-- The record returned by `getSignatureConfig`. -/
structure SignatureConfig where
  beatsPerBar : ℕ
  dottedBeat : Bool
  deriving DecidableEq

/-- The function `getSignatureConfig(signature)`. -/
def getSignatureConfig (signature : String) : SignatureConfig :=
  match signature with
  | "2/4" => { beatsPerBar := 2, dottedBeat := false }
  | "3/4" => { beatsPerBar := 3, dottedBeat := false }
  | "4/4" => { beatsPerBar := 4, dottedBeat := false }
  | "6/8" => { beatsPerBar := 2, dottedBeat := true }
  | _ => { beatsPerBar := 4, dottedBeat := false }

/-- The function `getSubdivisionFactor(subdivision)`. -/
def getSubdivisionFactor (subdivision : String) : ℕ :=
  match subdivision with
  | "eighth" => 2
  | "sixteenth" => 4
  | "quarter" => 1
  | _ => 1

/-- The record returned by `_computeTiming`. -/
structure Timing where
  secondsPerSubdivision : ℚ
  beatsPerBar : ℕ
  ticksPerBar : ℕ
  subdivisionFactor : ℕ
  deriving DecidableEq

/-- The structure handed to `onTick`. -/
structure TickInfo where
  barBeatIndex : ℕ
  beatCountInBar : ℕ
  tickInBar : ℕ
  ticksPerBar : ℕ
  isAccent : Bool
  isPrimarySubdivision : Bool
  deriving DecidableEq

/-- A call the scheduler makes into its collaborators, in the order made. -/
inductive Effect where
  | scheduleClick (time : ℚ) (isAccent : Bool)
  | onTick (info : TickInfo)
  | onStart
  | onStop
  deriving DecidableEq

/-- The mutable fields of a `MetronomeScheduler`; `timerSet` says whether
`_timerId` holds an interval handle (`true`) or `null` (`false`). -/
structure MetronomeScheduler where
  isRunning : Bool
  timerSet : Bool
  nextNoteTime : ℚ
  currentTickInBar : ℕ
  deriving DecidableEq

/-- One reading of the collaborators by a poll: the audio clock and the store
snapshot returned by `getState()`. -/
structure Poll where
  ctxTime : ℚ
  state : State

namespace MetronomeScheduler

/-- The scheduler as the constructor leaves it. -/
def new : MetronomeScheduler where
  isRunning := false
  timerSet := false
  nextNoteTime := 0
  currentTickInBar := 0

/-- The method `_computeTiming()`, on the snapshot it reads. -/
def computeTiming (state : State) : Timing :=
  let bpm := state.bpm
  let cfg := getSignatureConfig state.timeSignature
  let subdivisionFactor := getSubdivisionFactor state.subdivision
  let secondsPerBeat := 60 / bpm
  let secondsPerBeat := if cfg.dottedBeat then secondsPerBeat * (3 / 2) else secondsPerBeat
  let secondsPerSubdivision := secondsPerBeat / subdivisionFactor
  let ticksPerBar := cfg.beatsPerBar * subdivisionFactor
  { secondsPerSubdivision := secondsPerSubdivision
    beatsPerBar := cfg.beatsPerBar
    ticksPerBar := ticksPerBar
    subdivisionFactor := subdivisionFactor }

/-- The method `_scheduleTick(time, timing)`: the updated scheduler and the two
calls it makes, `scheduleClick` first and `onTick` second. -/
def scheduleTick (s : MetronomeScheduler) (state : State) (time : ℚ) (timing : Timing) :
    MetronomeScheduler × List Effect :=
  let tickIndex := s.currentTickInBar
  let tickInBar := tickIndex % timing.ticksPerBar
  let beatIndex := tickInBar / timing.subdivisionFactor
  let isSubdivisionPrimary := decide (tickInBar % timing.subdivisionFactor = 0)
  let isFirstBeat := decide (beatIndex = 0) && isSubdivisionPrimary
  let accentEnabled := state.accentEnabled
  let isAccent := accentEnabled && isFirstBeat
  let publicBeatIndex := beatIndex + 1
  ({ s with currentTickInBar := (s.currentTickInBar + 1) % timing.ticksPerBar },
   [Effect.scheduleClick time isAccent,
    Effect.onTick
      { barBeatIndex := publicBeatIndex
        beatCountInBar := timing.beatsPerBar
        tickInBar := tickInBar
        ticksPerBar := timing.ticksPerBar
        isAccent := isAccent
        isPrimarySubdivision := isSubdivisionPrimary }])

/-- The `while` loop of `_schedulerLoop`, run for at most `fuel` iterations;
`none` when the loop condition still holds after `fuel` iterations. -/
def whileLoop (state : State) (ctxTime : ℚ) (timing : Timing) :
    ℕ → MetronomeScheduler → Option (MetronomeScheduler × List Effect)
  | 0, s => if s.nextNoteTime < ctxTime + SCHEDULE_AHEAD_SEC then none else some (s, [])
  | fuel + 1, s =>
    if s.nextNoteTime < ctxTime + SCHEDULE_AHEAD_SEC then
      let r := scheduleTick s state s.nextNoteTime timing
      let s1 := { r.1 with nextNoteTime := r.1.nextNoteTime + timing.secondsPerSubdivision }
      match whileLoop state ctxTime timing fuel s1 with
      | none => none
      | some (s2, rest) => some (s2, r.2 ++ rest)
    else some (s, [])

/-- The method `_schedulerLoop()`: one poll, reading the clock and the store. -/
def schedulerLoop (fuel : ℕ) (s : MetronomeScheduler) (p : Poll) :
    Option (MetronomeScheduler × List Effect) :=
  if !s.isRunning then some (s, [])
  else
    let ctxTime := p.ctxTime
    let timing := computeTiming p.state
    whileLoop p.state ctxTime timing fuel s

/-- The method `start()`: `ctxTime` is the clock value it reads itself, `p` the
clock and snapshot read by the `_schedulerLoop()` call that ends it. -/
def start (fuel : ℕ) (s : MetronomeScheduler) (ctxTime : ℚ) (p : Poll) :
    Option (MetronomeScheduler × List Effect) :=
  if s.isRunning then some (s, [])
  else
    let s1 : MetronomeScheduler :=
      { s with isRunning := true, nextNoteTime := ctxTime + 1 / 10, currentTickInBar := 0 }
    let s2 := { s1 with timerSet := true }
    match schedulerLoop fuel s2 p with
    | none => none
    | some (s3, out) => some (s3, Effect.onStart :: out)

/-- The method `stop()`. -/
def stop (s : MetronomeScheduler) : MetronomeScheduler × List Effect :=
  if !s.isRunning then (s, [])
  else
    let s1 := { s with isRunning := false }
    let s2 := if s1.timerSet then { s1 with timerSet := false } else s1
    (s2, [Effect.onStop])

/-- The method `toggle()`. -/
def toggle (fuel : ℕ) (s : MetronomeScheduler) (ctxTime : ℚ) (p : Poll) :
    Option (MetronomeScheduler × List Effect) :=
  if s.isRunning then some (stop s) else start fuel s ctxTime p

/-- The method `isPlaying()`. -/
def isPlaying (s : MetronomeScheduler) : Bool :=
  s.isRunning

/-- The interval timer firing `_schedulerLoop()` once per element of `polls`. -/
def runPolls (fuel : ℕ) :
    MetronomeScheduler → List Poll → Option (MetronomeScheduler × List Effect)
  | s, [] => some (s, [])
  | s, p :: ps =>
    match schedulerLoop fuel s p with
    | none => none
    | some (s1, out) =>
      match runPolls fuel s1 ps with
      | none => none
      | some (s2, rest) => some (s2, out ++ rest)

/-- A run: `start()` on a fresh scheduler reading the clock value `t0`, its
own first poll `first`, then the timer polls `polls`. -/
def run (fuel : ℕ) (t0 : ℚ) (first : Poll) (polls : List Poll) :
    Option (MetronomeScheduler × List Effect) :=
  match start fuel new t0 first with
  | none => none
  | some (s1, out) =>
    match runPolls fuel s1 polls with
    | none => none
    | some (s2, rest) => some (s2, out ++ rest)

end MetronomeScheduler

/-- The scheduler as `start()` leaves a fresh scheduler just before its own
first poll: running, timer set, `nextNoteTime = t0 + 0.1`, tick counter 0. -/
def started (t0 : ℚ) : MetronomeScheduler :=
  { isRunning := true, timerSet := true, nextNoteTime := t0 + 1 / 10, currentTickInBar := 0 }

/-- The times passed to `scheduleClick`, in call order. -/
def clickTimes : List Effect → List ℚ
  | [] => []
  | Effect.scheduleClick t _ :: rest => t :: clickTimes rest
  | _ :: rest => clickTimes rest

/-- The accent flags passed to `scheduleClick`, in call order. -/
def clickAccents : List Effect → List Bool
  | [] => []
  | Effect.scheduleClick _ a :: rest => a :: clickAccents rest
  | _ :: rest => clickAccents rest

/-- The tick events passed to `onTick`, in call order. -/
def tickInfos : List Effect → List TickInfo
  | [] => []
  | Effect.onTick i :: rest => i :: tickInfos rest
  | _ :: rest => tickInfos rest


/-! ## Tap-tempo estimate as the specification words it -/

/-- The estimate of section 4.3 of the specification, in its own order of
steps: no estimate below 4 timestamps; otherwise take the consecutive
differences, sort them ascending, drop one smallest and one largest when there
are more than 4 of them, average the rest, convert to `60000 / average`, clamp
to [40,240], and round to the nearest integer last. -/
def specTapTempoBpm (timestamps : List ℚ) : Option ℚ :=
  if timestamps.length < 4 then none
  else
    let diffs := List.zipWith (fun earlier later => later - earlier) timestamps timestamps.tail
    let ascending := diffs.insertionSort (fun a b => a ≤ b)
    let kept := if diffs.length > 4 then ascending.tail.dropLast else ascending
    let average := kept.sum / kept.length
    let clamped := min 240 (max 40 (60000 / average))
    some ((mathRound clamped : ℤ) : ℚ)

/-! ## Persistence (`utils/storage.js`, `state.js`) -/

/-- The `overload` object of a parsed settings record; `none` is an absent property. -/
structure StoredOverload where
  enabled : Option Bool
  stepBpm : Option ℚ
  intervalSec : Option ℚ
  maxBpm : Option ℚ
  targetBpm : Option ℚ
  deriving DecidableEq

/-- A parsed settings record; `none` is an absent property.  Serialising with
`JSON.stringify` and parsing back with `JSON.parse` returns the same record. -/
structure StoredSettings where
  bpm : Option ℚ
  timeSignature : Option String
  subdivision : Option String
  accentEnabled : Option Bool
  overload : Option StoredOverload
  deriving DecidableEq

/-- The browser storage: whether `window.localStorage` exists, and the record
held under `STORAGE_KEY` if any. -/
structure Storage where
  available : Bool
  item : Option StoredSettings
  deriving DecidableEq

/-- The function `loadSettings()`; `none` is `null`. -/
def loadSettings (w : Storage) : Option StoredSettings :=
  if !w.available then none else w.item

/-- The function `saveSettings(settings)`. -/
def saveSettings (w : Storage) (settings : StoredSettings) : Storage :=
  if !w.available then w else { w with item := some settings }

/-- The function `persistSettings(current)`. -/
def persistSettings (w : Storage) (current : State) : Storage :=
  let snapshot : StoredSettings :=
    { bpm := some current.bpm
      timeSignature := some current.timeSignature
      subdivision := some current.subdivision
      accentEnabled := some current.accentEnabled
      overload := some
        { enabled := some current.overload.enabled
          stepBpm := some current.overload.stepBpm
          intervalSec := some current.overload.intervalSec
          maxBpm := some current.overload.maxBpm
          targetBpm := some current.overload.targetBpm } }
  saveSettings w snapshot

/-- The expression `Number(x)` for a stored number: an absent property is `NaN`. -/
def numberOf : Option ℚ → JsNumber
  | none => .nan
  | some q => .num q

/-- The expression `x || d` for a stored string: absent and empty are falsy. -/
def stringOr : Option String → String → String
  | none, d => d
  | some x, d => if x = "" then d else x

/-- The spread `{ ...base, ...(stored || {}) }` over the overload record. -/
def spreadOverload (base : Overload) (stored : Option StoredOverload) : Overload :=
  match stored with
  | none => base
  | some o =>
    { enabled := o.enabled.getD base.enabled
      stepBpm := o.stepBpm.getD base.stepBpm
      intervalSec := o.intervalSec.getD base.intervalSec
      maxBpm := o.maxBpm.getD base.maxBpm
      targetBpm := o.targetBpm.getD base.targetBpm
      lastIncrementAt := base.lastIncrementAt }

/-- The function `createInitialState()`, on the storage it loads from. -/
def createInitialState (w : Storage) : State :=
  match loadSettings w with
  | none => DEFAULT_STATE
  | some stored =>
    let merged := DEFAULT_STATE
    let merged : State :=
      { merged with
        bpm := clamp (.num ((numberOf stored.bpm).orElse DEFAULT_STATE.bpm)) 40 240
        timeSignature := stringOr stored.timeSignature DEFAULT_STATE.timeSignature
        subdivision := stringOr stored.subdivision DEFAULT_STATE.subdivision
        accentEnabled :=
          match stored.accentEnabled with
          | some b => b
          | none => DEFAULT_STATE.accentEnabled
        overload := spreadOverload merged.overload stored.overload }
    { merged with overload := { merged.overload with targetBpm := merged.bpm } }

/-! ## Application controller (`main.js`) and overload toggle (`ui/bindings.js`) -/

/-- The store together with the fields of `AppSchedulerController`:
`scheduler` is `none` until the audio is ready, `overloadTimerId` holds the
delay in milliseconds of the pending timeout (`none` is `null`). -/
structure App where
  state : State
  scheduler : Option MetronomeScheduler
  overloadTimerId : Option ℚ
  lastTimerTickAt : ℚ
  deriving DecidableEq

namespace AppSchedulerController

/-- The method `_clearOverloadTimer()`. -/
def clearOverloadTimer (app : App) : App :=
  if app.overloadTimerId.isSome then { app with overloadTimerId := none } else app

/-- The method `_setupOverloadTimer()`, up to the arming of the first timeout. -/
def setupOverloadTimer (app : App) : App :=
  let app := clearOverloadTimer app
  let state := app.state
  if !state.overload.enabled then app
  else
    let intervalMs := state.overload.intervalSec * 1000
    { app with overloadTimerId := some intervalMs }

/-- The closure `tick` of `_setupOverloadTimer()`: what runs when the timeout fires. -/
def overloadTick (app : App) : App :=
  let s := app.state
  if !s.isPlaying || !s.overload.enabled then clearOverloadTimer app
  else
    let nextTarget := min s.overload.maxBpm (s.overload.targetBpm + s.overload.stepBpm)
    let app :=
      if nextTarget ≤ s.bpm then
        { app with state := actions.updateOverloadTarget app.state (.num s.bpm) }
      else
        let app := { app with state := actions.updateOverloadTarget app.state (.num nextTarget) }
        { app with state := actions.setBpm app.state (.num nextTarget) }
    let snapshot := app.state
    if snapshot.bpm ≥ snapshot.overload.maxBpm then clearOverloadTimer app
    else
      let intervalMs := snapshot.overload.intervalSec * 1000
      { app with overloadTimerId := some intervalMs }

/-- A firing of the overload timeout: `tick` runs if a timeout is pending. -/
def fireOverloadTimer (app : App) : App :=
  if app.overloadTimerId.isSome then overloadTick app else app

/-- The method `configureOverloadEnabled(enabled, snapshot)`. -/
def configureOverloadEnabled (app : App) (enabled : Bool) (snapshot : State) : App :=
  if enabled && snapshot.isPlaying then setupOverloadTimer app else clearOverloadTimer app

/-- The method `resetOverloadTimer()`. -/
def resetOverloadTimer (app : App) : App :=
  let snapshot := app.state
  if snapshot.overload.enabled && snapshot.isPlaying then setupOverloadTimer app else app

/-- The callback `onStop` given to the scheduler. -/
def onStop (app : App) : App :=
  clearOverloadTimer { app with state := actions.setPlaying app.state false }

/-- The call `this.scheduler.stop()`: the scheduler method, then the `onStop`
callback if the method invoked it. -/
def stopScheduler (app : App) : App :=
  match app.scheduler with
  | none => app
  | some sch =>
    let r := MetronomeScheduler.stop sch
    let app := { app with scheduler := some r.1 }
    if Effect.onStop ∈ r.2 then onStop app else app

/-- The closure `loop` of `_startTimerLoop()`: one iteration at wall-clock time
`now` (milliseconds); the flag says whether it requests another frame. -/
def timerLoop (app : App) (now : ℚ) : App × Bool :=
  let deltaSec := (now - app.lastTimerTickAt) / 1000
  let app := { app with lastTimerTickAt := now }
  let state := app.state
  let app :=
    if state.practiceTimer.isRunning then
      let app := { app with state := actions.tickPracticeTimer app.state deltaSec }
      let updated := app.state
      if !updated.practiceTimer.isRunning && updated.isPlaying then stopScheduler app else app
    else app
  (app, match app.scheduler with
    | some sch => sch.isPlaying
    | none => false)

end AppSchedulerController

/-- The `change` handler of the overload toggle in `bindUI`; `checked` is
`e.target.checked`. -/
def overloadToggleChange (app : App) (checked : Bool) : App :=
  let enabled := checked
  let snapshot := app.state
  let app := AppSchedulerController.configureOverloadEnabled app enabled snapshot
  { app with
    state :=
      actions.configureOverload app.state
        { enabled := some enabled, stepBpm := none, intervalSec := none, maxBpm := none } }

/-! ## Practice-timer invariant -/

/-- The data-model invariant of the practice timer: not running when
`totalSeconds` is 0, and `0 <= remainingSeconds <= totalSeconds`. -/
def timerInvariant (t : PracticeTimer) : Prop :=
  (t.totalSeconds = 0 → t.isRunning = false) ∧
    0 ≤ t.remainingSeconds ∧ t.remainingSeconds ≤ t.totalSeconds

instance timerInvariantDecidable (t : PracticeTimer) : Decidable (timerInvariant t) := by
  unfold timerInvariant
  infer_instance

/-! ## Binary64 arithmetic -/

/-- Rounding to the nearest integer, a tie going to the even neighbour. -/
def roundHalfEven (y : ℚ) : ℤ :=
  let f := ⌊y⌋
  if y - f < 1 / 2 then f
  else if 1 / 2 < y - f then f + 1
  else if f % 2 = 0 then f else f + 1

/-- The binary64 number nearest to `x` (round to nearest, ties to even), which
is what a JavaScript arithmetic operation stores when its exact result is `x`:
53 significant bits in the binade of `x`, the spacing of the subnormals below
`2 ^ (-1022)`.  Overflow to `Infinity` (from `2 ^ 1024` on) is not represented. -/
def roundDouble (x : ℚ) : ℚ :=
  let e := max (Int.log 2 |x|) (-1022)
  let ulp : ℚ := 2 ^ (e - 52)
  roundHalfEven (x / ulp) * ulp

/-! ## Lookahead scheduler, every arithmetic result rounded (`audio/scheduler.js`)

The same methods with the rounding `rnd` applied to the result of each
arithmetic operation and to each decimal literal: `rnd = roundDouble` is the
arithmetic of the code, `rnd = id` is exact arithmetic. -/

namespace Rounded

/-- The method `_computeTiming()`, on the snapshot it reads. -/
def computeTiming (rnd : ℚ → ℚ) (state : State) : Timing :=
  let bpm := state.bpm
  let cfg := getSignatureConfig state.timeSignature
  let subdivisionFactor := getSubdivisionFactor state.subdivision
  let secondsPerBeat := rnd (60 / bpm)
  let secondsPerBeat := if cfg.dottedBeat then rnd (secondsPerBeat * rnd (3 / 2)) else secondsPerBeat
  let secondsPerSubdivision := rnd (secondsPerBeat / subdivisionFactor)
  let ticksPerBar := cfg.beatsPerBar * subdivisionFactor
  { secondsPerSubdivision := secondsPerSubdivision
    beatsPerBar := cfg.beatsPerBar
    ticksPerBar := ticksPerBar
    subdivisionFactor := subdivisionFactor }

/-- The `while` loop of `_schedulerLoop`, run for at most `fuel` iterations;
`none` when the loop condition still holds after `fuel` iterations. -/
def whileLoop (rnd : ℚ → ℚ) (state : State) (ctxTime : ℚ) (timing : Timing) :
    ℕ → MetronomeScheduler → Option (MetronomeScheduler × List Effect)
  | 0, s =>
    if s.nextNoteTime < rnd (ctxTime + rnd SCHEDULE_AHEAD_SEC) then none else some (s, [])
  | fuel + 1, s =>
    if s.nextNoteTime < rnd (ctxTime + rnd SCHEDULE_AHEAD_SEC) then
      let r := MetronomeScheduler.scheduleTick s state s.nextNoteTime timing
      let s1 := { r.1 with nextNoteTime := rnd (r.1.nextNoteTime + timing.secondsPerSubdivision) }
      match whileLoop rnd state ctxTime timing fuel s1 with
      | none => none
      | some (s2, rest) => some (s2, r.2 ++ rest)
    else some (s, [])

/-- The method `_schedulerLoop()`: one poll, reading the clock and the store. -/
def schedulerLoop (rnd : ℚ → ℚ) (fuel : ℕ) (s : MetronomeScheduler) (p : Poll) :
    Option (MetronomeScheduler × List Effect) :=
  if !s.isRunning then some (s, [])
  else
    let ctxTime := p.ctxTime
    let timing := computeTiming rnd p.state
    whileLoop rnd p.state ctxTime timing fuel s

/-- The method `start()`: `ctxTime` is the clock value it reads itself, `p` the
clock and snapshot read by the `_schedulerLoop()` call that ends it. -/
def start (rnd : ℚ → ℚ) (fuel : ℕ) (s : MetronomeScheduler) (ctxTime : ℚ) (p : Poll) :
    Option (MetronomeScheduler × List Effect) :=
  if s.isRunning then some (s, [])
  else
    let s1 : MetronomeScheduler :=
      { s with isRunning := true, nextNoteTime := rnd (ctxTime + rnd (1 / 10)),
               currentTickInBar := 0 }
    let s2 := { s1 with timerSet := true }
    match schedulerLoop rnd fuel s2 p with
    | none => none
    | some (s3, out) => some (s3, Effect.onStart :: out)

/-- The interval timer firing `_schedulerLoop()` once per element of `polls`. -/
def runPolls (rnd : ℚ → ℚ) (fuel : ℕ) :
    MetronomeScheduler → List Poll → Option (MetronomeScheduler × List Effect)
  | s, [] => some (s, [])
  | s, p :: ps =>
    match schedulerLoop rnd fuel s p with
    | none => none
    | some (s1, out) =>
      match runPolls rnd fuel s1 ps with
      | none => none
      | some (s2, rest) => some (s2, out ++ rest)

/-- A run: `start()` on a fresh scheduler reading the clock value `t0`, its
own first poll `first`, then the timer polls `polls`. -/
def run (rnd : ℚ → ℚ) (fuel : ℕ) (t0 : ℚ) (first : Poll) (polls : List Poll) :
    Option (MetronomeScheduler × List Effect) :=
  match start rnd fuel MetronomeScheduler.new t0 first with
  | none => none
  | some (s1, out) =>
    match runPolls rnd fuel s1 polls with
    | none => none
    | some (s2, rest) => some (s2, out ++ rest)

end Rounded

/-- The tick times that repeated addition produces: the first tick at `first`,
each later one the rounded sum of the one before it and `sps`. -/
def tickTime (rnd : ℚ → ℚ) (sps first : ℚ) : ℕ → ℚ
  | 0 => first
  | k + 1 => rnd (tickTime rnd sps first k + sps)

/-! ## Practice-timer setters on arguments that may be NaN (`state.js`) -/

/-- The comparison `x <= y` of JavaScript: false when either side is `NaN`. -/
def JsNumber.le : JsNumber → JsNumber → Bool
  | .num a, .num b => decide (a ≤ b)
  | _, _ => false

/-- The product `x * c` by a finite constant: `NaN` when `x` is `NaN`. -/
def JsNumber.mul (x : JsNumber) (c : ℚ) : JsNumber :=
  match x with
  | .nan => .nan
  | .num q => .num (q * c)

/-- The function `Math.round` on a number that may be `NaN`. -/
def JsNumber.round (x : JsNumber) : JsNumber :=
  match x with
  | .nan => .nan
  | .num q => .num (mathRound q)

/-- The call `Math.max(0, x)`: `NaN` when `x` is `NaN`. -/
def JsNumber.maxZero (x : JsNumber) : JsNumber :=
  match x with
  | .nan => .nan
  | .num q => .num (max 0 q)

/-- The `practiceTimer` record with number fields as JavaScript holds them:
`NaN` is a possible value. -/
structure JsPracticeTimer where
  mode : String
  totalSeconds : JsNumber
  remainingSeconds : JsNumber
  isRunning : Bool
  deriving DecidableEq

/-- A `practiceTimer` record of finite fields, as a record of JavaScript numbers. -/
def PracticeTimer.toJs (t : PracticeTimer) : JsPracticeTimer :=
  { mode := t.mode, totalSeconds := .num t.totalSeconds,
    remainingSeconds := .num t.remainingSeconds, isRunning := t.isRunning }

namespace jsNumberActions

/-- The action `actions.setPracticeTimerPreset(seconds)` for any number
`seconds`, `NaN` included: the `practiceTimer` record it leaves in the store. -/
def setPracticeTimerPreset (draft : State) (seconds : JsNumber) : JsPracticeTimer :=
  if JsNumber.le seconds (.num 0) then
    { mode := "off", totalSeconds := .num 0, remainingSeconds := .num 0, isRunning := false }
  else
    { mode := "preset", totalSeconds := seconds, remainingSeconds := seconds,
      isRunning := draft.isPlaying }

/-- The action `actions.setPracticeTimerCustom(minutes)` for any number
`minutes`, `NaN` included: the `practiceTimer` record it leaves in the store. -/
def setPracticeTimerCustom (draft : State) (minutes : JsNumber) : JsPracticeTimer :=
  let secs := JsNumber.maxZero (JsNumber.round (JsNumber.mul minutes 60))
  if JsNumber.le secs (.num 0) then
    { mode := "off", totalSeconds := .num 0, remainingSeconds := .num 0, isRunning := false }
  else
    { mode := "custom", totalSeconds := secs, remainingSeconds := secs,
      isRunning := draft.isPlaying }

end jsNumberActions

/-- The practice-timer invariant on a record of JavaScript numbers, with the
comparisons of JavaScript: not running when `totalSeconds` is 0, and
`0 <= remainingSeconds <= totalSeconds`. -/
def jsTimerInvariant (t : JsPracticeTimer) : Prop :=
  (t.totalSeconds = .num 0 → t.isRunning = false) ∧
    JsNumber.le (.num 0) t.remainingSeconds = true ∧
    JsNumber.le t.remainingSeconds t.totalSeconds = true

instance jsTimerInvariantDecidable (t : JsPracticeTimer) : Decidable (jsTimerInvariant t) := by
  unfold jsTimerInvariant
  infer_instance

/-! ## Runs on a scheduler that has run before -/

/-- A run on the scheduler `s`: `start()` reading the clock value `t0`, its own
first poll `first`, then the timer polls `polls`. -/
def runFrom (fuel : ℕ) (s : MetronomeScheduler) (t0 : ℚ) (first : Poll) (polls : List Poll) :
    Option (MetronomeScheduler × List Effect) :=
  match MetronomeScheduler.start fuel s t0 first with
  | none => none
  | some (s1, out) =>
    match MetronomeScheduler.runPolls fuel s1 polls with
    | none => none
    | some (s2, rest) => some (s2, out ++ rest)

/-! ## Auxiliary facts: store -/

open MetronomeScheduler

theorem setBpm_bpm (s : State) (x : JsNumber) :
    (actions.setBpm s x).bpm = min 240 (max 40 (x.orElse 120)) := by
  simp [actions.setBpm, clamp, DEFAULT_STATE]

theorem setBpm_maxBpm (s : State) (x : JsNumber) :
    (actions.setBpm s x).overload.maxBpm = s.overload.maxBpm := by
  simp [actions.setBpm]

theorem setBpm_targetBpm (s : State) (x : JsNumber) :
    (actions.setBpm s x).overload.targetBpm =
      min s.overload.maxBpm
        (max (actions.setBpm s x).bpm (jsOr s.overload.targetBpm (actions.setBpm s x).bpm)) := by
  simp [actions.setBpm]

theorem setBpm_bpm_ge (s : State) (x : JsNumber) : 40 ≤ (actions.setBpm s x).bpm := by
  rw [setBpm_bpm]
  exact le_min (by norm_num) (le_max_left _ _)

theorem setBpmAll_maxBpm (s : State) (inputs : List JsNumber) :
    (setBpmAll s inputs).overload.maxBpm = s.overload.maxBpm := by
  induction inputs generalizing s with
  | nil => rfl
  | cons x xs ih =>
    show (setBpmAll (actions.setBpm s x) xs).overload.maxBpm = _
    rw [ih, setBpm_maxBpm]

theorem setBpmAll_append (s : State) (xs : List JsNumber) (x : JsNumber) :
    setBpmAll s (xs ++ [x]) = actions.setBpm (setBpmAll s xs) x := by
  simp [setBpmAll, List.foldl_append]

/-! ## Auxiliary facts: tap tempo -/

theorem intervalsOf_even (t0 d : ℚ) (n : ℕ) :
    intervalsOf (List.map (fun i : ℕ => t0 + i * d) (List.range (n + 1))) = List.replicate n d := by
  induction n generalizing t0 with
  | zero => simp [intervalsOf]
  | succ n ih =>
    have h : List.map (fun i : ℕ => t0 + i * d) (List.range (n + 1 + 1)) =
        t0 :: List.map (fun i : ℕ => (t0 + d) + i * d) (List.range (n + 1)) := by
      rw [List.range_succ_eq_map (n + 1)]
      simp only [List.map_cons, List.map_map]
      congr 1
      · simp
      · apply List.map_congr_left
        intro i _
        simp only [Function.comp, Nat.succ_eq_add_one]
        push_cast
        ring
    rw [h]
    have h2 : List.map (fun i : ℕ => (t0 + d) + i * d) (List.range (n + 1)) =
        (t0 + d) :: List.map (fun i : ℕ => (t0 + d + d) + i * d) (List.range n) := by
      rw [List.range_succ_eq_map n]
      simp only [List.map_cons, List.map_map]
      congr 1
      · simp
      · apply List.map_congr_left
        intro i _
        simp only [Function.comp, Nat.succ_eq_add_one]
        push_cast
        ring
    have ih2 := ih (t0 + d)
    rw [h2] at ih2 ⊢
    rw [intervalsOf, ih2, List.replicate_succ]
    simp

theorem insertionSort_replicate (k : ℕ) (d : ℚ) :
    (List.replicate k d).insertionSort (fun a b => a ≤ b) = List.replicate k d := by
  apply List.Sorted.insertionSort_eq
  simp [List.Sorted, List.pairwise_replicate]

theorem slice_replicate (k : ℕ) (d : ℚ) (a b : ℕ) :
    slice (List.replicate k d) a b = List.replicate (min b k - a) d := by
  simp [slice]

theorem foldl_add_replicate (k : ℕ) (d acc : ℚ) :
    (List.replicate k d).foldl (fun sum v => sum + v) acc = acc + k * d := by
  induction k generalizing acc with
  | zero => simp
  | succ k ih =>
    rw [List.replicate_succ, List.foldl_cons, ih]
    push_cast
    ring

theorem avg_replicate (k : ℕ) (d : ℚ) (hk : 0 < k) (hd : 0 < d) :
    jsOr ((List.replicate k d).foldl (fun sum v => sum + v) 0 / (List.replicate k d).length) 0 = d := by
  rw [foldl_add_replicate, List.length_replicate, zero_add]
  have hk0 : (k : ℚ) ≠ 0 := by exact_mod_cast hk.ne.symm
  rw [mul_comm, mul_div_assoc, div_self hk0, mul_one]
  simp [jsOr, hd.ne.symm]

/-! ## Auxiliary facts: scheduler -/

theorem firstBeat_iff (t f : ℕ) : (t / f = 0 ∧ t % f = 0) ↔ t = 0 := by
  constructor
  · rintro ⟨h1, h2⟩
    have := Nat.div_add_mod t f
    rw [h1, h2] at this
    simpa using this.symm
  · rintro rfl
    simp

theorem clickTimes_append (a b : List Effect) :
    clickTimes (a ++ b) = clickTimes a ++ clickTimes b := by
  induction a with
  | nil => rfl
  | cons e a ih => cases e <;> simp [clickTimes, ih]

theorem tickInfos_append (a b : List Effect) :
    tickInfos (a ++ b) = tickInfos a ++ tickInfos b := by
  induction a with
  | nil => rfl
  | cons e a ih => cases e <;> simp [tickInfos, ih]

/-- What the loop of one poll does, in closed form: it schedules some number
`n` of ticks, at `nextNoteTime + k * secondsPerSubdivision` with bar positions
`(currentTickInBar + k) % ticksPerBar`, all inside the lookahead window, and
leaves `nextNoteTime` at or after the end of the window. -/
theorem whileLoop_spec (state : State) (c : ℚ) (T : Timing) :
    ∀ (fuel : ℕ) (s s1 : MetronomeScheduler) (out : List Effect),
      whileLoop state c T fuel s = some (s1, out) →
      ∃ n : ℕ,
        clickTimes out =
          (List.range n).map (fun k : ℕ => s.nextNoteTime + k * T.secondsPerSubdivision) ∧
        (tickInfos out).map (fun i => i.tickInBar) =
          (List.range n).map (fun k : ℕ => (s.currentTickInBar + k) % T.ticksPerBar) ∧
        s1.nextNoteTime = s.nextNoteTime + n * T.secondsPerSubdivision ∧
        s1.currentTickInBar % T.ticksPerBar = (s.currentTickInBar + n) % T.ticksPerBar ∧
        s1.isRunning = s.isRunning ∧
        c + SCHEDULE_AHEAD_SEC ≤ s1.nextNoteTime ∧
        (∀ t ∈ clickTimes out, t < c + SCHEDULE_AHEAD_SEC) := by
  intro fuel
  induction fuel with
  | zero =>
    intro s s1 out h
    unfold whileLoop at h
    split at h
    · cases h
    · rename_i hc
      cases h
      exact ⟨0, by simp [clickTimes], by simp [tickInfos], by simp, by simp, rfl,
        not_lt.mp hc, by simp [clickTimes]⟩
  | succ fuel ih =>
    intro s s1 out h
    unfold whileLoop at h
    split at h
    · rename_i hc
      simp only at h
      split at h
      · cases h
      · rename_i s2 rest hrec
        cases h
        obtain ⟨n, h1, h2, h3, h4, h5, h6, h7⟩ := ih _ _ _ hrec
        refine ⟨n + 1, ?_, ?_, ?_, ?_, ?_, h6, ?_⟩
        · rw [clickTimes_append, h1, List.range_succ_eq_map]
          simp only [scheduleTick, clickTimes, List.map_cons, List.map_map, List.cons_append,
            List.nil_append]
          congr 1
          · simp
          · apply List.map_congr_left
            intro k _
            simp only [Function.comp, Nat.succ_eq_add_one]
            push_cast
            ring
        · rw [tickInfos_append, List.map_append, h2, List.range_succ_eq_map]
          simp only [scheduleTick, tickInfos, List.map_cons, List.map_map, List.cons_append,
            List.nil_append, List.map_nil]
          congr 1
          apply List.map_congr_left
          intro k _
          simp only [Function.comp, Nat.succ_eq_add_one, Nat.mod_add_mod]
          congr 1
          ring
        · rw [h3]
          simp only [scheduleTick]
          push_cast
          ring
        · rw [h4]
          simp only [scheduleTick, Nat.mod_add_mod]
          congr 1
          ring
        · rw [h5]
          rfl
        · intro t ht
          rw [clickTimes_append] at ht
          simp only [scheduleTick, clickTimes, List.cons_append, List.nil_append,
            List.mem_cons] at ht
          rcases ht with rfl | ht
          · exact hc
          · exact h7 t ht
    · rename_i hc
      cases h
      exact ⟨0, by simp [clickTimes], by simp [tickInfos], by simp, by simp, rfl,
        not_lt.mp hc, by simp [clickTimes]⟩

theorem getSubdivisionFactor_mem (sub : String) :
    getSubdivisionFactor sub = 1 ∨ getSubdivisionFactor sub = 2 ∨ getSubdivisionFactor sub = 4 := by
  unfold getSubdivisionFactor
  split <;> simp

theorem getSubdivisionFactor_pos (sub : String) : 0 < getSubdivisionFactor sub := by
  rcases getSubdivisionFactor_mem sub with h | h | h <;> omega

/-- The loop of one poll returns once the fuel reaches the number of
subdivisions between `nextNoteTime` and the end of the window. -/
theorem whileLoop_returns (state : State) (c : ℚ) (T : Timing) :
    ∀ (n : ℕ) (s : MetronomeScheduler),
      c + SCHEDULE_AHEAD_SEC - s.nextNoteTime ≤ n * T.secondsPerSubdivision →
      ∃ r, ∀ fuel, n ≤ fuel → whileLoop state c T fuel s = some r := by
  intro n
  induction n with
  | zero =>
    intro s hs
    have hc : ¬ s.nextNoteTime < c + SCHEDULE_AHEAD_SEC := by
      simp only [Nat.cast_zero, zero_mul] at hs
      linarith
    refine ⟨(s, []), ?_⟩
    intro fuel _
    cases fuel <;> simp [whileLoop, hc]
  | succ n ih =>
    intro s hs
    by_cases hc : s.nextNoteTime < c + SCHEDULE_AHEAD_SEC
    · obtain ⟨r, hr⟩ := ih
        { (scheduleTick s state s.nextNoteTime T).1 with
          nextNoteTime :=
            (scheduleTick s state s.nextNoteTime T).1.nextNoteTime + T.secondsPerSubdivision }
        (by
          simp only [scheduleTick]
          push_cast at hs
          linarith)
      refine ⟨(r.1, (scheduleTick s state s.nextNoteTime T).2 ++ r.2), ?_⟩
      intro fuel hfuel
      obtain ⟨m, rfl⟩ : ∃ m, fuel = m + 1 := ⟨fuel - 1, by omega⟩
      have := hr m (by omega)
      simp only [whileLoop, hc, if_true, this]
    · refine ⟨(s, []), ?_⟩
      intro fuel _
      cases fuel <;> simp [whileLoop, hc]

theorem whileLoop_total (state : State) (c : ℚ) (T : Timing)
    (hpos : 0 < T.secondsPerSubdivision) (s : MetronomeScheduler) :
    ∃ N r, ∀ fuel, N ≤ fuel → whileLoop state c T fuel s = some r := by
  obtain ⟨n, hn⟩ := exists_nat_ge ((c + SCHEDULE_AHEAD_SEC - s.nextNoteTime) / T.secondsPerSubdivision)
  obtain ⟨r, hr⟩ := whileLoop_returns state c T n s ((div_le_iff₀ hpos).mp hn)
  exact ⟨n, r, hr⟩

theorem computeTiming_pos (state : State) (h : 0 < state.bpm) :
    0 < (computeTiming state).secondsPerSubdivision := by
  have hf : (0 : ℚ) < getSubdivisionFactor state.subdivision := by
    exact_mod_cast getSubdivisionFactor_pos state.subdivision
  have h60 : (0 : ℚ) < 60 / state.bpm := div_pos (by norm_num) h
  simp only [computeTiming]
  split
  · exact div_pos (mul_pos h60 (by norm_num)) hf
  · exact div_pos h60 hf

theorem schedulerLoop_total (s : MetronomeScheduler) (p : Poll) (h : 0 < p.state.bpm) :
    ∃ N r, ∀ fuel, N ≤ fuel → schedulerLoop fuel s p = some r := by
  by_cases hr : s.isRunning = true
  · obtain ⟨N, r, hN⟩ :=
      whileLoop_total p.state p.ctxTime (computeTiming p.state) (computeTiming_pos _ h) s
    exact ⟨N, r, fun fuel hf => by simp [schedulerLoop, hr, hN fuel hf]⟩
  · exact ⟨0, (s, []), fun fuel _ => by simp [schedulerLoop, hr]⟩

theorem runPolls_total (polls : List Poll) (h : ∀ p ∈ polls, 0 < p.state.bpm) :
    ∀ s : MetronomeScheduler, ∃ N r, ∀ fuel, N ≤ fuel → runPolls fuel s polls = some r := by
  induction polls with
  | nil => exact fun s => ⟨0, (s, []), fun _ _ => rfl⟩
  | cons p ps ih =>
    intro s
    obtain ⟨N1, r1, h1⟩ := schedulerLoop_total s p (h p (List.mem_cons_self _ _))
    obtain ⟨N2, r2, h2⟩ := ih (fun q hq => h q (List.mem_cons_of_mem _ hq)) r1.1
    refine ⟨max N1 N2, (r2.1, r1.2 ++ r2.2), ?_⟩
    intro fuel hf
    have e1 := h1 fuel (le_trans (le_max_left _ _) hf)
    have e2 := h2 fuel (le_trans (le_max_right _ _) hf)
    simp only [runPolls, e1, e2]

/-- A run is `onStart` followed by the polls, the first one included, on the
scheduler that `start()` has initialised. -/
theorem run_eq (fuel : ℕ) (t0 : ℚ) (first : Poll) (polls : List Poll) :
    run fuel t0 first polls =
      (runPolls fuel (started t0) (first :: polls)).map
        (fun r => (r.1, Effect.onStart :: r.2)) := by
  simp only [run, start, MetronomeScheduler.new, runPolls, started, Bool.false_eq_true, if_false]
  cases h1 : schedulerLoop fuel _ first with
  | none => simp
  | some r1 =>
    simp only
    cases h2 : runPolls fuel r1.1 polls with
    | none => simp
    | some r2 => simp

theorem run_total (t0 : ℚ) (first : Poll) (polls : List Poll)
    (h : ∀ p ∈ first :: polls, 0 < p.state.bpm) :
    ∃ fuel r, run fuel t0 first polls = some r := by
  obtain ⟨N, r, hr⟩ := runPolls_total (first :: polls) h (started t0)
  exact ⟨N, (r.1, Effect.onStart :: r.2), by rw [run_eq, hr N le_rfl]; rfl⟩

theorem mod_shift (a b n k m : ℕ) (h : a % m = (b + n) % m) :
    (a + k) % m = (b + (n + k)) % m := by
  rw [Nat.add_mod, h, ← Nat.add_mod, Nat.add_assoc]

theorem schedulerLoop_spec (fuel : ℕ) (s s1 : MetronomeScheduler) (p : Poll) (out : List Effect)
    (h : schedulerLoop fuel s p = some (s1, out)) :
    ∃ n : ℕ,
      clickTimes out =
        (List.range n).map
          (fun k : ℕ => s.nextNoteTime + k * (computeTiming p.state).secondsPerSubdivision) ∧
      (tickInfos out).map (fun i => i.tickInBar) =
        (List.range n).map
          (fun k : ℕ => (s.currentTickInBar + k) % (computeTiming p.state).ticksPerBar) ∧
      s1.nextNoteTime = s.nextNoteTime + n * (computeTiming p.state).secondsPerSubdivision ∧
      s1.currentTickInBar % (computeTiming p.state).ticksPerBar =
        (s.currentTickInBar + n) % (computeTiming p.state).ticksPerBar ∧
      s1.isRunning = s.isRunning := by
  unfold schedulerLoop at h
  split at h
  · cases h
    exact ⟨0, by simp [clickTimes], by simp [tickInfos], by simp, by simp, rfl⟩
  · obtain ⟨n, h1, h2, h3, h4, h5, _, _⟩ := whileLoop_spec _ _ _ _ _ _ _ h
    exact ⟨n, h1, h2, h3, h4, h5⟩

theorem runPolls_times (sps : ℚ) (polls : List Poll)
    (hc : ∀ p ∈ polls, (computeTiming p.state).secondsPerSubdivision = sps) :
    ∀ (fuel : ℕ) (s s1 : MetronomeScheduler) (out : List Effect),
      runPolls fuel s polls = some (s1, out) →
      ∃ n : ℕ,
        clickTimes out = (List.range n).map (fun k : ℕ => s.nextNoteTime + k * sps) ∧
        s1.nextNoteTime = s.nextNoteTime + n * sps := by
  induction polls with
  | nil =>
    intro fuel s s1 out h
    simp only [runPolls, Option.some.injEq, Prod.mk.injEq] at h
    obtain ⟨rfl, rfl⟩ := h
    exact ⟨0, by simp [clickTimes], by simp⟩
  | cons p ps ih =>
    intro fuel s s1 out h
    unfold runPolls at h
    split at h
    · cases h
    · rename_i sa outa ha
      split at h
      · cases h
      · rename_i sb outb hb
        cases h
        obtain ⟨n1, a1, _, a3, _, _⟩ := schedulerLoop_spec _ _ _ _ _ ha
        rw [hc p (List.mem_cons_self _ _)] at a1 a3
        obtain ⟨n2, b1, b2⟩ := ih (fun q hq => hc q (List.mem_cons_of_mem _ hq)) _ _ _ _ hb
        refine ⟨n1 + n2, ?_, ?_⟩
        · rw [clickTimes_append, a1, b1, List.range_add, List.map_append, List.map_map, a3]
          congr 1
          apply List.map_congr_left
          intro k _
          simp only [Function.comp]
          push_cast
          ring
        · rw [b2, a3]
          push_cast
          ring

theorem runPolls_ticks (tpb : ℕ) (polls : List Poll)
    (hc : ∀ p ∈ polls, (computeTiming p.state).ticksPerBar = tpb) :
    ∀ (fuel : ℕ) (s s1 : MetronomeScheduler) (out : List Effect),
      runPolls fuel s polls = some (s1, out) →
      ∃ n : ℕ,
        (tickInfos out).map (fun i => i.tickInBar) =
          (List.range n).map (fun k : ℕ => (s.currentTickInBar + k) % tpb) ∧
        s1.currentTickInBar % tpb = (s.currentTickInBar + n) % tpb := by
  induction polls with
  | nil =>
    intro fuel s s1 out h
    simp only [runPolls, Option.some.injEq, Prod.mk.injEq] at h
    obtain ⟨rfl, rfl⟩ := h
    exact ⟨0, by simp [tickInfos], by simp⟩
  | cons p ps ih =>
    intro fuel s s1 out h
    unfold runPolls at h
    split at h
    · cases h
    · rename_i sa outa ha
      split at h
      · cases h
      · rename_i sb outb hb
        cases h
        obtain ⟨n1, _, a2, _, a4, _⟩ := schedulerLoop_spec _ _ _ _ _ ha
        rw [hc p (List.mem_cons_self _ _)] at a2 a4
        obtain ⟨n2, b1, b2⟩ := ih (fun q hq => hc q (List.mem_cons_of_mem _ hq)) _ _ _ _ hb
        refine ⟨n1 + n2, ?_, ?_⟩
        · rw [tickInfos_append, List.map_append, a2, b1, List.range_add, List.map_append,
            List.map_map]
          congr 1
          apply List.map_congr_left
          intro k _
          simp only [Function.comp]
          exact mod_shift _ _ _ _ _ a4
        · rw [b2]
          exact mod_shift _ _ _ _ _ a4

theorem runPolls_increasing (polls : List Poll)
    (hc : ∀ p ∈ polls, 0 < (computeTiming p.state).secondsPerSubdivision) :
    ∀ (fuel : ℕ) (s s1 : MetronomeScheduler) (out : List Effect),
      runPolls fuel s polls = some (s1, out) →
      List.Pairwise (fun a b => a < b) (clickTimes out) ∧
        (∀ t ∈ clickTimes out, s.nextNoteTime ≤ t ∧ t < s1.nextNoteTime) ∧
        s.nextNoteTime ≤ s1.nextNoteTime := by
  induction polls with
  | nil =>
    intro fuel s s1 out h
    simp only [runPolls, Option.some.injEq, Prod.mk.injEq] at h
    obtain ⟨rfl, rfl⟩ := h
    simp [clickTimes]
  | cons p ps ih =>
    intro fuel s s1 out h
    unfold runPolls at h
    split at h
    · cases h
    · rename_i sa outa ha
      split at h
      · cases h
      · rename_i sb outb hb
        cases h
        have hpos := hc p (List.mem_cons_self _ _)
        obtain ⟨n1, a1, _, a3, _, _⟩ := schedulerLoop_spec _ _ _ _ _ ha
        obtain ⟨b1, b2, b3⟩ := ih (fun q hq => hc q (List.mem_cons_of_mem _ hq)) _ _ _ _ hb
        have hle : s.nextNoteTime ≤ sa.nextNoteTime := by
          rw [a3]
          have : (0 : ℚ) ≤ n1 * (computeTiming p.state).secondsPerSubdivision :=
            mul_nonneg (Nat.cast_nonneg _) hpos.le
          linarith
        have hmem : ∀ t ∈ clickTimes outa, s.nextNoteTime ≤ t ∧ t < sa.nextNoteTime := by
          intro t ht
          rw [a1, List.mem_map] at ht
          obtain ⟨k, hk, rfl⟩ := ht
          rw [List.mem_range] at hk
          have hk2 : (k : ℚ) < n1 := by exact_mod_cast hk
          have h0 : (0 : ℚ) ≤ k * (computeTiming p.state).secondsPerSubdivision :=
            mul_nonneg (Nat.cast_nonneg _) hpos.le
          have h1 := mul_lt_mul_of_pos_right hk2 hpos
          rw [a3]
          constructor <;> linarith
        refine ⟨?_, ?_, le_trans hle b3⟩
        · rw [clickTimes_append, List.pairwise_append]
          refine ⟨?_, b1, ?_⟩
          · rw [a1, List.pairwise_map]
            refine List.Pairwise.imp ?_ (List.pairwise_lt_range n1)
            intro i j hij
            have hij2 : (i : ℚ) < j := by exact_mod_cast hij
            have := mul_lt_mul_of_pos_right hij2 hpos
            linarith
          · intro a ha2 b hb2
            exact lt_of_lt_of_le (hmem a ha2).2 (b2 b hb2).1
        · intro t ht
          rw [clickTimes_append, List.mem_append] at ht
          rcases ht with ht | ht
          · exact ⟨(hmem t ht).1, lt_of_lt_of_le (hmem t ht).2 b3⟩
          · exact ⟨le_trans hle (b2 t ht).1, (b2 t ht).2⟩


theorem computeTiming_congr (a b : State) (h1 : a.bpm = b.bpm)
    (h2 : a.timeSignature = b.timeSignature) (h3 : a.subdivision = b.subdivision) :
    computeTiming a = computeTiming b := by
  simp [computeTiming, h1, h2, h3]

theorem run_some (fuel : ℕ) (t0 : ℚ) (first : Poll) (polls : List Poll)
    (r : MetronomeScheduler × List Effect) (h : run fuel t0 first polls = some r) :
    ∃ out, runPolls fuel (started t0) (first :: polls) = some (r.1, out) ∧
      clickTimes r.2 = clickTimes out ∧ tickInfos r.2 = tickInfos out := by
  rw [run_eq, Option.map_eq_some'] at h
  obtain ⟨r0, h0, rfl⟩ := h
  exact ⟨r0.2, h0, rfl, rfl⟩

/-! ## The claims -/

/-- In exact arithmetic: when tempo, time signature and subdivision are the
same at every poll of a run, the run returns and its k-th scheduled tick
(k = 0, 1, 2, ...) is passed to `scheduleClick` with time
`t0 + 0.1 + k * secondsPerSubdivision`, for every clock value `t0` read by
`start()` and every sequence of poll clock times.  The arithmetic of the code
rounds every sum; the rounded scheduler is treated at the end of the file. -/
theorem run_clickTimes_exact (t0 : ℚ) (first : Poll) (polls : List Poll)
    (hbpm : 0 < first.state.bpm)
    (hconst : ∀ p ∈ polls, p.state.bpm = first.state.bpm ∧
      p.state.timeSignature = first.state.timeSignature ∧
      p.state.subdivision = first.state.subdivision) :
    (∃ fuel r, run fuel t0 first polls = some r) ∧
      ∀ fuel r, run fuel t0 first polls = some r →
        ∀ (k : ℕ) (t : ℚ), (clickTimes r.2)[k]? = some t →
          t = t0 + 1 / 10 + k * (computeTiming first.state).secondsPerSubdivision := by
  constructor
  · apply run_total
    intro p hp
    rcases List.mem_cons.mp hp with rfl | hp
    · exact hbpm
    · rw [(hconst p hp).1]
      exact hbpm
  · intro fuel r h k t hk
    obtain ⟨out, h0, e1, _⟩ := run_some fuel t0 first polls r h
    have hc : ∀ p ∈ first :: polls, (computeTiming p.state).secondsPerSubdivision =
        (computeTiming first.state).secondsPerSubdivision := by
      intro p hp
      rcases List.mem_cons.mp hp with rfl | hp
      · rfl
      · obtain ⟨c1, c2, c3⟩ := hconst p hp
        rw [computeTiming_congr _ _ c1 c2 c3]
    obtain ⟨n, hn, _⟩ := runPolls_times _ _ hc _ _ _ _ h0
    rw [e1, hn, List.getElem?_map] at hk
    cases hr : (List.range n)[k]? with
    | none => rw [hr] at hk; cases hk
    | some j =>
      rw [hr] at hk
      obtain ⟨hj, rfl⟩ := List.getElem?_eq_some_iff.mp hr
      rw [List.getElem_range] at hk
      simp only [Option.map_some', Option.some.injEq, started] at hk
      exact hk.symm

/-- C2: within one run, whatever the poll clock times and whatever the store
holds at each poll (tempo, signature and subdivision may change between polls,
bpm staying in [40,240]), the run returns and the times passed to
`scheduleClick` are strictly increasing. -/
theorem run_clickTimes_strictly_increasing (t0 : ℚ) (first : Poll) (polls : List Poll)
    (hbpm : ∀ p ∈ first :: polls, 40 ≤ p.state.bpm ∧ p.state.bpm ≤ 240) :
    (∃ fuel r, run fuel t0 first polls = some r) ∧
      ∀ fuel r, run fuel t0 first polls = some r →
        List.Pairwise (fun a b => a < b) (clickTimes r.2) := by
  have hpos : ∀ p ∈ first :: polls, 0 < p.state.bpm := by
    intro p hp
    have := (hbpm p hp).1
    linarith
  refine ⟨run_total t0 first polls hpos, ?_⟩
  intro fuel r h
  obtain ⟨out, h0, e1, _⟩ := run_some fuel t0 first polls r h
  rw [e1]
  exact (runPolls_increasing _ (fun p hp => computeTiming_pos _ (hpos p hp)) _ _ _ _ h0).1

/-- C2, at a run whose second poll sees the tempo changed to 240 and the
subdivision to sixteenths. -/
theorem run_clickTimes_strictly_increasing_witness :
    (∀ p ∈ [Poll.mk 0 DEFAULT_STATE,
        Poll.mk 1 { DEFAULT_STATE with bpm := 240, subdivision := "sixteenth" }],
        40 ≤ p.state.bpm ∧ p.state.bpm ≤ 240) ∧
      ((∃ fuel r, run fuel 0 (Poll.mk 0 DEFAULT_STATE)
          [Poll.mk 1 { DEFAULT_STATE with bpm := 240, subdivision := "sixteenth" }] = some r) ∧
        ∀ fuel r, run fuel 0 (Poll.mk 0 DEFAULT_STATE)
            [Poll.mk 1 { DEFAULT_STATE with bpm := 240, subdivision := "sixteenth" }] = some r →
          List.Pairwise (fun a b => a < b) (clickTimes r.2)) :=
  ⟨by norm_num [DEFAULT_STATE],
    run_clickTimes_strictly_increasing 0 (Poll.mk 0 DEFAULT_STATE)
      [Poll.mk 1 { DEFAULT_STATE with bpm := 240, subdivision := "sixteenth" }]
      (by norm_num [DEFAULT_STATE])⟩

/-- C3: for every bpm in [40,240], every time signature among 2/4, 3/4, 4/4, 6/8
and every subdivision among quarter, eighth, sixteenth, `_computeTiming` returns
`secondsPerSubdivision = (60 / bpm) * (1.5 if 6/8 else 1) / f` and
`ticksPerBar = beatsPerBar * f`, with `f = 1, 2, 4` and `beatsPerBar = 2, 3, 4, 2`;
in particular (120, 4/4, quarter) gives 0.5 s and 4 ticks per bar, and
(90, 6/8, quarter) gives 1.0 s and 2 ticks per bar. -/
theorem computeTiming_values (st : State) (_hlo : 40 ≤ st.bpm) (_hhi : st.bpm ≤ 240)
    (hsig : st.timeSignature ∈ ["2/4", "3/4", "4/4", "6/8"])
    (hsub : st.subdivision ∈ ["quarter", "eighth", "sixteenth"]) :
    (computeTiming st).secondsPerSubdivision =
        (60 / st.bpm) * (if st.timeSignature = "6/8" then 3 / 2 else 1) /
          (if st.subdivision = "quarter" then 1 else if st.subdivision = "eighth" then 2 else 4) ∧
      (computeTiming st).ticksPerBar =
        (if st.timeSignature = "2/4" then 2 else if st.timeSignature = "3/4" then 3
          else if st.timeSignature = "4/4" then 4 else 2) *
          (if st.subdivision = "quarter" then 1 else if st.subdivision = "eighth" then 2 else 4) ∧
      (st.bpm = 120 → st.timeSignature = "4/4" → st.subdivision = "quarter" →
        (computeTiming st).secondsPerSubdivision = 1 / 2 ∧ (computeTiming st).ticksPerBar = 4) ∧
      (st.bpm = 90 → st.timeSignature = "6/8" → st.subdivision = "quarter" →
        (computeTiming st).secondsPerSubdivision = 1 ∧ (computeTiming st).ticksPerBar = 2) := by
  refine ⟨?_, ?_, ?_, ?_⟩
  · simp only [List.mem_cons, List.mem_singleton, List.mem_nil_iff, or_false] at hsig hsub
    rcases hsig with h | h | h | h <;> rcases hsub with h2 | h2 | h2 <;>
      simp [computeTiming, getSignatureConfig, getSubdivisionFactor, h, h2]
  · simp only [List.mem_cons, List.mem_singleton, List.mem_nil_iff, or_false] at hsig hsub
    rcases hsig with h | h | h | h <;> rcases hsub with h2 | h2 | h2 <;>
      simp [computeTiming, getSignatureConfig, getSubdivisionFactor, h, h2]
  · intro hb hs hq
    simp only [computeTiming, getSignatureConfig, getSubdivisionFactor, hb, hs, hq]
    norm_num
  · intro hb hs hq
    simp only [computeTiming, getSignatureConfig, getSubdivisionFactor, hb, hs, hq]
    norm_num

/-- C3, at the state with bpm 90, signature 6/8 and quarter subdivision. -/
theorem computeTiming_values_witness :
    (computeTiming { DEFAULT_STATE with bpm := 90, timeSignature := "6/8" }).secondsPerSubdivision = 1 ∧
      (computeTiming { DEFAULT_STATE with bpm := 90, timeSignature := "6/8" }).ticksPerBar = 2 :=
  (computeTiming_values { DEFAULT_STATE with bpm := 90, timeSignature := "6/8" }
    (by norm_num) (by norm_num) (by simp) (by simp [DEFAULT_STATE])).2.2.2 rfl rfl rfl

/-- C4: for every store state and every numeric input (zero, negative,
fractional, arbitrarily large, and NaN), the bpm stored by `actions.setBpm`
lies in [40,240]. -/
theorem setBpm_bpm_in_range (s : State) (x : JsNumber) :
    40 ≤ (actions.setBpm s x).bpm ∧ (actions.setBpm s x).bpm ≤ 240 := by
  refine ⟨setBpm_bpm_ge s x, ?_⟩
  rw [setBpm_bpm]
  exact min_le_left _ _

/-- C5 as stated fails: the input 0 is below 40, yet `actions.setBpm(0)` stores
the default 120, not 40. -/
theorem setBpm_zero_stores_default :
    (0 : ℚ) < 40 ∧ (actions.setBpm DEFAULT_STATE (JsNumber.num 0)).bpm = 120 ∧
      (actions.setBpm DEFAULT_STATE (JsNumber.num 0)).bpm ≠ 40 := by
  rw [setBpm_bpm]
  norm_num [JsNumber.orElse]

/-- C5, amended: for every numeric input x other than 0, the bpm stored by
`actions.setBpm(x)` is x clamped into [40,240] (40 when x < 40, 240 when
x > 240, x itself otherwise); for the falsy inputs 0 and NaN it is the default 120. -/
theorem setBpm_bpm_clamped_or_default (s : State) (x : ℚ) :
    (actions.setBpm s (JsNumber.num x)).bpm =
        (if x = 0 then 120 else if x < 40 then 40 else if 240 < x then 240 else x) ∧
      (actions.setBpm s JsNumber.nan).bpm = 120 := by
  rw [setBpm_bpm, setBpm_bpm]
  constructor
  · simp only [JsNumber.orElse]
    by_cases h0 : x = 0
    · simp [h0]; norm_num
    · simp only [h0, if_false]
      by_cases h1 : x < 40
      · simp only [h1, if_true]
        rw [max_eq_left h1.le]; norm_num
      · simp only [h1, if_false]
        push_neg at h1
        rw [max_eq_right h1]
        by_cases h2 : 240 < x
        · simp only [h2, if_true]; exact min_eq_left h2.le
        · simp only [h2, if_false]; push_neg at h2; exact min_eq_right h2
  · norm_num [JsNumber.orElse]

/-- C6 as stated fails: from the default state, `actions.setBpm(200)` stores
bpm 200 while `overload.targetBpm` is capped at `overload.maxBpm = 160`. -/
theorem setBpm_above_maxBpm_exceeds_target :
    (actions.setBpm DEFAULT_STATE (JsNumber.num 200)).bpm = 200 ∧
      (actions.setBpm DEFAULT_STATE (JsNumber.num 200)).overload.targetBpm = 160 ∧
      ¬ ((actions.setBpm DEFAULT_STATE (JsNumber.num 200)).bpm ≤
        (actions.setBpm DEFAULT_STATE (JsNumber.num 200)).overload.targetBpm) := by
  rw [setBpm_targetBpm, setBpm_bpm]
  norm_num [JsNumber.orElse, jsOr, DEFAULT_STATE]

/-- C6, amended: starting from the default state, after every finite sequence
of `actions.setBpm` calls `overload.maxBpm` is still 160 and
`min(bpm, overload.maxBpm) <= overload.targetBpm <= overload.maxBpm`; so
`bpm <= overload.targetBpm` holds whenever `bpm <= overload.maxBpm`. -/
theorem setBpmAll_target_between (inputs : List JsNumber) :
    (setBpmAll DEFAULT_STATE inputs).overload.maxBpm = 160 ∧
      (setBpmAll DEFAULT_STATE inputs).overload.targetBpm ≤
        (setBpmAll DEFAULT_STATE inputs).overload.maxBpm ∧
      min (setBpmAll DEFAULT_STATE inputs).bpm (setBpmAll DEFAULT_STATE inputs).overload.maxBpm ≤
        (setBpmAll DEFAULT_STATE inputs).overload.targetBpm := by
  have hmax := setBpmAll_maxBpm DEFAULT_STATE inputs
  refine ⟨by rw [hmax]; rfl, ?_⟩
  induction inputs using List.reverseRecOn with
  | nil => norm_num [setBpmAll, DEFAULT_STATE]
  | append_singleton xs x _ =>
    rw [setBpmAll_append] at hmax ⊢
    rw [setBpm_targetBpm, setBpm_maxBpm]
    refine ⟨min_le_left _ _, ?_⟩
    rw [min_comm]
    exact min_le_min le_rfl (le_max_left _ _)

/-- C7: for every store state with a non-negative `overload.targetBpm` and
every numeric input, after `actions.setBpm` the new `overload.targetBpm` equals
`clamp(max(newBpm, oldTargetBpm), newBpm, overload.maxBpm)` with `clamp` as in
`utils/clamp`, where `newBpm` is the bpm just stored, and `overload.maxBpm` is
unchanged. -/
theorem setBpm_targetBpm_tie_break (s : State) (x : JsNumber)
    (_h : 0 ≤ s.overload.targetBpm) :
    (actions.setBpm s x).overload.targetBpm =
        clamp (JsNumber.num (max (actions.setBpm s x).bpm s.overload.targetBpm))
          (actions.setBpm s x).bpm s.overload.maxBpm ∧
      (actions.setBpm s x).overload.maxBpm = s.overload.maxBpm := by
  refine ⟨?_, setBpm_maxBpm s x⟩
  rw [setBpm_targetBpm]
  have hb := setBpm_bpm_ge s x
  simp only [clamp, jsOr]
  congr 1
  by_cases h0 : s.overload.targetBpm = 0
  · rw [if_pos h0, h0, max_self]
    rw [max_eq_left (by linarith : (0 : ℚ) ≤ (actions.setBpm s x).bpm), max_self]
  · rw [if_neg h0, max_eq_right (le_max_left _ _)]

/-- C7, at the default state and the input 200. -/
theorem setBpm_targetBpm_tie_break_witness :
    (0 : ℚ) ≤ DEFAULT_STATE.overload.targetBpm ∧
      ((actions.setBpm DEFAULT_STATE (JsNumber.num 200)).overload.targetBpm =
        clamp (JsNumber.num (max (actions.setBpm DEFAULT_STATE (JsNumber.num 200)).bpm
            DEFAULT_STATE.overload.targetBpm))
          (actions.setBpm DEFAULT_STATE (JsNumber.num 200)).bpm DEFAULT_STATE.overload.maxBpm ∧
      (actions.setBpm DEFAULT_STATE (JsNumber.num 200)).overload.maxBpm =
        DEFAULT_STATE.overload.maxBpm) :=
  ⟨by norm_num [DEFAULT_STATE],
    setBpm_targetBpm_tie_break DEFAULT_STATE (JsNumber.num 200) (by norm_num [DEFAULT_STATE])⟩

/-- C8: for every value of the internal tick counter, every subdivision factor
in {1,2,4} and every beatsPerBar in {2,3,4}, `_scheduleTick` makes exactly the
calls `scheduleClick(time, accent)` and `onTick(info)` with `info.isAccent = accent`
and `info.tickInBar = counter % ticksPerBar`, and the accent flag is true if and
only if `accentEnabled` is true and `tickInBar` is 0. -/
theorem scheduleTick_accent_iff (s : MetronomeScheduler) (state : State) (time : ℚ)
    (timing : Timing) (_hf : timing.subdivisionFactor ∈ [1, 2, 4])
    (_hb : timing.beatsPerBar ∈ [2, 3, 4])
    (_ht : timing.ticksPerBar = timing.beatsPerBar * timing.subdivisionFactor) :
    ∃ accent info,
      (scheduleTick s state time timing).2 =
          [Effect.scheduleClick time accent, Effect.onTick info] ∧
        info.isAccent = accent ∧
        info.tickInBar = s.currentTickInBar % timing.ticksPerBar ∧
        (accent = true ↔ state.accentEnabled = true ∧ info.tickInBar = 0) := by
  refine ⟨_, _, rfl, rfl, rfl, ?_⟩
  simp only [Bool.and_eq_true, decide_eq_true_eq]
  rw [firstBeat_iff]

/-- C8, at tick counter 4 in 4/4 with eighth subdivision (ticksPerBar 8). -/
theorem scheduleTick_accent_iff_witness :
    ((2 : ℕ) ∈ [1, 2, 4] ∧ (4 : ℕ) ∈ [2, 3, 4] ∧ (8 : ℕ) = 4 * 2) ∧
      ∃ accent info,
        (scheduleTick (MetronomeScheduler.mk true true 0 4) DEFAULT_STATE 0
            (Timing.mk (1 / 4) 4 8 2)).2 =
            [Effect.scheduleClick 0 accent, Effect.onTick info] ∧
          info.isAccent = accent ∧
          info.tickInBar = 4 % 8 ∧
          (accent = true ↔ DEFAULT_STATE.accentEnabled = true ∧ info.tickInBar = 0) :=
  ⟨by simp,
    scheduleTick_accent_iff (MetronomeScheduler.mk true true 0 4) DEFAULT_STATE 0
      (Timing.mk (1 / 4) 4 8 2) (by simp) (by simp) (by rfl)⟩

/-- On a fresh scheduler: with signature and subdivision the same at every
poll of a run (any stored tempo), the run returns and its k-th scheduled tick
(k = 0, 1, 2, ...) reports `tickInBar = k mod ticksPerBar`; for
`ticksPerBar = 4` the first six ticks report 0, 1, 2, 3, 0, 1. -/
theorem run_ticks_wrap (t0 : ℚ) (first : Poll) (polls : List Poll)
    (hbpm : ∀ p ∈ first :: polls, 0 < p.state.bpm)
    (hconst : ∀ p ∈ polls, p.state.timeSignature = first.state.timeSignature ∧
      p.state.subdivision = first.state.subdivision) :
    (∃ fuel r, run fuel t0 first polls = some r) ∧
      (∀ fuel r, run fuel t0 first polls = some r →
        ∀ (k : ℕ) (info : TickInfo), (tickInfos r.2)[k]? = some info →
          info.tickInBar = k % (computeTiming first.state).ticksPerBar) ∧
      (∀ fuel r, run fuel t0 first polls = some r →
        (computeTiming first.state).ticksPerBar = 4 → 6 ≤ (tickInfos r.2).length →
          ((tickInfos r.2).take 6).map (fun i => i.tickInBar) = [0, 1, 2, 3, 0, 1]) := by
  have hc : ∀ p ∈ first :: polls, (computeTiming p.state).ticksPerBar =
      (computeTiming first.state).ticksPerBar := by
    intro p hp
    rcases List.mem_cons.mp hp with rfl | hp
    · rfl
    · obtain ⟨c2, c3⟩ := hconst p hp
      simp [computeTiming, c2, c3]
  have key : ∀ fuel r, run fuel t0 first polls = some r →
      ∃ n : ℕ, (tickInfos r.2).map (fun i => i.tickInBar) =
        (List.range n).map (fun k : ℕ => k % (computeTiming first.state).ticksPerBar) := by
    intro fuel r h
    obtain ⟨out, h0, _, e2⟩ := run_some fuel t0 first polls r h
    obtain ⟨n, hn, _⟩ := runPolls_ticks _ _ hc _ _ _ _ h0
    refine ⟨n, ?_⟩
    rw [e2, hn]
    simp [started]
  refine ⟨run_total t0 first polls hbpm, ?_, ?_⟩
  · intro fuel r h k info hk
    obtain ⟨n, hn⟩ := key fuel r h
    have h1 : ((tickInfos r.2).map (fun i => i.tickInBar))[k]? = some info.tickInBar := by
      rw [List.getElem?_map, hk]
      rfl
    rw [hn, List.getElem?_map] at h1
    cases hr : (List.range n)[k]? with
    | none => rw [hr] at h1; cases h1
    | some j =>
      rw [hr] at h1
      obtain ⟨hj, rfl⟩ := List.getElem?_eq_some_iff.mp hr
      rw [List.getElem_range] at h1
      simp only [Option.map_some', Option.some.injEq] at h1
      exact h1.symm
  · intro fuel r h h4 hlen
    obtain ⟨n, hn⟩ := key fuel r h
    have hn6 : 6 ≤ n := by
      have := congrArg List.length hn
      simp only [List.length_map, List.length_range] at this
      omega
    rw [List.map_take, hn, ← List.map_take, List.take_range, min_eq_left hn6, h4]
    rfl

/-- The default run used as an example: started at clock 0 and polled again at
clock 3, in 4/4 with quarter subdivision at 120 bpm, it schedules six ticks, half
a second apart, with bar positions 0, 1, 2, 3, 0, 1 and the accent on position 0. -/
theorem run_default_example :
    (run 10 0 (Poll.mk 0 DEFAULT_STATE) [Poll.mk 3 DEFAULT_STATE]).map
        (fun r => (clickTimes r.2, (tickInfos r.2).map (fun i => i.tickInBar), clickAccents r.2)) =
      some ([1 / 10, 3 / 5, 11 / 10, 8 / 5, 21 / 10, 13 / 5], [0, 1, 2, 3, 0, 1],
        [true, false, false, false, true, false]) := by
  norm_num [run, runPolls, start, schedulerLoop, whileLoop, MetronomeScheduler.new, scheduleTick,
    computeTiming, DEFAULT_STATE, getSignatureConfig, getSubdivisionFactor, SCHEDULE_AHEAD_SEC,
    tickInfos, clickTimes, clickAccents]

/-- On a stopped scheduler `start()` overwrites `nextNoteTime` and the tick
counter, so it does what it does on a fresh scheduler. -/
theorem start_eq_of_stopped (fuel : ℕ) (s : MetronomeScheduler) (t0 : ℚ) (p : Poll)
    (hs : s.isRunning = false) :
    start fuel s t0 p = start fuel MetronomeScheduler.new t0 p := by
  unfold start
  simp [hs, MetronomeScheduler.new]

theorem runFrom_eq_run (fuel : ℕ) (s : MetronomeScheduler) (t0 : ℚ) (first : Poll)
    (polls : List Poll) (hs : s.isRunning = false) :
    runFrom fuel s t0 first polls = run fuel t0 first polls := by
  unfold runFrom run
  rw [start_eq_of_stopped fuel s t0 first hs]

/-- The default run (started at clock 0, polled again at clock 3: six ticks)
followed by `stop()` leaves the scheduler stopped with the tick counter at 2. -/
theorem stop_after_default_run :
    (run 10 0 (Poll.mk 0 DEFAULT_STATE) [Poll.mk 3 DEFAULT_STATE]).map
        (fun r => (stop r.1).1) =
      some (MetronomeScheduler.mk false false (31 / 10) 2) := by
  norm_num [run, runPolls, start, stop, schedulerLoop, whileLoop, MetronomeScheduler.new,
    scheduleTick, computeTiming, DEFAULT_STATE, getSignatureConfig, getSubdivisionFactor,
    SCHEDULE_AHEAD_SEC]

/-- C9: on every stopped scheduler, fresh or left by `stop()` after earlier
runs with its tick counter anywhere, and with signature and subdivision the
same at every poll (any stored tempo), the run that `start()` begins returns
and its k-th scheduled tick (k = 0, 1, 2, ...) reports
`tickInBar = k mod ticksPerBar`; for `ticksPerBar = 4` the first six ticks
report 0, 1, 2, 3, 0, 1. -/
theorem runFrom_tickInBar_wraps (s : MetronomeScheduler) (t0 : ℚ) (first : Poll)
    (polls : List Poll) (hs : s.isRunning = false)
    (hbpm : ∀ p ∈ first :: polls, 0 < p.state.bpm)
    (hconst : ∀ p ∈ polls, p.state.timeSignature = first.state.timeSignature ∧
      p.state.subdivision = first.state.subdivision) :
    (∃ fuel r, runFrom fuel s t0 first polls = some r) ∧
      (∀ fuel r, runFrom fuel s t0 first polls = some r →
        ∀ (k : ℕ) (info : TickInfo), (tickInfos r.2)[k]? = some info →
          info.tickInBar = k % (computeTiming first.state).ticksPerBar) ∧
      (∀ fuel r, runFrom fuel s t0 first polls = some r →
        (computeTiming first.state).ticksPerBar = 4 → 6 ≤ (tickInfos r.2).length →
          ((tickInfos r.2).take 6).map (fun i => i.tickInBar) = [0, 1, 2, 3, 0, 1]) := by
  simp only [runFrom_eq_run _ s t0 first polls hs]
  exact run_ticks_wrap t0 first polls hbpm hconst

/-- C9, at a `start()` at clock 5 on the scheduler that `stop()` left after
the default run (tick counter 2), in the default state (4/4, quarter:
ticksPerBar 4), polled again at clock 8. -/
theorem runFrom_tickInBar_wraps_witness :
    ((MetronomeScheduler.mk false false (31 / 10) 2).isRunning = false ∧
      (∀ p ∈ [Poll.mk 5 DEFAULT_STATE, Poll.mk 8 DEFAULT_STATE], 0 < p.state.bpm) ∧
      ∀ p ∈ [Poll.mk 8 DEFAULT_STATE],
        p.state.timeSignature = (Poll.mk 5 DEFAULT_STATE).state.timeSignature ∧
        p.state.subdivision = (Poll.mk 5 DEFAULT_STATE).state.subdivision) ∧
      ((∃ fuel r, runFrom fuel (MetronomeScheduler.mk false false (31 / 10) 2) 5
          (Poll.mk 5 DEFAULT_STATE) [Poll.mk 8 DEFAULT_STATE] = some r) ∧
      (∀ fuel r, runFrom fuel (MetronomeScheduler.mk false false (31 / 10) 2) 5
          (Poll.mk 5 DEFAULT_STATE) [Poll.mk 8 DEFAULT_STATE] = some r →
        ∀ (k : ℕ) (info : TickInfo), (tickInfos r.2)[k]? = some info →
          info.tickInBar = k % (computeTiming (Poll.mk 5 DEFAULT_STATE).state).ticksPerBar) ∧
      (∀ fuel r, runFrom fuel (MetronomeScheduler.mk false false (31 / 10) 2) 5
          (Poll.mk 5 DEFAULT_STATE) [Poll.mk 8 DEFAULT_STATE] = some r →
        (computeTiming (Poll.mk 5 DEFAULT_STATE).state).ticksPerBar = 4 →
        6 ≤ (tickInfos r.2).length →
          ((tickInfos r.2).take 6).map (fun i => i.tickInBar) = [0, 1, 2, 3, 0, 1])) :=
  ⟨⟨rfl, by norm_num [DEFAULT_STATE], by simp⟩,
    runFrom_tickInBar_wraps (MetronomeScheduler.mk false false (31 / 10) 2) 5
      (Poll.mk 5 DEFAULT_STATE) [Poll.mk 8 DEFAULT_STATE] rfl
      (by norm_num [DEFAULT_STATE]) (by simp)⟩

/-- The restart used as an example: `start()` at clock 5 on the scheduler that
`stop()` left with its tick counter at 2, polled again at clock 8, schedules
six ticks with bar positions 0, 1, 2, 3, 0, 1 and the accent on position 0. -/
theorem runFrom_restart_example :
    (runFrom 10 (MetronomeScheduler.mk false false (31 / 10) 2) 5 (Poll.mk 5 DEFAULT_STATE)
        [Poll.mk 8 DEFAULT_STATE]).map
        (fun r => (clickTimes r.2, (tickInfos r.2).map (fun i => i.tickInBar), clickAccents r.2)) =
      some ([51 / 10, 28 / 5, 61 / 10, 33 / 5, 71 / 10, 38 / 5], [0, 1, 2, 3, 0, 1],
        [true, false, false, false, true, false]) := by
  norm_num [runFrom, runPolls, start, schedulerLoop, whileLoop, scheduleTick,
    computeTiming, DEFAULT_STATE, getSignatureConfig, getSubdivisionFactor, SCHEDULE_AHEAD_SEC,
    tickInfos, clickTimes, clickAccents]

/-- C10: for every sequence of n >= 4 timestamps evenly spaced by d > 0
milliseconds, `computeTapTempoBpm` returns `round(60000 / d)` clamped to
[40,240]; for [0, 500, 1000, 1500] it returns exactly 120. -/
theorem computeTapTempoBpm_evenly_spaced (t0 d : ℚ) (n : ℕ) (hn : 4 ≤ n) (hd : 0 < d) :
    computeTapTempoBpm (List.map (fun i : ℕ => t0 + i * d) (List.range n)) =
        some (min 240 (max 40 ((⌊60000 / d + 1 / 2⌋ : ℤ) : ℚ))) ∧
      computeTapTempoBpm [0, 500, 1000, 1500] = some 120 := by
  have key : ∀ (t0 d : ℚ) (n : ℕ), 4 ≤ n → 0 < d →
      computeTapTempoBpm (List.map (fun i : ℕ => t0 + i * d) (List.range n)) =
        some (min 240 (max 40 ((⌊60000 / d + 1 / 2⌋ : ℤ) : ℚ))) := by
    intro t0 d n hn hd
    obtain ⟨m, rfl⟩ : ∃ m, n = m + 1 := ⟨n - 1, by omega⟩
    unfold computeTapTempoBpm
    rw [intervalsOf_even]
    simp only [List.length_map, List.length_range, List.length_replicate, insertionSort_replicate]
    rw [if_neg (by omega), if_neg (by omega)]
    by_cases h4 : m > 4
    · rw [if_pos h4, slice_replicate, avg_replicate _ _ (by omega) hd, if_neg (not_le.mpr hd)]
      simp [clamp, mathRound]
    · rw [if_neg h4, avg_replicate _ _ (by omega) hd, if_neg (not_le.mpr hd)]
      simp [clamp, mathRound]
  refine ⟨key t0 d n hn hd, ?_⟩
  have h := key 0 500 4 (by norm_num) (by norm_num)
  have e : List.map (fun i : ℕ => (0 : ℚ) + i * 500) (List.range 4) = [0, 500, 1000, 1500] := by
    simp [List.range_succ]
    norm_num
  rw [e] at h
  rw [h]
  norm_num

/-- C10, at seven taps 400 ms apart starting at 1000 ms: the estimate is 150. -/
theorem computeTapTempoBpm_evenly_spaced_witness :
    (4 ≤ 7 ∧ (0 : ℚ) < 400) ∧
      (computeTapTempoBpm (List.map (fun i : ℕ => (1000 : ℚ) + i * 400) (List.range 7)) =
        some (min 240 (max 40 ((⌊60000 / (400 : ℚ) + 1 / 2⌋ : ℤ) : ℚ))) ∧
      computeTapTempoBpm [0, 500, 1000, 1500] = some 120) :=
  ⟨by norm_num, computeTapTempoBpm_evenly_spaced 1000 400 7 (by norm_num) (by norm_num)⟩

/-! ## Auxiliary facts: tap-tempo refinement -/

theorem intervalsOf_eq_zipWith (ts : List ℚ) :
    intervalsOf ts = List.zipWith (fun earlier later => later - earlier) ts ts.tail := by
  induction ts with
  | nil => rfl
  | cons a rest ih =>
    cases rest with
    | nil => rfl
    | cons b rest2 =>
      rw [intervalsOf, ih]
      rfl

theorem intervalsOf_length (ts : List ℚ) : (intervalsOf ts).length = ts.length - 1 := by
  rw [intervalsOf_eq_zipWith, List.length_zipWith, List.length_tail]
  omega

theorem intervalsOf_pos (ts : List ℚ) (h : List.Chain' (fun a b => a < b) ts) :
    ∀ d ∈ intervalsOf ts, 0 < d := by
  induction ts with
  | nil => intro d hd; simp [intervalsOf] at hd
  | cons a rest ih =>
    cases rest with
    | nil => intro d hd; simp [intervalsOf] at hd
    | cons b rest2 =>
      intro d hd
      rw [intervalsOf, List.mem_cons] at hd
      rw [List.chain'_cons] at h
      rcases hd with rfl | hd
      · linarith [h.1]
      · exact ih h.2 d hd

theorem foldl_add_eq_sum (l : List ℚ) (acc : ℚ) :
    l.foldl (fun sum v => sum + v) acc = acc + l.sum := by
  induction l generalizing acc with
  | nil => simp
  | cons a l ih =>
    rw [List.foldl_cons, ih, List.sum_cons]
    ring

theorem slice_one_eq_tail_dropLast (l : List ℚ) :
    slice l 1 (l.length - 1) = l.tail.dropLast := by
  rw [slice, ← List.dropLast_eq_take, List.drop_one, List.tail_dropLast]

/-- Rounding commutes with clamping to a range with integer ends. -/
theorem mathRound_clamp (x : ℚ) :
    ((mathRound (min 240 (max 40 x)) : ℤ) : ℚ) = min 240 (max 40 ((mathRound x : ℤ) : ℚ)) := by
  have hmono : Monotone (fun y : ℚ => ((mathRound y : ℤ) : ℚ)) := by
    intro a b hab
    have : mathRound a ≤ mathRound b := Int.floor_mono (by linarith)
    show ((mathRound a : ℤ) : ℚ) ≤ ((mathRound b : ℤ) : ℚ)
    exact_mod_cast this
  have h40 : ((mathRound 40 : ℤ) : ℚ) = 40 := by
    simp only [mathRound]
    norm_num
  have h240 : ((mathRound 240 : ℤ) : ℚ) = 240 := by
    simp only [mathRound]
    norm_num
  have e1 := hmono.map_min (a := (240 : ℚ)) (b := max 40 x)
  have e2 := hmono.map_max (a := (40 : ℚ)) (b := x)
  simp only at e1 e2
  rw [e1, e2, h40, h240]

theorem jsOr_zero (x : ℚ) : jsOr x 0 = x := by
  unfold jsOr
  split
  · rename_i h
    exact h.symm
  · rfl

/-- The intervals the estimator averages, after sorting and trimming: positive
and at least three of them, for at least 4 strictly increasing timestamps. -/
theorem trimmed_pos (ts : List ℚ) (hlen : 4 ≤ ts.length)
    (hinc : List.Chain' (fun a b => a < b) ts) :
    let sorted := (intervalsOf ts).insertionSort (fun a b => a ≤ b)
    let trimmed := if sorted.length > 4 then sorted.tail.dropLast else sorted
    0 < trimmed.sum / trimmed.length := by
  intro sorted trimmed
  have hS : sorted.length = ts.length - 1 := by
    simp only [sorted, List.length_insertionSort, intervalsOf_length]
  have hmemS : ∀ d ∈ sorted, 0 < d := by
    intro d hd
    exact intervalsOf_pos ts hinc d ((List.perm_insertionSort _ _).mem_iff.mp hd)
  have hmem : ∀ d ∈ trimmed, 0 < d := by
    intro d hd
    apply hmemS
    simp only [trimmed] at hd
    split at hd
    · exact List.mem_of_mem_tail (List.mem_of_mem_dropLast hd)
    · exact hd
  have hlenT : 0 < trimmed.length := by
    simp only [trimmed]
    split
    · rw [List.length_dropLast, List.length_tail]
      omega
    · omega
  have hne : trimmed ≠ [] := List.ne_nil_of_length_pos hlenT
  exact div_pos (List.sum_pos trimmed hmem hne) (by exact_mod_cast hlenT)

/-- C11: for every strictly increasing sequence of at least 4 timestamps,
`computeTapTempoBpm` returns an estimate, and it is the value of the
specification's procedure (sort the consecutive differences, drop one smallest
and one largest when there are more than 4, average, `60000 / avg`, clamp to
[40,240], round last): rounding before or after the clamp gives the same result. -/
theorem computeTapTempoBpm_refines_spec (ts : List ℚ) (hlen : 4 ≤ ts.length)
    (hinc : List.Chain' (fun a b => a < b) ts) :
    (computeTapTempoBpm ts).isSome = true ∧ computeTapTempoBpm ts = specTapTempoBpm ts := by
  have hpos := trimmed_pos ts hlen hinc
  simp only at hpos
  have h1 : ¬ ts.length < 4 := by omega
  have h2 : ¬ (intervalsOf ts).length < 3 := by rw [intervalsOf_length]; omega
  have key : computeTapTempoBpm ts = specTapTempoBpm ts := by
    unfold computeTapTempoBpm specTapTempoBpm
    simp only [h1, h2, if_false]
    simp only [slice_one_eq_tail_dropLast]
    simp only [foldl_add_eq_sum, zero_add, jsOr_zero, ← intervalsOf_eq_zipWith,
      List.length_insertionSort] at hpos ⊢
    rw [if_neg (not_le.mpr hpos)]
    simp only [clamp, mathRound_clamp]
  refine ⟨?_, key⟩
  rw [key]
  unfold specTapTempoBpm
  rw [if_neg (by omega)]
  rfl

/-- C11, at seven irregular taps. -/
theorem computeTapTempoBpm_refines_spec_witness :
    (4 ≤ [(0 : ℚ), 100, 300, 1000, 1100, 1900, 2000].length ∧
      List.Chain' (fun a b => a < b) [(0 : ℚ), 100, 300, 1000, 1100, 1900, 2000]) ∧
      ((computeTapTempoBpm [0, 100, 300, 1000, 1100, 1900, 2000]).isSome = true ∧
        computeTapTempoBpm [0, 100, 300, 1000, 1100, 1900, 2000] =
          specTapTempoBpm [0, 100, 300, 1000, 1100, 1900, 2000]) :=
  ⟨⟨by simp, by norm_num⟩,
    computeTapTempoBpm_refines_spec [0, 100, 300, 1000, 1100, 1900, 2000] (by simp)
      (by norm_num)⟩

/-- C12: for every timestamp sequence with fewer than 4 entries, the empty
sequence included, `computeTapTempoBpm` returns no estimate. -/
theorem computeTapTempoBpm_too_few (ts : List ℚ) (h : ts.length < 4) :
    computeTapTempoBpm ts = none ∧ computeTapTempoBpm [] = none := by
  constructor
  · unfold computeTapTempoBpm
    rw [if_pos h]
  · rfl

/-- C12, at three timestamps. -/
theorem computeTapTempoBpm_too_few_witness :
    [(0 : ℚ), 500, 1000].length < 4 ∧
      (computeTapTempoBpm [0, 500, 1000] = none ∧ computeTapTempoBpm [] = none) :=
  ⟨by simp, computeTapTempoBpm_too_few [0, 500, 1000] (by simp)⟩

/-- C13: for every store state whose practice timer is running with
`totalSeconds > 0` and every `delta >= 0`, `actions.tickPracticeTimer(delta)`
sets `remainingSeconds` to `max(0, remainingSeconds - delta)`; if that is 0 it
also sets `practiceTimer.isRunning` and `isPlaying` to false, otherwise both are
unchanged; with `totalSeconds = remainingSeconds = 60` and `delta = 61` the
result is `remainingSeconds = 0`, `isRunning = false`, `isPlaying = false`. -/
theorem tickPracticeTimer_running (s : State) (delta : ℚ)
    (hrun : s.practiceTimer.isRunning = true) (htot : 0 < s.practiceTimer.totalSeconds)
    (_hd : 0 ≤ delta) :
    (actions.tickPracticeTimer s delta).practiceTimer.remainingSeconds =
        max 0 (s.practiceTimer.remainingSeconds - delta) ∧
      (max 0 (s.practiceTimer.remainingSeconds - delta) = 0 →
        (actions.tickPracticeTimer s delta).practiceTimer.isRunning = false ∧
          (actions.tickPracticeTimer s delta).isPlaying = false) ∧
      (max 0 (s.practiceTimer.remainingSeconds - delta) ≠ 0 →
        (actions.tickPracticeTimer s delta).practiceTimer.isRunning = s.practiceTimer.isRunning ∧
          (actions.tickPracticeTimer s delta).isPlaying = s.isPlaying) ∧
      (s.practiceTimer.totalSeconds = 60 → s.practiceTimer.remainingSeconds = 60 → delta = 61 →
        (actions.tickPracticeTimer s delta).practiceTimer.remainingSeconds = 0 ∧
          (actions.tickPracticeTimer s delta).practiceTimer.isRunning = false ∧
          (actions.tickPracticeTimer s delta).isPlaying = false) := by
  have hnot : ¬ s.practiceTimer.totalSeconds ≤ 0 := not_le.mpr htot
  have hge : (0 : ℚ) ≤ max 0 (s.practiceTimer.remainingSeconds - delta) := le_max_left _ _
  by_cases h0 : max 0 (s.practiceTimer.remainingSeconds - delta) ≤ 0
  · have e0 : max 0 (s.practiceTimer.remainingSeconds - delta) = 0 := le_antisymm h0 hge
    have hs : actions.tickPracticeTimer s delta =
        { s with
          practiceTimer :=
            { s.practiceTimer with
              remainingSeconds := max 0 (s.practiceTimer.remainingSeconds - delta)
              isRunning := false }
          isPlaying := false } := by
      simp [actions.tickPracticeTimer, hrun, hnot, h0]
    rw [hs]
    refine ⟨rfl, fun _ => ⟨rfl, rfl⟩, fun hne => absurd e0 hne, fun _ _ _ => ⟨e0, rfl, rfl⟩⟩
  · have hs : actions.tickPracticeTimer s delta =
        { s with
          practiceTimer :=
            { s.practiceTimer with
              remainingSeconds := max 0 (s.practiceTimer.remainingSeconds - delta) } } := by
      simp [actions.tickPracticeTimer, hrun, hnot, h0]
    rw [hs]
    refine ⟨rfl, fun e => absurd (le_of_eq e) h0, fun _ => ⟨rfl, rfl⟩, ?_⟩
    intro _ hr hd
    exfalso
    apply h0
    rw [hr, hd]
    norm_num

/-- C13, at a playing store with a running 60 s timer and `delta = 61`. -/
theorem tickPracticeTimer_running_witness :
    (actions.tickPracticeTimer
        { DEFAULT_STATE with
          isPlaying := true
          practiceTimer :=
            { mode := "preset", totalSeconds := 60, remainingSeconds := 60, isRunning := true } }
        61).practiceTimer.remainingSeconds = 0 ∧
      (actions.tickPracticeTimer
        { DEFAULT_STATE with
          isPlaying := true
          practiceTimer :=
            { mode := "preset", totalSeconds := 60, remainingSeconds := 60, isRunning := true } }
        61).practiceTimer.isRunning = false ∧
      (actions.tickPracticeTimer
        { DEFAULT_STATE with
          isPlaying := true
          practiceTimer :=
            { mode := "preset", totalSeconds := 60, remainingSeconds := 60, isRunning := true } }
        61).isPlaying = false :=
  (tickPracticeTimer_running
    { DEFAULT_STATE with
      isPlaying := true
      practiceTimer :=
        { mode := "preset", totalSeconds := 60, remainingSeconds := 60, isRunning := true } }
    61 rfl (by norm_num) (by norm_num)).2.2.2 rfl rfl rfl

/-! ## Auxiliary facts: application controller -/

open AppSchedulerController

theorem tickPracticeTimer_stopped_not_playing (s : State) (d : ℚ)
    (hrun : s.practiceTimer.isRunning = true)
    (h : (actions.tickPracticeTimer s d).practiceTimer.isRunning = false) :
    (actions.tickPracticeTimer s d).isPlaying = false := by
  unfold actions.tickPracticeTimer at h ⊢
  simp only at h ⊢
  split at h
  · rw [hrun] at h
    cases h
  · split at h
    · rename_i h0
      rw [if_neg (by assumption), if_pos h0]
    · rw [hrun] at h
      cases h

/-- The call of `scheduler.stop()` in the timer loop is never reached: whatever
the state and the time, one iteration leaves the scheduler as it was. -/
theorem timerLoop_scheduler (app : App) (now : ℚ) :
    (timerLoop app now).1.scheduler = app.scheduler := by
  unfold timerLoop
  simp only
  split
  · rename_i hrun
    split
    · rename_i hstop
      simp only [Bool.and_eq_true, Bool.not_eq_true'] at hstop
      have := tickPracticeTimer_stopped_not_playing app.state _ hrun hstop.1
      rw [this] at hstop
      exact absurd hstop.2 (by simp)
    · rfl
  · rfl

/-- C14 fails on the code: with the scheduler running and a playing store whose
60 s practice timer is running, the loop iteration 61 s later expires the timer
(`remainingSeconds = 0`, `isRunning = false`, `isPlaying = false`) but leaves the
scheduler running and requests another frame; `scheduler.stop()` is not called,
because `tickPracticeTimer` has already cleared `isPlaying`, which the loop tests. -/
theorem timerLoop_expiry_keeps_scheduler_running :
    (timerLoop
        { state :=
            { DEFAULT_STATE with
              isPlaying := true
              practiceTimer :=
                { mode := "preset", totalSeconds := 60, remainingSeconds := 60,
                  isRunning := true } }
          scheduler := some (started 0)
          overloadTimerId := none
          lastTimerTickAt := 0 } 61000).1.state.practiceTimer.remainingSeconds = 0 ∧
      (timerLoop
        { state :=
            { DEFAULT_STATE with
              isPlaying := true
              practiceTimer :=
                { mode := "preset", totalSeconds := 60, remainingSeconds := 60,
                  isRunning := true } }
          scheduler := some (started 0)
          overloadTimerId := none
          lastTimerTickAt := 0 } 61000).1.state.isPlaying = false ∧
      ((timerLoop
        { state :=
            { DEFAULT_STATE with
              isPlaying := true
              practiceTimer :=
                { mode := "preset", totalSeconds := 60, remainingSeconds := 60,
                  isRunning := true } }
          scheduler := some (started 0)
          overloadTimerId := none
          lastTimerTickAt := 0 } 61000).1.scheduler.map MetronomeScheduler.isPlaying) =
        some true ∧
      (timerLoop
        { state :=
            { DEFAULT_STATE with
              isPlaying := true
              practiceTimer :=
                { mode := "preset", totalSeconds := 60, remainingSeconds := 60,
                  isRunning := true } }
          scheduler := some (started 0)
          overloadTimerId := none
          lastTimerTickAt := 0 } 61000).2 = true := by
  refine ⟨?_, ?_, ?_, ?_⟩
  · norm_num [timerLoop, actions.tickPracticeTimer, stopScheduler, DEFAULT_STATE]
  · norm_num [timerLoop, actions.tickPracticeTimer, stopScheduler, DEFAULT_STATE]
  · rw [timerLoop_scheduler]
    rfl
  · norm_num [timerLoop, actions.tickPracticeTimer, stopScheduler, DEFAULT_STATE,
      MetronomeScheduler.isPlaying, started]

/-! ## Auxiliary facts: practice timer -/

theorem setPlaying_timerInvariant (s : State) (b : Bool) (h : timerInvariant s.practiceTimer) :
    timerInvariant (actions.setPlaying s b).practiceTimer := by
  obtain ⟨h1, h2, h3⟩ := h
  unfold actions.setPlaying
  cases b
  · exact ⟨fun _ => rfl, h2, h3⟩
  · by_cases ht : s.practiceTimer.totalSeconds > 0
    · simp only [Bool.not_true, Bool.false_eq_true, if_false, Bool.true_and, decide_eq_true_eq,
        ht, if_true]
      exact ⟨fun e => absurd e ht.ne.symm, h2, h3⟩
    · simp only [Bool.not_true, Bool.false_eq_true, if_false, Bool.true_and, decide_eq_true_eq,
        ht]
      exact ⟨h1, h2, h3⟩

theorem setPracticeTimerPreset_timerInvariant (s : State) (secs : ℚ) :
    timerInvariant (actions.setPracticeTimerPreset s secs).practiceTimer := by
  unfold actions.setPracticeTimerPreset
  split
  · exact ⟨fun _ => rfl, le_rfl, le_rfl⟩
  · rename_i h
    have hp : 0 < secs := not_le.mp h
    exact ⟨fun e => absurd e hp.ne.symm, hp.le, le_rfl⟩

theorem setPracticeTimerCustom_timerInvariant (s : State) (m : ℚ) :
    timerInvariant (actions.setPracticeTimerCustom s m).practiceTimer := by
  unfold actions.setPracticeTimerCustom
  simp only
  split
  · exact ⟨fun _ => rfl, le_rfl, le_rfl⟩
  · rename_i h
    have hp : (0 : ℚ) < max 0 ((mathRound (m * 60) : ℤ) : ℚ) := not_le.mp h
    exact ⟨fun e => absurd e hp.ne.symm, hp.le, le_rfl⟩

theorem tickPracticeTimer_timerInvariant (s : State) (d : ℚ) (hd : 0 ≤ d)
    (h : timerInvariant s.practiceTimer) :
    timerInvariant (actions.tickPracticeTimer s d).practiceTimer := by
  obtain ⟨h1, h2, h3⟩ := h
  have hle : max 0 (s.practiceTimer.remainingSeconds - d) ≤ s.practiceTimer.totalSeconds :=
    max_le (le_trans h2 h3) (by linarith)
  unfold actions.tickPracticeTimer
  simp only
  split
  · exact ⟨h1, h2, h3⟩
  · split
    · exact ⟨fun _ => rfl, le_max_left _ _, hle⟩
    · exact ⟨h1, le_max_left _ _, hle⟩

/-- On finite fields the JavaScript reading of the invariant is the invariant. -/
theorem jsTimerInvariant_toJs (t : PracticeTimer) :
    jsTimerInvariant t.toJs ↔ timerInvariant t := by
  simp [jsTimerInvariant, timerInvariant, PracticeTimer.toJs, JsNumber.le]

/-- On a finite argument the NaN-aware preset setter is the finite one. -/
theorem setPracticeTimerPreset_num (s : State) (secs : ℚ) :
    jsNumberActions.setPracticeTimerPreset s (.num secs) =
      (actions.setPracticeTimerPreset s secs).practiceTimer.toJs := by
  unfold jsNumberActions.setPracticeTimerPreset actions.setPracticeTimerPreset
  by_cases h : secs ≤ 0 <;> simp [JsNumber.le, PracticeTimer.toJs, h]

/-- On a finite argument the NaN-aware custom setter is the finite one. -/
theorem setPracticeTimerCustom_num (s : State) (m : ℚ) :
    jsNumberActions.setPracticeTimerCustom s (.num m) =
      (actions.setPracticeTimerCustom s m).practiceTimer.toJs := by
  unfold jsNumberActions.setPracticeTimerCustom actions.setPracticeTimerCustom
  by_cases h : max (0 : ℚ) (mathRound (m * 60)) ≤ 0 <;>
    simp [JsNumber.le, JsNumber.mul, JsNumber.round, JsNumber.maxZero, PracticeTimer.toJs, h]

/-- C15 as stated fails at `NaN`: `setPracticeTimerPreset(NaN)` and
`setPracticeTimerCustom(NaN)` take the else branch (`NaN <= 0` is false) and
store `totalSeconds = remainingSeconds = NaN`, for which neither
`0 <= remainingSeconds` nor `remainingSeconds <= totalSeconds` holds. -/
theorem setPracticeTimer_nan_breaks_invariant :
    jsTimerInvariant DEFAULT_STATE.practiceTimer.toJs ∧
      jsNumberActions.setPracticeTimerPreset DEFAULT_STATE JsNumber.nan =
        { mode := "preset", totalSeconds := JsNumber.nan, remainingSeconds := JsNumber.nan,
          isRunning := false } ∧
      ¬ jsTimerInvariant (jsNumberActions.setPracticeTimerPreset DEFAULT_STATE JsNumber.nan) ∧
      jsNumberActions.setPracticeTimerCustom DEFAULT_STATE JsNumber.nan =
        { mode := "custom", totalSeconds := JsNumber.nan, remainingSeconds := JsNumber.nan,
          isRunning := false } ∧
      ¬ jsTimerInvariant (jsNumberActions.setPracticeTimerCustom DEFAULT_STATE JsNumber.nan) := by
  refine ⟨?_, ?_, ?_, ?_, ?_⟩
  · simp [jsTimerInvariant, PracticeTimer.toJs, JsNumber.le, DEFAULT_STATE]
  · simp [jsNumberActions.setPracticeTimerPreset, JsNumber.le, DEFAULT_STATE]
  · simp [jsTimerInvariant, jsNumberActions.setPracticeTimerPreset, JsNumber.le]
  · simp [jsNumberActions.setPracticeTimerCustom, JsNumber.le, JsNumber.mul, JsNumber.round,
      JsNumber.maxZero, DEFAULT_STATE]
  · simp [jsTimerInvariant, jsNumberActions.setPracticeTimerCustom, JsNumber.le, JsNumber.mul,
      JsNumber.round, JsNumber.maxZero]

/-- C15, amended: the practice-timer invariant (not running when
`totalSeconds = 0`, and `0 <= remainingSeconds <= totalSeconds`) holds in the
default initial state and is preserved by every store action, for all finite
numeric arguments, the delta of `tickPracticeTimer` being non-negative. -/
theorem timerInvariant_preserved :
    timerInvariant DEFAULT_STATE.practiceTimer ∧
      ∀ (s : State) (a : Action), timerInvariant s.practiceTimer →
        (∀ d, a = Action.tickPracticeTimer d → 0 ≤ d) →
        timerInvariant (applyAction s a).practiceTimer := by
  refine ⟨⟨fun _ => rfl, le_rfl, le_rfl⟩, ?_⟩
  intro s a h hd
  cases a with
  | setBpm x => exact h
  | stepBpm d => exact h
  | setTimeSignature sig => exact h
  | setSubdivision sub => exact h
  | setAccentEnabled b => exact h
  | setPlaying b => exact setPlaying_timerInvariant s b h
  | setCurrentBeat i => exact h
  | setPracticeTimerPreset secs => exact setPracticeTimerPreset_timerInvariant s secs
  | setPracticeTimerCustom m => exact setPracticeTimerCustom_timerInvariant s m
  | tickPracticeTimer d => exact tickPracticeTimer_timerInvariant s d (hd d rfl) h
  | configureOverload cfg => exact h
  | updateOverloadTarget t => exact h
  | recordTap t => exact h
  | clearTaps => exact h

/-- C15 amended, at a tick of 61 s on a playing store whose 60 s timer is running. -/
theorem timerInvariant_preserved_witness :
    timerInvariant
      (applyAction
        { DEFAULT_STATE with
          isPlaying := true
          practiceTimer :=
            { mode := "preset", totalSeconds := 60, remainingSeconds := 60, isRunning := true } }
        (Action.tickPracticeTimer 61)).practiceTimer :=
  timerInvariant_preserved.2 _ (Action.tickPracticeTimer 61)
    ⟨fun h => absurd h (by norm_num), by norm_num, by norm_num⟩
    (fun d h => by cases h; norm_num)

/-- C16: for every store state, `setPracticeTimerPreset(s)` with `s > 0` yields
mode preset, `totalSeconds = remainingSeconds = s` and `isRunning` equal to the
current `isPlaying`; `setPracticeTimerCustom(m)` with `round(60 m) >= 1` yields
mode custom, `totalSeconds = remainingSeconds = round(60 m)` (which is `60 m`
for whole minutes) and `isRunning` equal to the current `isPlaying`; either
operation with a duration of zero or less yields mode off, both durations 0 and
`isRunning = false`. -/
theorem setPracticeTimer_results (s : State) (secs m : ℚ) (n : ℕ) :
    (0 < secs →
        (actions.setPracticeTimerPreset s secs).practiceTimer =
          { mode := "preset", totalSeconds := secs, remainingSeconds := secs,
            isRunning := s.isPlaying }) ∧
      (1 ≤ mathRound (60 * m) →
        (actions.setPracticeTimerCustom s m).practiceTimer =
          { mode := "custom", totalSeconds := mathRound (60 * m),
            remainingSeconds := mathRound (60 * m), isRunning := s.isPlaying }) ∧
      (1 ≤ n →
        (actions.setPracticeTimerCustom s n).practiceTimer =
          { mode := "custom", totalSeconds := 60 * n, remainingSeconds := 60 * n,
            isRunning := s.isPlaying }) ∧
      (secs ≤ 0 →
        (actions.setPracticeTimerPreset s secs).practiceTimer =
          { mode := "off", totalSeconds := 0, remainingSeconds := 0, isRunning := false }) ∧
      (mathRound (60 * m) ≤ 0 →
        (actions.setPracticeTimerCustom s m).practiceTimer =
          { mode := "off", totalSeconds := 0, remainingSeconds := 0, isRunning := false }) := by
  have custom_pos : ∀ x : ℚ, 1 ≤ mathRound (60 * x) →
      (actions.setPracticeTimerCustom s x).practiceTimer =
        { mode := "custom", totalSeconds := mathRound (60 * x),
          remainingSeconds := mathRound (60 * x), isRunning := s.isPlaying } := by
    intro x hx
    have h1 : (1 : ℚ) ≤ ((mathRound (60 * x) : ℤ) : ℚ) := by exact_mod_cast hx
    have hmax : max (0 : ℚ) ((mathRound (x * 60) : ℤ) : ℚ) = ((mathRound (60 * x) : ℤ) : ℚ) := by
      rw [mul_comm x 60]
      exact max_eq_right (by linarith)
    unfold actions.setPracticeTimerCustom
    simp only [hmax]
    rw [if_neg (by linarith)]
  refine ⟨?_, custom_pos m, ?_, ?_, ?_⟩
  · intro h
    unfold actions.setPracticeTimerPreset
    rw [if_neg (not_le.mpr h)]
  · intro hn
    have hr : mathRound (60 * (n : ℚ)) = 60 * (n : ℤ) := by
      unfold mathRound
      rw [Int.floor_eq_iff]
      push_cast
      constructor <;> linarith
    have := custom_pos n (by rw [hr]; omega)
    rw [this, hr]
    push_cast
    rfl
  · intro h
    unfold actions.setPracticeTimerPreset
    rw [if_pos h]
  · intro h
    have h1 : ((mathRound (60 * m) : ℤ) : ℚ) ≤ 0 := by exact_mod_cast h
    have hmax : max (0 : ℚ) ((mathRound (m * 60) : ℤ) : ℚ) = 0 := by
      rw [mul_comm m 60]
      exact max_eq_left h1
    unfold actions.setPracticeTimerCustom
    simp only [hmax]
    rw [if_pos le_rfl]

/-- C16, at a playing store: a preset of 300 s and a custom timer of 3 minutes. -/
theorem setPracticeTimer_results_witness :
    (actions.setPracticeTimerPreset { DEFAULT_STATE with isPlaying := true } 300).practiceTimer =
        { mode := "preset", totalSeconds := 300, remainingSeconds := 300, isRunning := true } ∧
      (actions.setPracticeTimerCustom { DEFAULT_STATE with isPlaying := true } 3).practiceTimer =
        { mode := "custom", totalSeconds := 60 * (3 : ℕ), remainingSeconds := 60 * (3 : ℕ),
          isRunning := true } :=
  ⟨(setPracticeTimer_results { DEFAULT_STATE with isPlaying := true } 300 3 3).1 (by norm_num),
    (setPracticeTimer_results { DEFAULT_STATE with isPlaying := true } 300 3 3).2.2.1
      (by norm_num)⟩

theorem clearOverloadTimer_timer (app : App) : (clearOverloadTimer app).overloadTimerId = none := by
  unfold clearOverloadTimer
  split
  · rfl
  · rename_i h
    simpa using h

theorem clearOverloadTimer_state (app : App) : (clearOverloadTimer app).state = app.state := by
  unfold clearOverloadTimer
  split <;> rfl

/-- A firing of the overload timer whose `nextTarget` does not exceed the bpm:
the bpm is kept; below `maxBpm` the target becomes the bpm and the timer is
re-armed, at or above `maxBpm` the target becomes `maxBpm` and the timer is
disarmed. -/
theorem overloadTick_no_raise (app : App) (hplay : app.state.isPlaying = true)
    (hen : app.state.overload.enabled = true)
    (hnext : min app.state.overload.maxBpm
      (app.state.overload.targetBpm + app.state.overload.stepBpm) ≤ app.state.bpm) :
    (40 ≤ app.state.bpm → app.state.bpm < app.state.overload.maxBpm →
        (overloadTick app).state.bpm = app.state.bpm ∧
          (overloadTick app).state.overload.targetBpm = app.state.bpm ∧
          (overloadTick app).overloadTimerId = some (app.state.overload.intervalSec * 1000)) ∧
      (app.state.overload.maxBpm ≤ app.state.bpm →
        (overloadTick app).state.bpm = app.state.bpm ∧
          (overloadTick app).state.overload.targetBpm = app.state.overload.maxBpm ∧
          (overloadTick app).overloadTimerId = none) := by
  have hstep : overloadTick app =
      (if (actions.updateOverloadTarget app.state (.num app.state.bpm)).bpm ≥
          (actions.updateOverloadTarget app.state (.num app.state.bpm)).overload.maxBpm then
        clearOverloadTimer
          { app with state := actions.updateOverloadTarget app.state (.num app.state.bpm) }
      else
        { app with
          state := actions.updateOverloadTarget app.state (.num app.state.bpm)
          overloadTimerId :=
            some ((actions.updateOverloadTarget app.state
              (.num app.state.bpm)).overload.intervalSec * 1000) }) := by
    unfold overloadTick
    simp only [hplay, hen, Bool.not_true, Bool.or_self, Bool.false_eq_true, if_false, hnext,
      if_true]
  rw [hstep]
  constructor
  · intro h40 hlt
    have hnot : ¬ (actions.updateOverloadTarget app.state (.num app.state.bpm)).bpm ≥
        (actions.updateOverloadTarget app.state (.num app.state.bpm)).overload.maxBpm :=
      not_le.mpr hlt
    rw [if_neg hnot]
    refine ⟨rfl, ?_, rfl⟩
    simp only [actions.updateOverloadTarget, clamp]
    rw [max_eq_right h40, min_eq_right hlt.le]
  · intro hge
    have hyes : (actions.updateOverloadTarget app.state (.num app.state.bpm)).bpm ≥
        (actions.updateOverloadTarget app.state (.num app.state.bpm)).overload.maxBpm := hge
    rw [if_pos hyes]
    refine ⟨by rw [clearOverloadTimer_state]; rfl, ?_, clearOverloadTimer_timer _⟩
    rw [clearOverloadTimer_state]
    simp only [actions.updateOverloadTarget, clamp]
    exact min_eq_left (le_trans hge (le_max_right _ _))

/-! ## Auxiliary facts: overload ramp -/

/-- One firing of the ramp below the ceiling: from `bpm = targetBpm = c` with
`40 <= c < maxBpm <= 240` and a positive step, `tick` stores
`min(maxBpm, c + stepBpm)` in both, changes nothing else the ramp reads, and
re-arms exactly when the new bpm is below `maxBpm`. -/
theorem overloadTick_ramp (app : App) (c : ℚ) (hplay : app.state.isPlaying = true)
    (hen : app.state.overload.enabled = true) (hb : app.state.bpm = c)
    (ht : app.state.overload.targetBpm = c) (h40 : 40 ≤ c)
    (hlt : c < app.state.overload.maxBpm) (h240 : app.state.overload.maxBpm ≤ 240)
    (hs : 0 < app.state.overload.stepBpm) :
    (overloadTick app).state.bpm = min app.state.overload.maxBpm (c + app.state.overload.stepBpm) ∧
      (overloadTick app).state.overload.targetBpm =
        min app.state.overload.maxBpm (c + app.state.overload.stepBpm) ∧
      (overloadTick app).state.isPlaying = true ∧
      (overloadTick app).state.overload.enabled = true ∧
      (overloadTick app).state.overload.maxBpm = app.state.overload.maxBpm ∧
      (overloadTick app).state.overload.stepBpm = app.state.overload.stepBpm ∧
      (overloadTick app).state.overload.intervalSec = app.state.overload.intervalSec ∧
      (overloadTick app).overloadTimerId =
        (if min app.state.overload.maxBpm (c + app.state.overload.stepBpm) <
            app.state.overload.maxBpm then
          some (app.state.overload.intervalSec * 1000)
        else none) := by
  set M := app.state.overload.maxBpm with hM
  set nt := min M (c + app.state.overload.stepBpm) with hnt
  have hnt_gt : c < nt := lt_min hlt (by linarith)
  have hnt_le : nt ≤ M := min_le_left _ _
  have hnt40 : 40 ≤ nt := by linarith
  have hnt0 : nt ≠ 0 := by
    intro h
    rw [h] at hnt40
    norm_num at hnt40
  have hnot : ¬ nt ≤ app.state.bpm := by
    rw [hb]
    exact not_le.mpr hnt_gt
  have e1 : (actions.updateOverloadTarget app.state (.num nt)).overload.targetBpm = nt := by
    simp only [actions.updateOverloadTarget, clamp]
    rw [max_eq_right hnt40]
    exact min_eq_right hnt_le
  have e2 : (actions.setBpm (actions.updateOverloadTarget app.state (.num nt)) (.num nt)).bpm =
      nt := by
    rw [setBpm_bpm]
    simp only [JsNumber.orElse, hnt0, if_false]
    rw [max_eq_right hnt40]
    exact min_eq_right (le_trans hnt_le h240)
  have e3 : (actions.setBpm (actions.updateOverloadTarget app.state (.num nt))
      (.num nt)).overload.targetBpm = nt := by
    rw [setBpm_targetBpm, e2, e1]
    simp only [jsOr, hnt0, if_false, max_self]
    exact min_eq_right hnt_le
  have e4 : (actions.setBpm (actions.updateOverloadTarget app.state (.num nt))
      (.num nt)).overload.maxBpm = M := by
    rw [setBpm_maxBpm]
    rfl
  have hstep : overloadTick app =
      (if nt ≥ M then
        clearOverloadTimer
          { app with
            state := actions.setBpm (actions.updateOverloadTarget app.state (.num nt)) (.num nt) }
      else
        { app with
          state := actions.setBpm (actions.updateOverloadTarget app.state (.num nt)) (.num nt)
          overloadTimerId :=
            some ((actions.setBpm (actions.updateOverloadTarget app.state (.num nt))
              (.num nt)).overload.intervalSec * 1000) }) := by
    unfold overloadTick
    simp only [hplay, hen, Bool.not_true, Bool.or_self, Bool.false_eq_true, if_false, ht, ← hM,
      ← hnt, hnot, e2, e4]
  rw [hstep]
  by_cases hge : nt ≥ M
  · rw [if_pos hge, if_neg (not_lt.mpr hge), clearOverloadTimer_state]
    refine ⟨e2, e3, ?_, ?_, e4, ?_, ?_, clearOverloadTimer_timer _⟩
    · simpa [actions.setBpm, actions.updateOverloadTarget] using hplay
    · simpa [actions.setBpm, actions.updateOverloadTarget] using hen
    · simp [actions.setBpm, actions.updateOverloadTarget]
    · simp [actions.setBpm, actions.updateOverloadTarget]
  · rw [if_neg hge, if_pos (not_le.mp hge)]
    refine ⟨e2, e3, ?_, ?_, e4, ?_, ?_, ?_⟩
    · simpa [actions.setBpm, actions.updateOverloadTarget] using hplay
    · simpa [actions.setBpm, actions.updateOverloadTarget] using hen
    · simp [actions.setBpm, actions.updateOverloadTarget]
    · simp [actions.setBpm, actions.updateOverloadTarget]
    · simp [actions.setBpm, actions.updateOverloadTarget]

theorem fireOverloadTimer_armed (a : App) (h : a.overloadTimerId.isSome = true) :
    fireOverloadTimer a = overloadTick a := by
  unfold fireOverloadTimer
  rw [if_pos h]

theorem fireOverloadTimer_disarmed (a : App) (h : ¬ a.overloadTimerId.isSome = true) :
    fireOverloadTimer a = a := by
  unfold fireOverloadTimer
  rw [if_neg h]

/-- The state of the ramp after `k` firings, as an invariant of `fireOverloadTimer`. -/
theorem fireOverloadTimer_iterate (app : App) (b s M : ℚ)
    (hplay : app.state.isPlaying = true) (hen : app.state.overload.enabled = true)
    (hb : app.state.bpm = b) (ht : app.state.overload.targetBpm = b)
    (hM : app.state.overload.maxBpm = M) (hs : app.state.overload.stepBpm = s)
    (h40 : 40 ≤ b) (hlt : b < M) (h240 : M ≤ 240) (hspos : 0 < s)
    (harm : app.overloadTimerId.isSome = true) (k : ℕ) :
    (fireOverloadTimer^[k] app).state.isPlaying = true ∧
      (fireOverloadTimer^[k] app).state.overload.enabled = true ∧
      (fireOverloadTimer^[k] app).state.overload.maxBpm = M ∧
      (fireOverloadTimer^[k] app).state.overload.stepBpm = s ∧
      (fireOverloadTimer^[k] app).state.bpm = min M (b + k * s) ∧
      (fireOverloadTimer^[k] app).state.overload.targetBpm = min M (b + k * s) ∧
      ((fireOverloadTimer^[k] app).overloadTimerId.isSome = true ↔ min M (b + k * s) < M) := by
  induction k with
  | zero =>
    simp only [Function.iterate_zero, id_eq, Nat.cast_zero, zero_mul, add_zero]
    rw [min_eq_right hlt.le]
    exact ⟨hplay, hen, hM, hs, hb, ht, ⟨fun _ => hlt, fun _ => harm⟩⟩
  | succ k ih =>
    obtain ⟨i1, i2, i3, i4, i5, i6, i7⟩ := ih
    rw [Function.iterate_succ_apply']
    have hks : (0 : ℚ) ≤ k * s := mul_nonneg (Nat.cast_nonneg _) hspos.le
    have hcast : b + ((k + 1 : ℕ) : ℚ) * s = b + k * s + s := by
      push_cast
      ring
    rw [hcast]
    by_cases harmed : (fireOverloadTimer^[k] app).overloadTimerId.isSome = true
    · have hbelow : min M (b + k * s) < M := i7.mp harmed
      have hc : min M (b + k * s) = b + k * s := by
        rcases min_choice M (b + k * s) with h | h
        · rw [h] at hbelow
          exact absurd hbelow (lt_irrefl _)
        · exact h
      have hfire := fireOverloadTimer_armed _ harmed
      rw [hc] at i5 i6 hbelow
      obtain ⟨r1, r2, r3, r4, r5, r6, _, r8⟩ :=
        overloadTick_ramp (fireOverloadTimer^[k] app) (b + k * s) i1 i2 i5 i6 (by linarith)
          (by rw [i3]; exact hbelow) (by rw [i3]; exact h240) (by rw [i4]; exact hspos)
      simp only [i3, i4] at r1 r2 r5 r6 r8
      rw [hfire]
      refine ⟨r3, r4, r5, r6, r1, r2, ?_⟩
      rw [r8]
      split
      · rename_i h
        exact ⟨fun _ => h, fun _ => rfl⟩
      · rename_i h
        exact ⟨fun e => (by cases e), fun e => absurd e h⟩
    · have hfire := fireOverloadTimer_disarmed _ harmed
      have hat : ¬ min M (b + k * s) < M := fun h => harmed (i7.mpr h)
      have hge : M ≤ b + k * s := by
        by_contra hcon
        apply hat
        rw [min_eq_right (not_le.mp hcon).le]
        exact not_le.mp hcon
      have e1 : min M (b + k * s) = M := min_eq_left hge
      have e2 : min M (b + k * s + s) = M := min_eq_left (by linarith)
      rw [hfire, e2]
      rw [e1] at i5 i6
      refine ⟨i1, i2, i3, i4, i5, i6, ?_⟩
      exact ⟨fun e => absurd e harmed, fun e => absurd e (lt_irrefl _)⟩

/-- C17: from every state with `isPlaying` and `overload.enabled` true,
`bpm = overload.targetBpm = b`, `40 <= b < maxBpm <= 240`, `stepBpm = s > 0` and
the overload timer armed, with no other mutation in between, the k-th firing of
the timer leaves `bpm = targetBpm = min(maxBpm, b + k s)`; after a firing the
timer is armed exactly when that bpm is below `maxBpm`; a further run of the tick
logic at `bpm = maxBpm` leaves bpm unchanged; for b = 120, s = 5, maxBpm = 130
the firings give 125 (armed), then 130 (disarmed). -/
theorem overload_ramp (app : App) (b s M : ℚ)
    (hplay : app.state.isPlaying = true) (hen : app.state.overload.enabled = true)
    (hb : app.state.bpm = b) (ht : app.state.overload.targetBpm = b)
    (hM : app.state.overload.maxBpm = M) (hs : app.state.overload.stepBpm = s)
    (h40 : 40 ≤ b) (hlt : b < M) (h240 : M ≤ 240) (hspos : 0 < s)
    (harm : app.overloadTimerId.isSome = true) :
    (∀ k : ℕ,
        (fireOverloadTimer^[k] app).state.bpm = min M (b + k * s) ∧
        (fireOverloadTimer^[k] app).state.overload.targetBpm = min M (b + k * s) ∧
        (1 ≤ k →
          ((fireOverloadTimer^[k] app).overloadTimerId.isSome = true ↔ min M (b + k * s) < M)) ∧
        (min M (b + k * s) = M →
          (overloadTick (fireOverloadTimer^[k] app)).state.bpm = M ∧
            (overloadTick (fireOverloadTimer^[k] app)).overloadTimerId = none)) ∧
      (b = 120 → s = 5 → M = 130 →
        (fireOverloadTimer app).state.bpm = 125 ∧
          (fireOverloadTimer app).overloadTimerId.isSome = true ∧
          (fireOverloadTimer (fireOverloadTimer app)).state.bpm = 130 ∧
          (fireOverloadTimer (fireOverloadTimer app)).overloadTimerId = none) := by
  have hall := fireOverloadTimer_iterate app b s M hplay hen hb ht hM hs h40 hlt h240 hspos harm
  constructor
  · intro k
    obtain ⟨i1, i2, i3, i4, i5, i6, i7⟩ := hall k
    refine ⟨i5, i6, fun _ => i7, ?_⟩
    intro hk
    rw [hk] at i5 i6
    have hnext : min (fireOverloadTimer^[k] app).state.overload.maxBpm
        ((fireOverloadTimer^[k] app).state.overload.targetBpm +
          (fireOverloadTimer^[k] app).state.overload.stepBpm) ≤
        (fireOverloadTimer^[k] app).state.bpm := by
      rw [i3, i5]
      exact min_le_left _ _
    obtain ⟨r1, _, r3⟩ :=
      (overloadTick_no_raise (fireOverloadTimer^[k] app) i1 i2 hnext).2 (by rw [i3, i5])
    exact ⟨by rw [r1, i5], r3⟩
  · intro eb es eM
    subst eb es eM
    have h1 := hall 1
    have h2 := hall 2
    simp only [Function.iterate_succ, Function.iterate_zero, Function.comp, id_eq] at h1 h2
    obtain ⟨_, _, _, _, a5, _, a7⟩ := h1
    obtain ⟨_, _, _, _, b5, _, b7⟩ := h2
    norm_num at a5 a7 b5 b7
    refine ⟨a5, a7, b5, ?_⟩
    cases hval : (fireOverloadTimer (fireOverloadTimer app)).overloadTimerId with
    | none => rfl
    | some v =>
      rw [hval] at b7
      simp at b7

/-- C17, at the ramp b = 120, s = 5, maxBpm = 130. -/
theorem overload_ramp_witness :
    (fireOverloadTimer
        { state :=
            { DEFAULT_STATE with
              isPlaying := true
              overload :=
                { DEFAULT_STATE.overload with enabled := true, stepBpm := 5, maxBpm := 130 } }
          scheduler := some (started 0)
          overloadTimerId := some 30000
          lastTimerTickAt := 0 }).state.bpm = 125 ∧
      (fireOverloadTimer (fireOverloadTimer
        { state :=
            { DEFAULT_STATE with
              isPlaying := true
              overload :=
                { DEFAULT_STATE.overload with enabled := true, stepBpm := 5, maxBpm := 130 } }
          scheduler := some (started 0)
          overloadTimerId := some 30000
          lastTimerTickAt := 0 })).state.bpm = 130 ∧
      (fireOverloadTimer (fireOverloadTimer
        { state :=
            { DEFAULT_STATE with
              isPlaying := true
              overload :=
                { DEFAULT_STATE.overload with enabled := true, stepBpm := 5, maxBpm := 130 } }
          scheduler := some (started 0)
          overloadTimerId := some 30000
          lastTimerTickAt := 0 })).overloadTimerId = none :=
  have h := overload_ramp
    { state :=
        { DEFAULT_STATE with
          isPlaying := true
          overload :=
            { DEFAULT_STATE.overload with enabled := true, stepBpm := 5, maxBpm := 130 } }
      scheduler := some (started 0)
      overloadTimerId := some 30000
      lastTimerTickAt := 0 }
    120 5 130 rfl rfl rfl rfl rfl rfl (by norm_num) (by norm_num) (by norm_num) (by norm_num) rfl
  ⟨(h.2 rfl rfl rfl).1, (h.2 rfl rfl rfl).2.2.1, (h.2 rfl rfl rfl).2.2.2⟩

/-- C18 as stated fails: in a playing store with overload enabled, bpm 200 and
`targetBpm = maxBpm = 160`, `nextTarget = 160 <= bpm`, yet a firing leaves
`targetBpm` at 160, not at the bpm, and disarms the timer instead of re-arming it. -/
theorem overloadTick_above_maxBpm_disarms :
    min (160 : ℚ) (160 + 1) ≤ 200 ∧
      (overloadTick
        { state :=
            { DEFAULT_STATE with
              bpm := 200
              isPlaying := true
              overload := { DEFAULT_STATE.overload with enabled := true, targetBpm := 160 } }
          scheduler := some (started 0)
          overloadTimerId := some 30000
          lastTimerTickAt := 0 }).state.bpm = 200 ∧
      (overloadTick
        { state :=
            { DEFAULT_STATE with
              bpm := 200
              isPlaying := true
              overload := { DEFAULT_STATE.overload with enabled := true, targetBpm := 160 } }
          scheduler := some (started 0)
          overloadTimerId := some 30000
          lastTimerTickAt := 0 }).state.overload.targetBpm = 160 ∧
      (overloadTick
        { state :=
            { DEFAULT_STATE with
              bpm := 200
              isPlaying := true
              overload := { DEFAULT_STATE.overload with enabled := true, targetBpm := 160 } }
          scheduler := some (started 0)
          overloadTimerId := some 30000
          lastTimerTickAt := 0 }).overloadTimerId = none := by
  refine ⟨by norm_num, ?_, ?_, ?_⟩ <;>
    norm_num [overloadTick, actions.updateOverloadTarget, clamp, clearOverloadTimer,
      DEFAULT_STATE]

/-- C18, amended: for every state with `isPlaying` and `overload.enabled` true
and `40 <= bpm < maxBpm` in which `nextTarget = min(maxBpm, targetBpm + stepBpm)`
satisfies `nextTarget <= bpm`, a firing of the overload timer leaves bpm
unchanged, sets `overload.targetBpm` equal to the bpm and re-arms the timer for
`intervalSec` seconds; when `bpm >= maxBpm` instead, the firing leaves bpm
unchanged and disarms the timer. -/
theorem overloadTick_caught_up (app : App) (hplay : app.state.isPlaying = true)
    (hen : app.state.overload.enabled = true)
    (hnext : min app.state.overload.maxBpm
      (app.state.overload.targetBpm + app.state.overload.stepBpm) ≤ app.state.bpm) :
    (40 ≤ app.state.bpm → app.state.bpm < app.state.overload.maxBpm →
        (overloadTick app).state.bpm = app.state.bpm ∧
          (overloadTick app).state.overload.targetBpm = app.state.bpm ∧
          (overloadTick app).overloadTimerId = some (app.state.overload.intervalSec * 1000)) ∧
      (app.state.overload.maxBpm ≤ app.state.bpm →
        (overloadTick app).state.bpm = app.state.bpm ∧
          (overloadTick app).overloadTimerId = none) :=
  ⟨(overloadTick_no_raise app hplay hen hnext).1,
    fun h => ⟨((overloadTick_no_raise app hplay hen hnext).2 h).1,
      ((overloadTick_no_raise app hplay hen hnext).2 h).2.2⟩⟩

/-- C18 amended, at a playing store with bpm 150 and `targetBpm` 120 (`maxBpm` 160). -/
theorem overloadTick_caught_up_witness :
    (overloadTick
        { state :=
            { DEFAULT_STATE with
              bpm := 150
              isPlaying := true
              overload := { DEFAULT_STATE.overload with enabled := true } }
          scheduler := some (started 0)
          overloadTimerId := some 30000
          lastTimerTickAt := 0 }).state.overload.targetBpm = 150 ∧
      (overloadTick
        { state :=
            { DEFAULT_STATE with
              bpm := 150
              isPlaying := true
              overload := { DEFAULT_STATE.overload with enabled := true } }
          scheduler := some (started 0)
          overloadTimerId := some 30000
          lastTimerTickAt := 0 }).overloadTimerId = some (30 * 1000) :=
  ⟨((overloadTick_caught_up _ rfl rfl (by norm_num [DEFAULT_STATE])).1 (by norm_num)
      (by norm_num [DEFAULT_STATE])).2.1,
    ((overloadTick_caught_up _ rfl rfl (by norm_num [DEFAULT_STATE])).1 (by norm_num)
      (by norm_num [DEFAULT_STATE])).2.2⟩

/-- C19 fails on the code: with playback active and overload disabled, the
toggle handler run with `enabled = true` ends with `overload.enabled = true` but
no overload timer armed, because `_setupOverloadTimer()` reads the store before
`actions.configureOverload` has set the flag.  The rest of the claim holds: the
handler run with `enabled = false`, and `scheduler.stop()` on a running
scheduler (through its `onStop` callback), leave no timer armed. -/
theorem overloadToggleChange_enable_does_not_arm :
    ((overloadToggleChange
        { state := { DEFAULT_STATE with isPlaying := true }
          scheduler := some (started 0)
          overloadTimerId := none
          lastTimerTickAt := 0 } true).state.overload.enabled = true ∧
      (overloadToggleChange
        { state := { DEFAULT_STATE with isPlaying := true }
          scheduler := some (started 0)
          overloadTimerId := none
          lastTimerTickAt := 0 } true).overloadTimerId = none) ∧
      (∀ app : App, (overloadToggleChange app false).overloadTimerId = none) ∧
      (∀ app : App, (onStop app).overloadTimerId = none) ∧
      (∀ (app : App) (sch : MetronomeScheduler), app.scheduler = some sch →
        sch.isRunning = true → (stopScheduler app).overloadTimerId = none) := by
  refine ⟨⟨?_, ?_⟩, ?_, ?_, ?_⟩
  · simp [overloadToggleChange, actions.configureOverload, actions.positiveNumber]
  · simp [overloadToggleChange, configureOverloadEnabled, setupOverloadTimer, clearOverloadTimer,
      DEFAULT_STATE]
  · intro app
    simp only [overloadToggleChange, configureOverloadEnabled, Bool.false_and,
      Bool.false_eq_true, if_false]
    exact clearOverloadTimer_timer app
  · intro app
    exact clearOverloadTimer_timer _
  · intro app sch hsch hrun
    simp only [stopScheduler, hsch, MetronomeScheduler.stop, hrun, Bool.not_true,
      Bool.false_eq_true, if_false, List.mem_singleton, if_true]
    exact clearOverloadTimer_timer _

/-! ## Auxiliary facts: persistence -/

theorem clamp_num_range (q : ℚ) : 40 ≤ clamp (.num q) 40 240 ∧ clamp (.num q) 40 240 ≤ 240 := by
  simp only [clamp]
  exact ⟨le_min (by norm_num) (le_max_left _ _), min_le_left _ _⟩

theorem createInitialState_bpm_range (w : Storage) :
    40 ≤ (createInitialState w).bpm ∧ (createInitialState w).bpm ≤ 240 := by
  unfold createInitialState
  split
  · norm_num [DEFAULT_STATE]
  · exact clamp_num_range _

theorem applyAction_bpm_range (s : State) (a : Action) (h : 40 ≤ s.bpm ∧ s.bpm ≤ 240) :
    40 ≤ (applyAction s a).bpm ∧ (applyAction s a).bpm ≤ 240 := by
  cases a with
  | setBpm x => exact clamp_num_range _
  | stepBpm d => exact clamp_num_range _
  | setTimeSignature sig => exact h
  | setSubdivision sub => exact h
  | setAccentEnabled b => exact h
  | setPlaying b =>
    simp only [applyAction, actions.setPlaying]
    split
    · exact h
    · split <;> exact h
  | setCurrentBeat i => exact h
  | setPracticeTimerPreset secs =>
    simp only [applyAction, actions.setPracticeTimerPreset]
    split <;> exact h
  | setPracticeTimerCustom m =>
    simp only [applyAction, actions.setPracticeTimerCustom]
    split <;> exact h
  | tickPracticeTimer d =>
    simp only [applyAction, actions.tickPracticeTimer]
    split
    · exact h
    · split <;> exact h
  | configureOverload cfg => exact h
  | updateOverloadTarget t => exact h
  | recordTap t => exact h
  | clearTaps => exact h

theorem applyActions_bpm_range (s : State) (acts : List Action)
    (h : 40 ≤ s.bpm ∧ s.bpm ≤ 240) :
    40 ≤ (applyActions s acts).bpm ∧ (applyActions s acts).bpm ≤ 240 := by
  induction acts generalizing s with
  | nil => exact h
  | cons a rest ih => exact ih (applyAction s a) (applyAction_bpm_range s a h)

/-- C20: for every store state reachable through the actions (from any initial
state the store can load) whose `timeSignature` and `subdivision` are enum
values, saving its projection with `persistSettings` and building the initial
state from the saved record reproduces bpm, timeSignature, subdivision,
accentEnabled, overload.enabled, overload.stepBpm, overload.intervalSec and
overload.maxBpm, and sets `overload.targetBpm` to the bpm whatever target was saved. -/
theorem persist_load_roundtrip (w0 w : Storage) (acts : List Action)
    (hw : w.available = true)
    (hsig : (applyActions (createInitialState w0) acts).timeSignature ∈
      ["2/4", "3/4", "4/4", "6/8"])
    (hsub : (applyActions (createInitialState w0) acts).subdivision ∈
      ["quarter", "eighth", "sixteenth"]) :
    (createInitialState (persistSettings w (applyActions (createInitialState w0) acts))).bpm =
        (applyActions (createInitialState w0) acts).bpm ∧
      (createInitialState
          (persistSettings w (applyActions (createInitialState w0) acts))).timeSignature =
        (applyActions (createInitialState w0) acts).timeSignature ∧
      (createInitialState
          (persistSettings w (applyActions (createInitialState w0) acts))).subdivision =
        (applyActions (createInitialState w0) acts).subdivision ∧
      (createInitialState
          (persistSettings w (applyActions (createInitialState w0) acts))).accentEnabled =
        (applyActions (createInitialState w0) acts).accentEnabled ∧
      (createInitialState
          (persistSettings w (applyActions (createInitialState w0) acts))).overload.enabled =
        (applyActions (createInitialState w0) acts).overload.enabled ∧
      (createInitialState
          (persistSettings w (applyActions (createInitialState w0) acts))).overload.stepBpm =
        (applyActions (createInitialState w0) acts).overload.stepBpm ∧
      (createInitialState
          (persistSettings w (applyActions (createInitialState w0) acts))).overload.intervalSec =
        (applyActions (createInitialState w0) acts).overload.intervalSec ∧
      (createInitialState
          (persistSettings w (applyActions (createInitialState w0) acts))).overload.maxBpm =
        (applyActions (createInitialState w0) acts).overload.maxBpm ∧
      (createInitialState
          (persistSettings w (applyActions (createInitialState w0) acts))).overload.targetBpm =
        (applyActions (createInitialState w0) acts).bpm := by
  obtain ⟨hlo, hhi⟩ := applyActions_bpm_range _ acts (createInitialState_bpm_range w0)
  generalize applyActions (createInitialState w0) acts = s at hsig hsub hlo hhi ⊢
  have hne : s.bpm ≠ 0 := by
    intro h
    rw [h] at hlo
    norm_num at hlo
  have hbpm : clamp (.num ((numberOf (some s.bpm)).orElse DEFAULT_STATE.bpm)) 40 240 = s.bpm := by
    simp only [numberOf, JsNumber.orElse, hne, if_false, clamp]
    rw [max_eq_right hlo, min_eq_right hhi]
  have hsig2 : stringOr (some s.timeSignature) DEFAULT_STATE.timeSignature = s.timeSignature := by
    simp only [List.mem_cons, List.mem_singleton, List.mem_nil_iff, or_false] at hsig
    rcases hsig with h | h | h | h <;> simp [stringOr, h]
  have hsub2 : stringOr (some s.subdivision) DEFAULT_STATE.subdivision = s.subdivision := by
    simp only [List.mem_cons, List.mem_singleton, List.mem_nil_iff, or_false] at hsub
    rcases hsub with h | h | h <;> simp [stringOr, h]
  simp only [createInitialState, persistSettings, saveSettings, loadSettings, hw, Bool.not_true,
    Bool.false_eq_true, if_false, hbpm, hsig2, hsub2, spreadOverload, Option.getD_some]
  refine ⟨?_, ?_, ?_, ?_, ?_, ?_, ?_, ?_, ?_⟩ <;> trivial

/-- C20, at the store reached from an empty storage by `setBpm(90)`,
`setTimeSignature("6/8")` and a new overload ceiling of 200. -/
theorem persist_load_roundtrip_witness :
    (createInitialState (persistSettings (Storage.mk true none)
        (applyActions (createInitialState (Storage.mk true none))
          [Action.setBpm (.num 90), Action.setTimeSignature "6/8",
            Action.configureOverload
              { enabled := some true, stepBpm := none, intervalSec := none,
                maxBpm := some (.num 200) }]))).bpm =
      (applyActions (createInitialState (Storage.mk true none))
          [Action.setBpm (.num 90), Action.setTimeSignature "6/8",
            Action.configureOverload
              { enabled := some true, stepBpm := none, intervalSec := none,
                maxBpm := some (.num 200) }]).bpm :=
  (persist_load_roundtrip (Storage.mk true none) (Storage.mk true none)
    [Action.setBpm (.num 90), Action.setTimeSignature "6/8",
      Action.configureOverload
        { enabled := some true, stepBpm := none, intervalSec := none,
          maxBpm := some (.num 200) }]
    rfl
    (by simp [applyActions, applyAction, actions.configureOverload, actions.setTimeSignature])
    (by simp [applyActions, applyAction, actions.configureOverload, actions.setTimeSignature,
      actions.setBpm, createInitialState, loadSettings, DEFAULT_STATE])).1

/-! ## Auxiliary facts: loading and tap buffer -/

theorem shiftOverflow_eq_drop (l : List ℚ) :
    actions.shiftOverflow l = l.drop (l.length - 12) := by
  induction l with
  | nil => rfl
  | cons a rest ih =>
    unfold actions.shiftOverflow
    split
    · rename_i h
      rw [ih]
      simp only [List.length_cons] at h ⊢
      have e : rest.length + 1 - 12 = (rest.length - 12) + 1 := by omega
      rw [e, List.drop_succ_cons]
    · rename_i h
      simp only [List.length_cons] at h ⊢
      have e : rest.length + 1 - 12 = 0 := by omega
      rw [e, List.drop_zero]

theorem applyAction_taps_le (s : State) (a : Action) (h : s.tapTempo.timestamps.length ≤ 12) :
    (applyAction s a).tapTempo.timestamps.length ≤ 12 := by
  cases a with
  | setBpm x => exact h
  | stepBpm d => exact h
  | setTimeSignature sig => exact h
  | setSubdivision sub => exact h
  | setAccentEnabled b => exact h
  | setPlaying b =>
    simp only [applyAction, actions.setPlaying]
    split
    · exact h
    · split <;> exact h
  | setCurrentBeat i => exact h
  | setPracticeTimerPreset secs =>
    simp only [applyAction, actions.setPracticeTimerPreset]
    split <;> exact h
  | setPracticeTimerCustom m =>
    simp only [applyAction, actions.setPracticeTimerCustom]
    split <;> exact h
  | tickPracticeTimer d =>
    simp only [applyAction, actions.tickPracticeTimer]
    split
    · exact h
    · split <;> exact h
  | configureOverload cfg => exact h
  | updateOverloadTarget t => exact h
  | recordTap t =>
    simp only [applyAction, actions.recordTap, shiftOverflow_eq_drop, List.length_drop,
      List.length_append, List.length_singleton]
    omega
  | clearTaps => simp [applyAction, actions.clearTaps]

theorem applyActions_taps_le (s : State) (acts : List Action)
    (h : s.tapTempo.timestamps.length ≤ 12) :
    (applyActions s acts).tapTempo.timestamps.length ≤ 12 := by
  induction acts generalizing s with
  | nil => exact h
  | cons a rest ih => exact ih (applyAction s a) (applyAction_taps_le s a h)

/-- C21: for every stored settings record, whatever subset of its fields is
missing, `createInitialState` gives each missing field its default (bpm 120,
timeSignature "4/4", subdivision "quarter", accentEnabled true, overload.enabled
false, overload.stepBpm 1, overload.intervalSec 30, overload.maxBpm 160), keeps
every present valid field (a bpm in [40,240], an enum signature or subdivision,
a boolean, any present overload setting), and sets `overload.targetBpm` to the
resulting bpm; when nothing is stored the state is exactly the default state. -/
theorem createInitialState_defaults (w : Storage) (stored : StoredSettings)
    (hload : loadSettings w = some stored) :
    (stored.bpm = none → (createInitialState w).bpm = 120) ∧
      (∀ q, stored.bpm = some q → 40 ≤ q → q ≤ 240 → (createInitialState w).bpm = q) ∧
      (stored.timeSignature = none → (createInitialState w).timeSignature = "4/4") ∧
      (∀ sig, stored.timeSignature = some sig → sig ∈ ["2/4", "3/4", "4/4", "6/8"] →
        (createInitialState w).timeSignature = sig) ∧
      (stored.subdivision = none → (createInitialState w).subdivision = "quarter") ∧
      (∀ sub, stored.subdivision = some sub → sub ∈ ["quarter", "eighth", "sixteenth"] →
        (createInitialState w).subdivision = sub) ∧
      (createInitialState w).accentEnabled = stored.accentEnabled.getD true ∧
      (createInitialState w).overload.enabled =
        (stored.overload.bind StoredOverload.enabled).getD false ∧
      (createInitialState w).overload.stepBpm =
        (stored.overload.bind StoredOverload.stepBpm).getD 1 ∧
      (createInitialState w).overload.intervalSec =
        (stored.overload.bind StoredOverload.intervalSec).getD 30 ∧
      (createInitialState w).overload.maxBpm =
        (stored.overload.bind StoredOverload.maxBpm).getD 160 ∧
      (createInitialState w).overload.targetBpm = (createInitialState w).bpm ∧
      (∀ w0 : Storage, loadSettings w0 = none → createInitialState w0 = DEFAULT_STATE) := by
  have hov : ∀ (f : StoredOverload → Option ℚ) (g : Overload → ℚ),
      (∀ o base, g (spreadOverload base (some o)) = (f o).getD (g base)) →
      g (spreadOverload DEFAULT_STATE.overload stored.overload) =
        (stored.overload.bind f).getD (g DEFAULT_STATE.overload) := by
    intro f g hfg
    cases hso : stored.overload with
    | none => rfl
    | some o => exact hfg o _
  refine ⟨?_, ?_, ?_, ?_, ?_, ?_, ?_, ?_, ?_, ?_, ?_, ?_, ?_⟩
  · intro h
    simp only [createInitialState, hload, h, numberOf, JsNumber.orElse, clamp, DEFAULT_STATE]
    norm_num
  · intro q h h1 h2
    have hq : q ≠ 0 := by
      intro e
      rw [e] at h1
      norm_num at h1
    simp only [createInitialState, hload, h, numberOf, JsNumber.orElse, clamp, hq, if_false]
    rw [max_eq_right h1, min_eq_right h2]
  · intro h
    simp only [createInitialState, hload, h, stringOr, DEFAULT_STATE]
  · intro sig h hmem
    simp only [List.mem_cons, List.mem_singleton, List.mem_nil_iff, or_false] at hmem
    rcases hmem with e | e | e | e <;> simp [createInitialState, hload, h, stringOr, e]
  · intro h
    simp only [createInitialState, hload, h, stringOr, DEFAULT_STATE]
  · intro sub h hmem
    simp only [List.mem_cons, List.mem_singleton, List.mem_nil_iff, or_false] at hmem
    rcases hmem with e | e | e <;> simp [createInitialState, hload, h, stringOr, e]
  · simp only [createInitialState, hload]
    cases stored.accentEnabled <;> rfl
  · simp only [createInitialState, hload]
    cases hso : stored.overload with
    | none => rfl
    | some o => rfl
  · simp only [createInitialState, hload]
    exact hov StoredOverload.stepBpm Overload.stepBpm (fun _ _ => rfl)
  · simp only [createInitialState, hload]
    exact hov StoredOverload.intervalSec Overload.intervalSec (fun _ _ => rfl)
  · simp only [createInitialState, hload]
    exact hov StoredOverload.maxBpm Overload.maxBpm (fun _ _ => rfl)
  · simp only [createInitialState, hload]
  · intro w0 h0
    simp only [createInitialState, h0]

/-- C21, at a stored record holding only a bpm of 90 and an overload step of 5. -/
theorem createInitialState_defaults_witness :
    (createInitialState
        (Storage.mk true (some
          { bpm := some 90, timeSignature := none, subdivision := none, accentEnabled := none,
            overload := some
              { enabled := none, stepBpm := some 5, intervalSec := none, maxBpm := none,
                targetBpm := none } }))).bpm = 90 ∧
      (createInitialState
        (Storage.mk true (some
          { bpm := some 90, timeSignature := none, subdivision := none, accentEnabled := none,
            overload := some
              { enabled := none, stepBpm := some 5, intervalSec := none, maxBpm := none,
                targetBpm := none } }))).timeSignature = "4/4" ∧
      (createInitialState
        (Storage.mk true (some
          { bpm := some 90, timeSignature := none, subdivision := none, accentEnabled := none,
            overload := some
              { enabled := none, stepBpm := some 5, intervalSec := none, maxBpm := none,
                targetBpm := none } }))).overload.stepBpm = 5 :=
  have h := createInitialState_defaults
    (Storage.mk true (some
      { bpm := some 90, timeSignature := none, subdivision := none, accentEnabled := none,
        overload := some
          { enabled := none, stepBpm := some 5, intervalSec := none, maxBpm := none,
            targetBpm := none } }))
    { bpm := some 90, timeSignature := none, subdivision := none, accentEnabled := none,
      overload := some
        { enabled := none, stepBpm := some 5, intervalSec := none, maxBpm := none,
          targetBpm := none } }
    rfl
  ⟨h.2.1 90 rfl (by norm_num) (by norm_num), h.2.2.1 rfl, h.2.2.2.2.2.2.2.2.1⟩

/-- C22: for every timestamp list L held by the store (length at most 12) and
every timestamp t, `actions.recordTap(t)` leaves `tapTempo.timestamps` equal to
the last 12 elements of L followed by t, in arrival order: all of them while L
has fewer than 12 entries, and L without its oldest entry followed by t when L
has 12; hence in every state reachable from the default state the list has at
most 12 entries. -/
theorem recordTap_keeps_last_twelve (s : State) (t : ℚ) (acts : List Action)
    (hlen : s.tapTempo.timestamps.length ≤ 12) :
    (actions.recordTap s t).tapTempo.timestamps =
        (s.tapTempo.timestamps ++ [t]).drop ((s.tapTempo.timestamps ++ [t]).length - 12) ∧
      (s.tapTempo.timestamps.length < 12 →
        (actions.recordTap s t).tapTempo.timestamps = s.tapTempo.timestamps ++ [t]) ∧
      (s.tapTempo.timestamps.length = 12 →
        (actions.recordTap s t).tapTempo.timestamps = s.tapTempo.timestamps.tail ++ [t]) ∧
      (actions.recordTap s t).tapTempo.timestamps.length ≤ 12 ∧
      (applyActions DEFAULT_STATE acts).tapTempo.timestamps.length ≤ 12 := by
  have e : (actions.recordTap s t).tapTempo.timestamps =
      (s.tapTempo.timestamps ++ [t]).drop ((s.tapTempo.timestamps ++ [t]).length - 12) := by
    simp only [actions.recordTap, shiftOverflow_eq_drop]
  refine ⟨e, ?_, ?_, ?_, ?_⟩
  · intro h
    rw [e]
    have : (s.tapTempo.timestamps ++ [t]).length - 12 = 0 := by
      simp only [List.length_append, List.length_singleton]
      omega
    rw [this, List.drop_zero]
  · intro h
    rw [e]
    have : (s.tapTempo.timestamps ++ [t]).length - 12 = 1 := by
      simp only [List.length_append, List.length_singleton]
      omega
    rw [this, List.drop_one]
    cases hl : s.tapTempo.timestamps with
    | nil => rw [hl] at h; simp at h
    | cons a rest => rfl
  · rw [e, List.length_drop]
    simp only [List.length_append, List.length_singleton]
    omega
  · exact applyActions_taps_le DEFAULT_STATE acts (by simp [DEFAULT_STATE])

/-- C22, at a full buffer 1, ..., 12 and the new timestamp 13. -/
theorem recordTap_keeps_last_twelve_witness :
    (actions.recordTap
        { DEFAULT_STATE with tapTempo := { timestamps := [1, 2, 3, 4, 5, 6, 7, 8, 9, 10, 11, 12] } }
        13).tapTempo.timestamps = [2, 3, 4, 5, 6, 7, 8, 9, 10, 11, 12, 13] :=
  (recordTap_keeps_last_twelve
    { DEFAULT_STATE with tapTempo := { timestamps := [1, 2, 3, 4, 5, 6, 7, 8, 9, 10, 11, 12] } }
    13 [] (by simp)).2.2.1 rfl

/-! ## Auxiliary facts: transitions and one poll -/

theorem whileLoop_no_callbacks (state : State) (c : ℚ) (T : Timing) :
    ∀ (fuel : ℕ) (s s1 : MetronomeScheduler) (out : List Effect),
      whileLoop state c T fuel s = some (s1, out) →
      out.count Effect.onStart = 0 ∧ out.count Effect.onStop = 0 := by
  intro fuel
  induction fuel with
  | zero =>
    intro s s1 out h
    unfold whileLoop at h
    split at h
    · cases h
    · cases h
      exact ⟨rfl, rfl⟩
  | succ fuel ih =>
    intro s s1 out h
    unfold whileLoop at h
    split at h
    · simp only at h
      split at h
      · cases h
      · rename_i s2 rest hrec
        cases h
        obtain ⟨h1, h2⟩ := ih _ _ _ hrec
        rw [List.count_append, List.count_append, h1, h2]
        exact ⟨by simp [scheduleTick], by simp [scheduleTick]⟩
    · cases h
      exact ⟨rfl, rfl⟩

theorem schedulerLoop_no_callbacks (fuel : ℕ) (s s1 : MetronomeScheduler) (p : Poll)
    (out : List Effect) (h : schedulerLoop fuel s p = some (s1, out)) :
    out.count Effect.onStart = 0 ∧ out.count Effect.onStop = 0 := by
  unfold schedulerLoop at h
  split at h
  · cases h
    exact ⟨rfl, rfl⟩
  · exact whileLoop_no_callbacks _ _ _ _ _ _ _ h

/-- What `start()` does on a stopped scheduler, when it returns. -/
theorem start_stopped (fuel : ℕ) (s : MetronomeScheduler) (ctxTime : ℚ) (p : Poll)
    (hs : s.isRunning = false) (r : MetronomeScheduler × List Effect)
    (h : start fuel s ctxTime p = some r) :
    r.1.isRunning = true ∧ r.2.head? = some Effect.onStart ∧ r.2.count Effect.onStart = 1 ∧
      r.2.count Effect.onStop = 0 := by
  unfold start at h
  rw [if_neg (by simp [hs])] at h
  simp only at h
  split at h
  · cases h
  · rename_i s3 out hloop
    cases h
    obtain ⟨n, _, _, _, _, hrun⟩ := schedulerLoop_spec _ _ _ _ _ hloop
    obtain ⟨c1, c2⟩ := schedulerLoop_no_callbacks _ _ _ _ _ hloop
    refine ⟨by rw [hrun], rfl, ?_, ?_⟩
    · rw [List.count_cons_self, c1]
    · rw [List.count_cons_of_ne (by simp), c2]

theorem start_total (s : MetronomeScheduler) (ctxTime : ℚ) (p : Poll) (h : 0 < p.state.bpm) :
    ∃ fuel r, start fuel s ctxTime p = some r := by
  by_cases hs : s.isRunning = true
  · exact ⟨0, (s, []), by simp [start, hs]⟩
  · obtain ⟨N, r, hN⟩ := schedulerLoop_total
      { s with isRunning := true, nextNoteTime := ctxTime + 1 / 10, currentTickInBar := 0,
               timerSet := true } p h
    refine ⟨N, (r.1, Effect.onStart :: r.2), ?_⟩
    unfold start
    rw [if_neg hs]
    simp only
    rw [hN N le_rfl]

/-- C23: for every scheduler state, `start()` on a running scheduler changes
nothing and makes no call; `stop()` on a stopped scheduler changes nothing and
makes no call; `start()` on a stopped scheduler returns, leaves it running and
invokes `onStart` exactly once, first (it returns whenever the stored tempo is
positive); `stop()` on a running scheduler leaves it
stopped and invokes `onStop` exactly once; `toggle()` is `stop()` on a running
scheduler and `start()` on a stopped one. -/
theorem start_stop_toggle (s : MetronomeScheduler) (ctxTime : ℚ) (p : Poll) :
    (s.isRunning = true → ∀ fuel, start fuel s ctxTime p = some (s, [])) ∧
      (s.isRunning = false → stop s = (s, [])) ∧
      (s.isRunning = false →
        (0 < p.state.bpm → ∃ fuel r, start fuel s ctxTime p = some r) ∧
          ∀ fuel r, start fuel s ctxTime p = some r →
            r.1.isRunning = true ∧ r.2.head? = some Effect.onStart ∧
              r.2.count Effect.onStart = 1 ∧ r.2.count Effect.onStop = 0) ∧
      (s.isRunning = true →
        (stop s).1.isRunning = false ∧ (stop s).2 = [Effect.onStop] ∧
          (stop s).1.nextNoteTime = s.nextNoteTime ∧
          (stop s).1.currentTickInBar = s.currentTickInBar) ∧
      (s.isRunning = true → ∀ fuel, toggle fuel s ctxTime p = some (stop s)) ∧
      (s.isRunning = false → ∀ fuel, toggle fuel s ctxTime p = start fuel s ctxTime p) := by
  refine ⟨?_, ?_, ?_, ?_, ?_, ?_⟩
  · intro h fuel
    simp [start, h]
  · intro h
    simp [stop, h]
  · intro h
    exact ⟨fun hbpm => start_total s ctxTime p hbpm,
      fun fuel r hr => start_stopped fuel s ctxTime p h r hr⟩
  · intro h
    unfold stop
    rw [if_neg (by simp [h])]
    simp only
    refine ⟨?_, ?_, ?_, ?_⟩
    · split <;> rfl
    · trivial
    · split <;> rfl
    · split <;> rfl
  · intro h fuel
    simp [toggle, h]
  · intro h fuel
    simp [toggle, h]

/-- C23, at a fresh scheduler started at clock 0 in the default state. -/
theorem start_stop_toggle_witness :
    stop MetronomeScheduler.new = (MetronomeScheduler.new, []) ∧
      (∃ fuel r, start fuel MetronomeScheduler.new 0 (Poll.mk 0 DEFAULT_STATE) = some r) ∧
      (∀ fuel r, start fuel MetronomeScheduler.new 0 (Poll.mk 0 DEFAULT_STATE) = some r →
        r.1.isRunning = true ∧ r.2.head? = some Effect.onStart ∧
          r.2.count Effect.onStart = 1 ∧ r.2.count Effect.onStop = 0) :=
  have h := start_stop_toggle MetronomeScheduler.new 0 (Poll.mk 0 DEFAULT_STATE)
  ⟨h.2.1 rfl, (h.2.2.1 rfl).1 (by norm_num [DEFAULT_STATE]), (h.2.2.1 rfl).2⟩

/-- C24: for every running scheduler, every clock value Tc and every store
with bpm in [40,240] (any signature and subdivision), one poll returns; every
tick it schedules has a time t with `nextNoteTime_before <= t < Tc + 0.1`; on
return `nextNoteTime >= Tc + 0.1`; and when `nextNoteTime_before >= Tc + 0.1`
already, the scheduler is unchanged and nothing is scheduled. -/
theorem schedulerLoop_window (s : MetronomeScheduler) (p : Poll) (hrun : s.isRunning = true)
    (hlo : 40 ≤ p.state.bpm) (_hhi : p.state.bpm ≤ 240) :
    (∃ fuel r, schedulerLoop fuel s p = some r) ∧
      ∀ fuel r, schedulerLoop fuel s p = some r →
        (∀ t ∈ clickTimes r.2, s.nextNoteTime ≤ t ∧ t < p.ctxTime + 1 / 10) ∧
          p.ctxTime + 1 / 10 ≤ r.1.nextNoteTime ∧
          (p.ctxTime + 1 / 10 ≤ s.nextNoteTime → r = (s, [])) := by
  have hpos : 0 < p.state.bpm := by linarith
  have hsps := computeTiming_pos p.state hpos
  constructor
  · obtain ⟨N, r, hN⟩ := schedulerLoop_total s p hpos
    exact ⟨N, r, hN N le_rfl⟩
  · intro fuel r h
    have hw : whileLoop p.state p.ctxTime (computeTiming p.state) fuel s = some (r.1, r.2) := by
      simpa [schedulerLoop, hrun] using h
    obtain ⟨n, h1, _, _, _, _, h6, h7⟩ := whileLoop_spec _ _ _ _ _ _ _ hw
    simp only [SCHEDULE_AHEAD_SEC] at h6 h7
    refine ⟨?_, h6, ?_⟩
    · intro t ht
      refine ⟨?_, h7 t ht⟩
      rw [h1, List.mem_map] at ht
      obtain ⟨k, _, rfl⟩ := ht
      have : (0 : ℚ) ≤ k * (computeTiming p.state).secondsPerSubdivision :=
        mul_nonneg (Nat.cast_nonneg _) hsps.le
      linarith
    · intro hge
      have hc : ¬ s.nextNoteTime < p.ctxTime + SCHEDULE_AHEAD_SEC := by
        simp only [SCHEDULE_AHEAD_SEC]
        exact not_lt.mpr hge
      cases fuel with
      | zero =>
        simp only [whileLoop, hc, if_false, Option.some.injEq] at hw
        exact hw.symm
      | succ m =>
        simp only [whileLoop, hc, if_false, Option.some.injEq] at hw
        exact hw.symm

/-- C24, at the scheduler just started at clock 0, polled at clock 1 in the default state. -/
theorem schedulerLoop_window_witness :
    ((started 0).isRunning = true ∧ 40 ≤ (Poll.mk 1 DEFAULT_STATE).state.bpm ∧
        (Poll.mk 1 DEFAULT_STATE).state.bpm ≤ 240) ∧
      ((∃ fuel r, schedulerLoop fuel (started 0) (Poll.mk 1 DEFAULT_STATE) = some r) ∧
        ∀ fuel r, schedulerLoop fuel (started 0) (Poll.mk 1 DEFAULT_STATE) = some r →
          (∀ t ∈ clickTimes r.2,
              (started 0).nextNoteTime ≤ t ∧ t < (Poll.mk 1 DEFAULT_STATE).ctxTime + 1 / 10) ∧
            (Poll.mk 1 DEFAULT_STATE).ctxTime + 1 / 10 ≤ r.1.nextNoteTime ∧
            ((Poll.mk 1 DEFAULT_STATE).ctxTime + 1 / 10 ≤ (started 0).nextNoteTime →
              r = (started 0, []))) :=
  ⟨⟨rfl, by norm_num [DEFAULT_STATE], by norm_num [DEFAULT_STATE]⟩,
    schedulerLoop_window (started 0) (Poll.mk 1 DEFAULT_STATE) rfl
      (by norm_num [DEFAULT_STATE]) (by norm_num [DEFAULT_STATE])⟩

/-! ## Auxiliary facts: runs in two phases -/

theorem getElem?_map_range (f : ℕ → ℚ) (n k : ℕ) (t : ℚ)
    (h : ((List.range n).map f)[k]? = some t) : t = f k := by
  rw [List.getElem?_map] at h
  cases hr : (List.range n)[k]? with
  | none => rw [hr] at h; cases h
  | some j =>
    rw [hr] at h
    obtain ⟨hj, rfl⟩ := List.getElem?_eq_some_iff.mp hr
    rw [List.getElem_range] at h
    simp only [Option.map_some', Option.some.injEq] at h
    exact h.symm

theorem runPolls_append (fuel : ℕ) (a b : List Poll) :
    ∀ (s s2 : MetronomeScheduler) (out : List Effect),
      runPolls fuel s (a ++ b) = some (s2, out) →
      ∃ s1 out1 out2, runPolls fuel s a = some (s1, out1) ∧
        runPolls fuel s1 b = some (s2, out2) ∧ out = out1 ++ out2 := by
  induction a with
  | nil =>
    intro s s2 out h
    exact ⟨s, [], out, rfl, h, rfl⟩
  | cons p ps ih =>
    intro s s2 out h
    rw [List.cons_append] at h
    unfold runPolls at h
    split at h
    · cases h
    · rename_i sa outa ha
      split at h
      · cases h
      · rename_i sb outb hb
        cases h
        obtain ⟨s1, o1, o2, e1, e2, e3⟩ := ih _ _ _ hb
        refine ⟨s1, outa ++ o1, o2, ?_, e2, ?_⟩
        · simp only [runPolls, ha, e1]
        · rw [e3, List.append_assoc]

/-- Polls that schedule no tick leave `nextNoteTime` and the running flag as they were. -/
theorem runPolls_no_click (polls : List Poll) :
    ∀ (fuel : ℕ) (s s1 : MetronomeScheduler) (out : List Effect),
      runPolls fuel s polls = some (s1, out) → clickTimes out = [] →
      s1.nextNoteTime = s.nextNoteTime ∧ s1.isRunning = s.isRunning := by
  induction polls with
  | nil =>
    intro fuel s s1 out h _
    simp only [runPolls, Option.some.injEq, Prod.mk.injEq] at h
    obtain ⟨rfl, rfl⟩ := h
    exact ⟨rfl, rfl⟩
  | cons p ps ih =>
    intro fuel s s1 out h hnil
    unfold runPolls at h
    split at h
    · cases h
    · rename_i sa outa ha
      split at h
      · cases h
      · rename_i sb outb hb
        cases h
        rw [clickTimes_append, List.append_eq_nil] at hnil
        obtain ⟨n, a1, _, a3, _, a5⟩ := schedulerLoop_spec _ _ _ _ _ ha
        have hn : n = 0 := by
          have := congrArg List.length a1
          rw [hnil.1] at this
          simpa using this.symm
        rw [hn] at a3
        obtain ⟨b1, b2⟩ := ih _ _ _ _ hb hnil.2
        refine ⟨?_, by rw [b2, a5]⟩
        rw [b1, a3]
        simp

/-- C25 as stated fails: at 120 bpm (0.5 s per tick) the run started at clock 0
schedules its first tick at 0.1; after `setBpm(240)` (0.25 s per tick) the poll
at clock 1 places the next tick at 0.6, one OLD interval after 0.1 and not at
0.35, and only the tick after that, at 0.85, is one new interval later. -/
theorem tempo_change_first_gap_is_old :
    (run 10 0 (Poll.mk 0 DEFAULT_STATE) [Poll.mk (1 / 20) DEFAULT_STATE]).map
        (fun r => clickTimes r.2) = some [1 / 10] ∧
      (run 10 0 (Poll.mk 0 DEFAULT_STATE)
          [Poll.mk (1 / 20) DEFAULT_STATE,
            Poll.mk 1 (actions.setBpm DEFAULT_STATE (JsNumber.num 240))]).map
        (fun r => clickTimes r.2) = some [1 / 10, 3 / 5, 17 / 20] ∧
      (computeTiming (actions.setBpm DEFAULT_STATE (JsNumber.num 240))).secondsPerSubdivision =
        1 / 4 ∧
      (3 / 5 : ℚ) ≠ 1 / 10 + 1 / 4 := by
  refine ⟨?_, ?_, ?_, by norm_num⟩
  · norm_num [run, runPolls, start, schedulerLoop, whileLoop, MetronomeScheduler.new,
      scheduleTick, computeTiming, DEFAULT_STATE, getSignatureConfig, getSubdivisionFactor,
      SCHEDULE_AHEAD_SEC, clickTimes]
  · norm_num [run, runPolls, start, schedulerLoop, whileLoop, MetronomeScheduler.new,
      scheduleTick, computeTiming, DEFAULT_STATE, getSignatureConfig, getSubdivisionFactor,
      SCHEDULE_AHEAD_SEC, clickTimes, actions.setBpm, clamp, JsNumber.orElse, jsOr]
  · norm_num [computeTiming, DEFAULT_STATE, getSignatureConfig, getSubdivisionFactor,
      actions.setBpm, clamp, JsNumber.orElse, jsOr]

/-- C25, amended: a tempo change needs no restart; if `setBpm` changes the tempo
between two polls of a run, the first tick scheduled after the change is placed
one OLD `secondsPerSubdivision` after the last tick scheduled before the change
(its time was fixed when that tick was scheduled), and every later gap uses the
new value while the configuration stays the same: with n ticks scheduled before
the change, the j-th tick after it has time
`t0 + 0.1 + n * oldSeconds + j * newSeconds`. -/
theorem tempo_change_gaps (t0 : ℚ) (first : Poll) (before after : List Poll) (x : JsNumber)
    (hbpm : 0 < first.state.bpm)
    (hbefore : ∀ p ∈ before, p.state.bpm = first.state.bpm ∧
      p.state.timeSignature = first.state.timeSignature ∧
      p.state.subdivision = first.state.subdivision)
    (hafter : ∀ p ∈ after, p.state.bpm = (actions.setBpm first.state x).bpm ∧
      p.state.timeSignature = first.state.timeSignature ∧
      p.state.subdivision = first.state.subdivision) :
    (∃ fuel r, run fuel t0 first (before ++ after) = some r) ∧
      ∀ fuel r, run fuel t0 first (before ++ after) = some r →
        ∃ r1 r2, run fuel t0 first before = some r1 ∧ runPolls fuel r1.1 after = some r2 ∧
          r.2 = r1.2 ++ r2.2 ∧
          (∀ (k : ℕ) (t : ℚ), (clickTimes r1.2)[k]? = some t →
            t = t0 + 1 / 10 + k * (computeTiming first.state).secondsPerSubdivision) ∧
          (∀ (j : ℕ) (t : ℚ), (clickTimes r2.2)[j]? = some t →
            t = t0 + 1 / 10 +
                (clickTimes r1.2).length * (computeTiming first.state).secondsPerSubdivision +
              j * (computeTiming (actions.setBpm first.state x)).secondsPerSubdivision) := by
  have hnew : 0 < (actions.setBpm first.state x).bpm := by
    have := setBpm_bpm_ge first.state x
    linarith
  constructor
  · apply run_total
    intro p hp
    rcases List.mem_cons.mp hp with rfl | hp
    · exact hbpm
    · rcases List.mem_append.mp hp with hp | hp
      · rw [(hbefore p hp).1]
        exact hbpm
      · rw [(hafter p hp).1]
        exact hnew
  · intro fuel r h
    rw [run_eq, Option.map_eq_some'] at h
    obtain ⟨r0, h0, rfl⟩ := h
    have h0' : runPolls fuel (started t0) ((first :: before) ++ after) = some (r0.1, r0.2) := h0
    obtain ⟨s1, out1, out2, e1, e2, e3⟩ := runPolls_append fuel _ _ _ _ _ h0'
    have hcA : ∀ p ∈ first :: before, (computeTiming p.state).secondsPerSubdivision =
        (computeTiming first.state).secondsPerSubdivision := by
      intro p hp
      rcases List.mem_cons.mp hp with rfl | hp
      · rfl
      · obtain ⟨c1, c2, c3⟩ := hbefore p hp
        rw [computeTiming_congr _ _ c1 c2 c3]
    have hcB : ∀ p ∈ after, (computeTiming p.state).secondsPerSubdivision =
        (computeTiming (actions.setBpm first.state x)).secondsPerSubdivision := by
      intro p hp
      obtain ⟨c1, c2, c3⟩ := hafter p hp
      rw [computeTiming_congr p.state (actions.setBpm first.state x) c1 c2 c3]
    obtain ⟨n1, a1, a2⟩ := runPolls_times _ _ hcA _ _ _ _ e1
    obtain ⟨n2, b1, b2⟩ := runPolls_times _ _ hcB _ _ _ _ e2
    have hlen : (clickTimes out1).length = n1 := by
      rw [a1, List.length_map, List.length_range]
    refine ⟨(s1, Effect.onStart :: out1), (r0.1, out2), ?_, e2, ?_, ?_, ?_⟩
    · rw [run_eq, e1]
      rfl
    · show Effect.onStart :: r0.2 = (Effect.onStart :: out1) ++ out2
      rw [e3]
      rfl
    · intro k t hk
      have hk' : (clickTimes out1)[k]? = some t := hk
      rw [a1] at hk'
      have := getElem?_map_range _ _ _ _ hk'
      simpa [started] using this
    · intro j t hj
      have hj' : (clickTimes out2)[j]? = some t := hj
      rw [b1] at hj'
      have := getElem?_map_range _ _ _ _ hj'
      rw [this, a2]
      show _ = t0 + 1 / 10 + ((clickTimes out1).length : ℚ) * _ + _
      rw [hlen]
      simp [started]

/-- C25 amended, at the run of the counterexample: one poll before and one
after `setBpm(240)` from the default state. -/
theorem tempo_change_gaps_witness :
    (0 : ℚ) < (Poll.mk 0 DEFAULT_STATE).state.bpm ∧
      ∃ fuel r, run fuel 0 (Poll.mk 0 DEFAULT_STATE)
        ([Poll.mk (1 / 20) DEFAULT_STATE] ++
          [Poll.mk 1 (actions.setBpm DEFAULT_STATE (JsNumber.num 240))]) = some r :=
  ⟨by norm_num [DEFAULT_STATE],
    (tempo_change_gaps 0 (Poll.mk 0 DEFAULT_STATE) [Poll.mk (1 / 20) DEFAULT_STATE]
      [Poll.mk 1 (actions.setBpm DEFAULT_STATE (JsNumber.num 240))] (JsNumber.num 240)
      (by norm_num [DEFAULT_STATE]) (by simp) (by simp [actions.setBpm])).1⟩

/-- C26: `start()` ends with the poll that the code comments "Schedule first
batch right away", but that poll reads the clock value `start()` has just
read, so its loop test `nextNoteTime < ctxTime + 0.1` is `t0 + 0.1 < t0 + 0.1`,
which is false: for every clock value and store it schedules nothing.  The
first tick is left to a timer poll, and the scheduler never compares a tick
time with the clock: started at clock 0 in the default state, with the first
timer poll at clock 1, the first tick of the run is scheduled at 0.1 by the
poll at clock 1, in the past. -/
theorem first_tick_in_the_past :
    (∀ (fuel : ℕ) (t0 : ℚ) (state : State),
        start fuel MetronomeScheduler.new t0 (Poll.mk t0 state) =
          some (started t0, [Effect.onStart])) ∧
      schedulerLoop 10 (started 0) (Poll.mk 0 DEFAULT_STATE) = some (started 0, []) ∧
      (schedulerLoop 10 (started 0) (Poll.mk 1 DEFAULT_STATE)).map (fun r => clickTimes r.2) =
        some [1 / 10, 3 / 5] ∧
      (run 10 0 (Poll.mk 0 DEFAULT_STATE) [Poll.mk 1 DEFAULT_STATE]).map
        (fun r => clickTimes r.2) = some [1 / 10, 3 / 5] ∧
      ¬ ((Poll.mk 1 DEFAULT_STATE).ctxTime ≤ (0 : ℚ) + 1 / 10) := by
  refine ⟨?_, ?_, ?_, ?_, by norm_num⟩
  · intro fuel t0 state
    cases fuel <;>
      simp [start, MetronomeScheduler.new, schedulerLoop, whileLoop, SCHEDULE_AHEAD_SEC, started]
  · norm_num [schedulerLoop, whileLoop, started, SCHEDULE_AHEAD_SEC]
  · norm_num [schedulerLoop, whileLoop, started, scheduleTick, computeTiming, DEFAULT_STATE,
      getSignatureConfig, getSubdivisionFactor, SCHEDULE_AHEAD_SEC, clickTimes]
  · norm_num [run, runPolls, start, schedulerLoop, whileLoop, MetronomeScheduler.new,
      scheduleTick, computeTiming, DEFAULT_STATE, getSignatureConfig, getSubdivisionFactor,
      SCHEDULE_AHEAD_SEC, clickTimes]

/-! ## Auxiliary facts: binary64 rounding -/

/-- An integer within one half of `y` is the rounding of `y`, provided it is
even when `y` is exactly halfway between two integers. -/
theorem roundHalfEven_eq (y : ℚ) (n : ℤ) (h1 : (n : ℚ) - 1 / 2 ≤ y) (h2 : y ≤ n + 1 / 2)
    (h3 : y = n - 1 / 2 ∨ y = n + 1 / 2 → n % 2 = 0) :
    roundHalfEven y = n := by
  have hfl : (⌊y⌋ : ℚ) ≤ y := Int.floor_le y
  have hfu : y < ⌊y⌋ + 1 := Int.lt_floor_add_one y
  have h4 : ⌊y⌋ < n + 1 := by
    have : (⌊y⌋ : ℚ) < n + 1 := by linarith
    exact_mod_cast this
  have h5 : n - 1 < ⌊y⌋ + 1 := by
    have : (n : ℚ) - 1 < ⌊y⌋ + 1 := by linarith
    exact_mod_cast this
  unfold roundHalfEven
  simp only
  rcases (by omega : ⌊y⌋ = n ∨ ⌊y⌋ = n - 1) with hf | hf
  · have hq : (⌊y⌋ : ℚ) = n := by rw [hf]
    rw [hf]
    rw [hq] at hfl hfu
    have h6 : ¬ ((1 : ℚ) / 2 < y - n) := by linarith
    by_cases h7 : y - n < 1 / 2
    · rw [if_pos h7]
    · rw [if_neg h7, if_neg h6]
      have : y = n + 1 / 2 := by linarith
      rw [if_pos (h3 (Or.inr this))]
  · have hq : (⌊y⌋ : ℚ) = n - 1 := by rw [hf]; push_cast; ring
    rw [hf]
    rw [hq] at hfl hfu
    have h6 : ¬ (y - ((n - 1 : ℤ) : ℚ) < 1 / 2) := by push_cast; linarith
    rw [if_neg h6]
    by_cases h7 : (1 : ℚ) / 2 < y - ((n - 1 : ℤ) : ℚ)
    · rw [if_pos h7]; ring
    · rw [if_neg h7]
      have : y = n - 1 / 2 := by push_cast at h7; linarith
      have hev := h3 (Or.inl this)
      have hodd : ¬ ((n - 1) % 2 = 0) := by omega
      rw [if_neg hodd]; ring

/-- Rounding to an integer moves a number by at most one half. -/
theorem roundHalfEven_sub_le (y : ℚ) : |(roundHalfEven y : ℚ) - y| ≤ 1 / 2 := by
  have hfl : (⌊y⌋ : ℚ) ≤ y := Int.floor_le y
  have hfu : y < ⌊y⌋ + 1 := Int.lt_floor_add_one y
  unfold roundHalfEven
  simp only
  rw [abs_le]
  split_ifs with h1 h2 h3
  · constructor <;> linarith
  · push_cast; constructor <;> linarith
  · constructor <;> linarith
  · push_cast; constructor <;> linarith

theorem log_eq_of_bounds (x : ℚ) (e : ℤ) (h1 : (2 : ℚ) ^ e ≤ x) (h2 : x < 2 ^ (e + 1)) :
    Int.log 2 x = e := by
  have hx : 0 < x := lt_of_lt_of_le (by positivity) h1
  have a : e ≤ Int.log 2 x := (Int.zpow_le_iff_le_log (by norm_num) hx).mp (by exact_mod_cast h1)
  have b : Int.log 2 x < e + 1 := (Int.lt_zpow_iff_log_lt (by norm_num) hx).mp (by exact_mod_cast h2)
  omega


/-- The value of `roundDouble` at a number whose binade `2 ^ e <= |x| < 2 ^ (e + 1)`
and rounded significand `n` are known. -/
theorem roundDouble_eq (x : ℚ) (e n : ℤ) (he : -1022 ≤ e) (h1 : (2 : ℚ) ^ e ≤ |x|)
    (h2 : |x| < 2 ^ (e + 1)) (h3 : (n : ℚ) - 1 / 2 ≤ x / 2 ^ (e - 52))
    (h4 : x / 2 ^ (e - 52) ≤ n + 1 / 2)
    (h5 : x / 2 ^ (e - 52) = n - 1 / 2 ∨ x / 2 ^ (e - 52) = n + 1 / 2 → n % 2 = 0) :
    roundDouble x = n * 2 ^ (e - 52) := by
  unfold roundDouble
  simp only
  rw [log_eq_of_bounds |x| e h1 h2, max_eq_left he, roundHalfEven_eq _ n h3 h4 h5]

/-! ## Auxiliary facts: the binary64 values of the run at 180 bpm -/

theorem roundDouble_tenth :
    roundDouble (1 / 10) = 3602879701896397 / 36028797018963968 := by
  rw [roundDouble_eq (1 / 10) (-4) 7205759403792794 (by norm_num) (by norm_num [abs_of_pos])
    (by norm_num [abs_of_pos]) (by norm_num) (by norm_num) (by norm_num)]
  norm_num

theorem roundDouble_third :
    roundDouble (1 / 3) = 6004799503160661 / 18014398509481984 := by
  rw [roundDouble_eq (1 / 3) (-2) 6004799503160661 (by norm_num) (by norm_num [abs_of_pos])
    (by norm_num [abs_of_pos]) (by norm_num) (by norm_num) (by norm_num)]
  norm_num

theorem roundDouble_third_fixed :
    roundDouble (6004799503160661 / 18014398509481984) = 6004799503160661 / 18014398509481984 := by
  rw [roundDouble_eq (6004799503160661 / 18014398509481984) (-2) 6004799503160661 (by norm_num) (by norm_num [abs_of_pos])
    (by norm_num [abs_of_pos]) (by norm_num) (by norm_num) (by norm_num)]
  norm_num

theorem roundDouble_tenth_fixed :
    roundDouble (3602879701896397 / 36028797018963968) = 3602879701896397 / 36028797018963968 := by
  rw [roundDouble_eq (3602879701896397 / 36028797018963968) (-4) 7205759403792794 (by norm_num) (by norm_num [abs_of_pos])
    (by norm_num [abs_of_pos]) (by norm_num) (by norm_num) (by norm_num)]
  norm_num

theorem roundDouble_one_tenth :
    roundDouble (39631676720860365 / 36028797018963968) = 2476979795053773 / 2251799813685248 := by
  rw [roundDouble_eq (39631676720860365 / 36028797018963968) (0) 4953959590107546 (by norm_num) (by norm_num [abs_of_pos])
    (by norm_num [abs_of_pos]) (by norm_num) (by norm_num) (by norm_num)]
  norm_num

theorem roundDouble_three_halves :
    roundDouble (3 / 2) = 3 / 2 := by
  rw [roundDouble_eq (3 / 2) (0) 6755399441055744 (by norm_num) (by norm_num [abs_of_pos])
    (by norm_num [abs_of_pos]) (by norm_num) (by norm_num) (by norm_num)]
  norm_num

theorem roundDouble_tick1 :
    roundDouble (15612478708217719 / 36028797018963968) = 1951559838527215 / 4503599627370496 := by
  rw [roundDouble_eq (15612478708217719 / 36028797018963968) (-2) 7806239354108860 (by norm_num) (by norm_num [abs_of_pos])
    (by norm_num [abs_of_pos]) (by norm_num) (by norm_num) (by norm_num)]
  norm_num

theorem roundDouble_tick2 :
    roundDouble (13811038857269521 / 18014398509481984) = 863189928579345 / 1125899906842624 := by
  rw [roundDouble_eq (13811038857269521 / 18014398509481984) (-1) 6905519428634760 (by norm_num) (by norm_num [abs_of_pos])
    (by norm_num [abs_of_pos]) (by norm_num) (by norm_num) (by norm_num)]
  norm_num

theorem roundDouble_tick3 :
    roundDouble (19815838360430181 / 18014398509481984) = 4953959590107545 / 4503599627370496 := by
  rw [roundDouble_eq (19815838360430181 / 18014398509481984) (0) 4953959590107545 (by norm_num) (by norm_num [abs_of_pos])
    (by norm_num [abs_of_pos]) (by norm_num) (by norm_num) (by norm_num)]
  norm_num

theorem roundDouble_tick4 :
    roundDouble (25820637863590841 / 18014398509481984) = 3227579732948855 / 2251799813685248 := by
  rw [roundDouble_eq (25820637863590841 / 18014398509481984) (0) 6455159465897710 (by norm_num) (by norm_num [abs_of_pos])
    (by norm_num [abs_of_pos]) (by norm_num) (by norm_num) (by norm_num)]
  norm_num

theorem roundDouble_three_thirds :
    roundDouble (18014398509481983 / 18014398509481984) = 1 := by
  rw [roundDouble_eq (18014398509481983 / 18014398509481984) (-1) 9007199254740992 (by norm_num)
    (by norm_num [abs_of_pos]) (by norm_num [abs_of_pos]) (by norm_num) (by norm_num)
    (by norm_num)]
  norm_num

/-! ## Auxiliary facts: rounded scheduler -/

/-- The error of a binary64 rounding in the normal range is at most the
fraction `2 ^ (-53)` of the number rounded. -/
theorem roundDouble_sub_le (x : ℚ) (hx : (2 : ℚ) ^ (-1022 : ℤ) ≤ |x|) :
    |roundDouble x - x| ≤ |x| * 2 ^ (-53 : ℤ) := by
  have hpos : 0 < |x| := lt_of_lt_of_le (by positivity) hx
  have hlog : (-1022 : ℤ) ≤ Int.log 2 |x| :=
    (Int.zpow_le_iff_le_log (by norm_num) hpos).mp (by exact_mod_cast hx)
  have hle : ((2 : ℕ) : ℚ) ^ Int.log 2 |x| ≤ |x| := Int.zpow_log_le_self (by norm_num) hpos
  unfold roundDouble
  simp only
  rw [max_eq_left hlog]
  set e := Int.log 2 |x| with he
  have hu : (0 : ℚ) < 2 ^ (e - 52) := by positivity
  have key : (roundHalfEven (x / 2 ^ (e - 52)) : ℚ) * 2 ^ (e - 52) - x =
      ((roundHalfEven (x / 2 ^ (e - 52)) : ℚ) - x / 2 ^ (e - 52)) * 2 ^ (e - 52) := by
    field_simp
  rw [key, abs_mul, abs_of_pos hu]
  have h1 := roundHalfEven_sub_le (x / 2 ^ (e - 52))
  have h2 : (2 : ℚ) ^ (e - 52) * (1 / 2) = 2 ^ e * 2 ^ (-53 : ℤ) := by
    rw [show e - 52 = e + (-52) by ring, zpow_add₀ (by norm_num : (2 : ℚ) ≠ 0)]
    norm_num
    ring
  calc |(roundHalfEven (x / 2 ^ (e - 52)) : ℚ) - x / 2 ^ (e - 52)| * 2 ^ (e - 52)
      ≤ 1 / 2 * 2 ^ (e - 52) := mul_le_mul_of_nonneg_right h1 hu.le
    _ = 2 ^ e * 2 ^ (-53 : ℤ) := by rw [mul_comm, h2]
    _ ≤ |x| * 2 ^ (-53 : ℤ) := by
        apply mul_le_mul_of_nonneg_right _ (by positivity)
        exact_mod_cast hle

/-- A binary64 rounding of a positive number of the normal range moves it by
at most the fraction `2 ^ (-53)` of itself. -/
theorem roundDouble_near (x : ℚ) (hx : (2 : ℚ) ^ (-1022 : ℤ) ≤ x) :
    x - x / 2 ^ 53 ≤ roundDouble x ∧ roundDouble x ≤ x + x / 2 ^ 53 := by
  have hpos : 0 < x := lt_of_lt_of_le (by positivity) hx
  have h := roundDouble_sub_le x (by rwa [abs_of_pos hpos])
  rw [abs_of_pos hpos, abs_le] at h
  have e : x * 2 ^ (-53 : ℤ) = x / 2 ^ 53 := by
    rw [zpow_neg, div_eq_mul_inv, ← zpow_natCast]
    rfl
  rw [e] at h
  constructor <;> linarith [h.1, h.2]

/-- A binary64 rounding of a positive number of the normal range lies between
its half and its double. -/
theorem roundDouble_rough (x : ℚ) (hx : (2 : ℚ) ^ (-1022 : ℤ) ≤ x) :
    x / 2 ≤ roundDouble x ∧ roundDouble x ≤ 2 * x := by
  have hpos : 0 < x := lt_of_lt_of_le (by positivity) hx
  obtain ⟨h1, h2⟩ := roundDouble_near x hx
  have h3 : x / 2 ^ 53 ≤ x / 2 :=
    div_le_div_of_nonneg_left hpos.le (by norm_num) (by norm_num)
  constructor <;> linarith

/-- A number of at least 1/1024 is in the normal range of binary64. -/
theorem tiny_le (x : ℚ) (hx : 1 / 1024 ≤ x) : (2 : ℚ) ^ (-1022 : ℤ) ≤ x := by
  have : (2 : ℚ) ^ (-1022 : ℤ) ≤ 1 / 1024 := by
    rw [show (1 : ℚ) / 1024 = 2 ^ (-10 : ℤ) by norm_num]
    exact zpow_le_zpow_right₀ (by norm_num) (by norm_num)
  exact le_trans this hx

theorem tickTime_shift (rnd : ℚ → ℚ) (sps a : ℚ) (n k : ℕ) :
    tickTime rnd sps (tickTime rnd sps a n) k = tickTime rnd sps a (n + k) := by
  induction k with
  | zero => rfl
  | succ k ih =>
    show rnd (tickTime rnd sps (tickTime rnd sps a n) k + sps) = rnd (tickTime rnd sps a (n + k) + sps)
    rw [ih]

theorem tickTime_succ_first (rnd : ℚ → ℚ) (sps a : ℚ) (k : ℕ) :
    tickTime rnd sps (rnd (a + sps)) k = tickTime rnd sps a (k + 1) := by
  have := tickTime_shift rnd sps a 1 k
  rw [Nat.add_comm 1 k] at this
  exact this

/-- In exact arithmetic repeated addition is the closed form. -/
theorem tickTime_id (sps a : ℚ) (k : ℕ) : tickTime id sps a k = a + k * sps := by
  induction k with
  | zero => simp [tickTime]
  | succ k ih =>
    simp only [tickTime, id, ih]
    push_cast
    ring

theorem rounded_whileLoop_times (rnd : ℚ → ℚ) (state : State) (c : ℚ) (T : Timing) :
    ∀ (fuel : ℕ) (s s1 : MetronomeScheduler) (out : List Effect),
      Rounded.whileLoop rnd state c T fuel s = some (s1, out) →
      ∃ n : ℕ,
        clickTimes out =
          (List.range n).map (tickTime rnd T.secondsPerSubdivision s.nextNoteTime) ∧
        s1.nextNoteTime = tickTime rnd T.secondsPerSubdivision s.nextNoteTime n ∧
        s1.isRunning = s.isRunning := by
  intro fuel
  induction fuel with
  | zero =>
    intro s s1 out h
    unfold Rounded.whileLoop at h
    split at h
    · cases h
    · cases h
      exact ⟨0, by simp [clickTimes], rfl, rfl⟩
  | succ fuel ih =>
    intro s s1 out h
    unfold Rounded.whileLoop at h
    split at h
    · simp only at h
      split at h
      · cases h
      · rename_i s2 rest hrec
        cases h
        obtain ⟨n, h1, h2, h3⟩ := ih _ _ _ hrec
        refine ⟨n + 1, ?_, ?_, ?_⟩
        · rw [clickTimes_append, h1, List.range_succ_eq_map]
          simp only [scheduleTick, clickTimes, List.map_cons, List.map_map, List.cons_append,
            List.nil_append]
          congr 1
          apply List.map_congr_left
          intro k _
          simp only [Function.comp, Nat.succ_eq_add_one]
          exact tickTime_succ_first rnd _ _ k
        · rw [h2]
          simp only [scheduleTick]
          exact tickTime_succ_first rnd _ _ n
        · rw [h3]
          rfl
    · cases h
      exact ⟨0, by simp [clickTimes], rfl, rfl⟩

theorem rounded_schedulerLoop_times (rnd : ℚ → ℚ) (fuel : ℕ) (s s1 : MetronomeScheduler)
    (p : Poll) (out : List Effect) (h : Rounded.schedulerLoop rnd fuel s p = some (s1, out)) :
    ∃ n : ℕ,
      clickTimes out =
        (List.range n).map
          (tickTime rnd (Rounded.computeTiming rnd p.state).secondsPerSubdivision s.nextNoteTime) ∧
      s1.nextNoteTime =
        tickTime rnd (Rounded.computeTiming rnd p.state).secondsPerSubdivision s.nextNoteTime n ∧
      s1.isRunning = s.isRunning := by
  unfold Rounded.schedulerLoop at h
  split at h
  · cases h
    exact ⟨0, by simp [clickTimes], rfl, rfl⟩
  · exact rounded_whileLoop_times rnd _ _ _ _ _ _ _ h

theorem rounded_runPolls_times (rnd : ℚ → ℚ) (sps : ℚ) (polls : List Poll)
    (hc : ∀ p ∈ polls, (Rounded.computeTiming rnd p.state).secondsPerSubdivision = sps) :
    ∀ (fuel : ℕ) (s s1 : MetronomeScheduler) (out : List Effect),
      Rounded.runPolls rnd fuel s polls = some (s1, out) →
      ∃ n : ℕ,
        clickTimes out = (List.range n).map (tickTime rnd sps s.nextNoteTime) ∧
        s1.nextNoteTime = tickTime rnd sps s.nextNoteTime n := by
  induction polls with
  | nil =>
    intro fuel s s1 out h
    simp only [Rounded.runPolls, Option.some.injEq, Prod.mk.injEq] at h
    obtain ⟨rfl, rfl⟩ := h
    exact ⟨0, by simp [clickTimes], rfl⟩
  | cons p ps ih =>
    intro fuel s s1 out h
    unfold Rounded.runPolls at h
    split at h
    · cases h
    · rename_i sa outa ha
      split at h
      · cases h
      · rename_i sb outb hb
        cases h
        obtain ⟨n1, a1, a3, _⟩ := rounded_schedulerLoop_times rnd _ _ _ _ _ ha
        rw [hc p (List.mem_cons_self _ _)] at a1 a3
        obtain ⟨n2, b1, b2⟩ := ih (fun q hq => hc q (List.mem_cons_of_mem _ hq)) _ _ _ _ hb
        refine ⟨n1 + n2, ?_, ?_⟩
        · rw [clickTimes_append, a1, b1, List.range_add, List.map_append, List.map_map, a3]
          congr 1
          apply List.map_congr_left
          intro k _
          simp only [Function.comp]
          exact tickTime_shift rnd sps _ n1 k
        · rw [b2, a3]
          exact tickTime_shift rnd sps _ n1 n2

/-- A rounded run is `onStart` followed by the polls, the first one included,
on the scheduler that `start()` has initialised. -/
theorem rounded_run_eq (rnd : ℚ → ℚ) (fuel : ℕ) (t0 : ℚ) (first : Poll) (polls : List Poll) :
    Rounded.run rnd fuel t0 first polls =
      (Rounded.runPolls rnd fuel (MetronomeScheduler.mk true true (rnd (t0 + rnd (1 / 10))) 0)
        (first :: polls)).map (fun r => (r.1, Effect.onStart :: r.2)) := by
  simp only [Rounded.run, Rounded.start, MetronomeScheduler.new, Rounded.runPolls,
    Bool.false_eq_true, if_false]
  cases h1 : Rounded.schedulerLoop rnd fuel _ first with
  | none => simp
  | some r1 =>
    simp only
    cases h2 : Rounded.runPolls rnd fuel r1.1 polls with
    | none => simp
    | some r2 => simp

/-- The rounded loop of one poll returns when every addition below the end of
the window advances `nextNoteTime` by at least `δ > 0`. -/
theorem rounded_whileLoop_returns (rnd : ℚ → ℚ) (state : State) (c : ℚ) (T : Timing)
    (lo δ : ℚ) (hδ : 0 < δ)
    (hprog : ∀ x, lo ≤ x → x < rnd (c + rnd SCHEDULE_AHEAD_SEC) →
      x + δ ≤ rnd (x + T.secondsPerSubdivision)) :
    ∀ (n : ℕ) (s : MetronomeScheduler), lo ≤ s.nextNoteTime →
      rnd (c + rnd SCHEDULE_AHEAD_SEC) - s.nextNoteTime ≤ n * δ →
      ∃ r, (∀ fuel, n ≤ fuel → Rounded.whileLoop rnd state c T fuel s = some r) ∧
        lo ≤ r.1.nextNoteTime := by
  intro n
  induction n with
  | zero =>
    intro s hlo hs
    have hc : ¬ s.nextNoteTime < rnd (c + rnd SCHEDULE_AHEAD_SEC) := by
      simp only [Nat.cast_zero, zero_mul] at hs
      linarith
    refine ⟨(s, []), ?_, hlo⟩
    intro fuel _
    cases fuel <;> simp [Rounded.whileLoop, hc]
  | succ n ih =>
    intro s hlo hs
    by_cases hc : s.nextNoteTime < rnd (c + rnd SCHEDULE_AHEAD_SEC)
    · have hstep := hprog s.nextNoteTime hlo hc
      obtain ⟨r, hr, hrlo⟩ := ih
        { (scheduleTick s state s.nextNoteTime T).1 with
          nextNoteTime :=
            rnd ((scheduleTick s state s.nextNoteTime T).1.nextNoteTime + T.secondsPerSubdivision) }
        (by
          simp only [scheduleTick]
          linarith)
        (by
          simp only [scheduleTick]
          push_cast at hs
          linarith)
      refine ⟨(r.1, (scheduleTick s state s.nextNoteTime T).2 ++ r.2), ?_, hrlo⟩
      intro fuel hfuel
      obtain ⟨m, rfl⟩ : ∃ m, fuel = m + 1 := ⟨fuel - 1, by omega⟩
      have := hr m (by omega)
      simp only [Rounded.whileLoop, hc, if_true, this]
    · refine ⟨(s, []), ?_, hlo⟩
      intro fuel _
      cases fuel <;> simp [Rounded.whileLoop, hc]

theorem rounded_schedulerLoop_total (rnd : ℚ → ℚ) (lo δ : ℚ) (hδ : 0 < δ)
    (s : MetronomeScheduler) (p : Poll)
    (hprog : ∀ x, lo ≤ x → x < rnd (p.ctxTime + rnd SCHEDULE_AHEAD_SEC) →
      x + δ ≤ rnd (x + (Rounded.computeTiming rnd p.state).secondsPerSubdivision))
    (hlo : lo ≤ s.nextNoteTime) :
    ∃ N r, (∀ fuel, N ≤ fuel → Rounded.schedulerLoop rnd fuel s p = some r) ∧
      lo ≤ r.1.nextNoteTime := by
  by_cases hr : s.isRunning = true
  · obtain ⟨n, hn⟩ :=
      exists_nat_ge ((rnd (p.ctxTime + rnd SCHEDULE_AHEAD_SEC) - s.nextNoteTime) / δ)
    obtain ⟨r, h1, h2⟩ := rounded_whileLoop_returns rnd p.state p.ctxTime
      (Rounded.computeTiming rnd p.state) lo δ hδ hprog n s hlo ((div_le_iff₀ hδ).mp hn)
    exact ⟨n, r, fun fuel hf => by simp [Rounded.schedulerLoop, hr, h1 fuel hf], h2⟩
  · exact ⟨0, (s, []), fun fuel _ => by simp [Rounded.schedulerLoop, hr], hlo⟩

theorem rounded_runPolls_total (rnd : ℚ → ℚ) (lo δ : ℚ) (hδ : 0 < δ) (polls : List Poll)
    (hprog : ∀ p ∈ polls, ∀ x, lo ≤ x → x < rnd (p.ctxTime + rnd SCHEDULE_AHEAD_SEC) →
      x + δ ≤ rnd (x + (Rounded.computeTiming rnd p.state).secondsPerSubdivision)) :
    ∀ s : MetronomeScheduler, lo ≤ s.nextNoteTime →
      ∃ N r, ∀ fuel, N ≤ fuel → Rounded.runPolls rnd fuel s polls = some r := by
  induction polls with
  | nil => exact fun s _ => ⟨0, (s, []), fun _ _ => rfl⟩
  | cons p ps ih =>
    intro s hlo
    obtain ⟨N1, r1, h1, hlo1⟩ :=
      rounded_schedulerLoop_total rnd lo δ hδ s p (hprog p (List.mem_cons_self _ _)) hlo
    obtain ⟨N2, r2, h2⟩ := ih (fun q hq => hprog q (List.mem_cons_of_mem _ hq)) r1.1 hlo1
    refine ⟨max N1 N2, (r2.1, r1.2 ++ r2.2), ?_⟩
    intro fuel hf
    have e1 := h1 fuel (le_trans (le_max_left _ _) hf)
    have e2 := h2 fuel (le_trans (le_max_right _ _) hf)
    simp only [Rounded.runPolls, e1, e2]

/-- In binary64, for a tempo in [40,240], `secondsPerSubdivision` lies between
3/256 s and 18 s. -/
theorem double_sps_bounds (state : State) (h1 : 40 ≤ state.bpm) (h2 : state.bpm ≤ 240) :
    3 / 256 ≤ (Rounded.computeTiming roundDouble state).secondsPerSubdivision ∧
      (Rounded.computeTiming roundDouble state).secondsPerSubdivision ≤ 18 := by
  have hb : (0 : ℚ) < state.bpm := by linarith
  have ha1 : (1 : ℚ) / 4 ≤ 60 / state.bpm := by
    rw [le_div_iff₀ hb]; linarith
  have ha2 : 60 / state.bpm ≤ 3 / 2 := by
    rw [div_le_iff₀ hb]; linarith
  obtain ⟨a1, a2⟩ := roundDouble_rough (60 / state.bpm) (tiny_le _ (by linarith))
  have hbeat : ∀ spb : ℚ, 3 / 32 ≤ spb → spb ≤ 9 →
      ∀ f : ℕ, (f = 1 ∨ f = 2 ∨ f = 4) →
        3 / 256 ≤ roundDouble (spb / f) ∧ roundDouble (spb / f) ≤ 18 := by
    intro spb l u f hf
    have hq : 3 / 128 ≤ spb / f ∧ spb / f ≤ 9 := by
      rcases hf with rfl | rfl | rfl <;> norm_num <;> constructor <;> linarith
    obtain ⟨c1, c2⟩ := roundDouble_rough (spb / f) (tiny_le _ (by linarith [hq.1]))
    constructor <;> linarith [hq.1, hq.2]
  simp only [Rounded.computeTiming]
  split
  · have hm1 : 3 / 16 ≤ roundDouble (60 / state.bpm) * roundDouble (3 / 2) := by
      rw [roundDouble_three_halves]; linarith
    have hm2 : roundDouble (60 / state.bpm) * roundDouble (3 / 2) ≤ 9 / 2 := by
      rw [roundDouble_three_halves]; linarith
    obtain ⟨b1, b2⟩ := roundDouble_rough (roundDouble (60 / state.bpm) * roundDouble (3 / 2))
      (tiny_le _ (by linarith))
    exact hbeat _ (by linarith) (by linarith) _ (getSubdivisionFactor_mem _)
  · exact hbeat _ (by linarith) (by linarith) _ (getSubdivisionFactor_mem _)

/-- In binary64, adding a `secondsPerSubdivision` of at least 3/256 s to a
time in [0, 2^34] s advances it by at least 3/512 s. -/
theorem double_progress (x sps : ℚ) (hx0 : 0 ≤ x) (hx1 : x ≤ 2 ^ 34) (h1 : 3 / 256 ≤ sps)
    (h2 : sps ≤ 18) : x + 3 / 512 ≤ roundDouble (x + sps) := by
  obtain ⟨a, _⟩ := roundDouble_near (x + sps) (tiny_le _ (by linarith))
  have hsmall : (x + sps) / 2 ^ 53 ≤ 3 / 512 := by
    rw [div_le_iff₀ (by norm_num)]
    norm_num at hx1 ⊢
    linarith
  linarith

/-- In binary64, the end of the window of a poll at a clock value in
[0, 2^32] s is at most 2^33 + 2. -/
theorem double_window_le (c : ℚ) (h0 : 0 ≤ c) (h1 : c ≤ 2 ^ 32) :
    roundDouble (c + roundDouble SCHEDULE_AHEAD_SEC) ≤ 2 ^ 33 + 2 := by
  rw [SCHEDULE_AHEAD_SEC, roundDouble_tenth]
  obtain ⟨_, b⟩ := roundDouble_rough (c + 3602879701896397 / 36028797018963968)
    (tiny_le _ (by norm_num; linarith))
  norm_num at h1 b ⊢
  linarith

theorem double_start_nonneg (t0 : ℚ) (h0 : 0 ≤ t0) :
    0 ≤ roundDouble (t0 + roundDouble (1 / 10)) := by
  rw [roundDouble_tenth]
  obtain ⟨a, _⟩ := roundDouble_rough (t0 + 3602879701896397 / 36028797018963968)
    (tiny_le _ (by norm_num; linarith))
  linarith

theorem rounded_computeTiming_congr (rnd : ℚ → ℚ) (a b : State) (h1 : a.bpm = b.bpm)
    (h2 : a.timeSignature = b.timeSignature) (h3 : a.subdivision = b.subdivision) :
    Rounded.computeTiming rnd a = Rounded.computeTiming rnd b := by
  simp [Rounded.computeTiming, h1, h2, h3]

theorem double_tickTime_nonneg (sps first : ℚ) (h1 : 3 / 256 ≤ sps) (h0 : 0 ≤ first) (k : ℕ) :
    0 ≤ tickTime roundDouble sps first k := by
  induction k with
  | zero => exact h0
  | succ k ih =>
    obtain ⟨a, _⟩ := roundDouble_rough (tickTime roundDouble sps first k + sps)
      (tiny_le _ (by linarith))
    show 0 ≤ roundDouble (tickTime roundDouble sps first k + sps)
    linarith

theorem rounded_whileLoop_id (state : State) (c : ℚ) (T : Timing) :
    ∀ (fuel : ℕ) (s : MetronomeScheduler),
      Rounded.whileLoop id state c T fuel s = whileLoop state c T fuel s := by
  intro fuel
  induction fuel with
  | zero => intro s; simp [Rounded.whileLoop, whileLoop]
  | succ n ih =>
    intro s
    simp only [Rounded.whileLoop, whileLoop, ih, id]

theorem rounded_schedulerLoop_id (fuel : ℕ) (s : MetronomeScheduler) (p : Poll) :
    Rounded.schedulerLoop id fuel s p = schedulerLoop fuel s p := by
  simp [Rounded.schedulerLoop, schedulerLoop, rounded_whileLoop_id, Rounded.computeTiming,
    computeTiming]

theorem rounded_runPolls_id (fuel : ℕ) (polls : List Poll) :
    ∀ s : MetronomeScheduler, Rounded.runPolls id fuel s polls = runPolls fuel s polls := by
  induction polls with
  | nil => intro s; rfl
  | cons p ps ih =>
    intro s
    simp only [Rounded.runPolls, runPolls, rounded_schedulerLoop_id, ih]

/-- With no rounding (`rnd = id`) the rounded scheduler is the scheduler in
exact arithmetic. -/
theorem rounded_run_id (fuel : ℕ) (t0 : ℚ) (first : Poll) (polls : List Poll) :
    Rounded.run id fuel t0 first polls = run fuel t0 first polls := by
  simp only [Rounded.run, run, Rounded.start, start, rounded_schedulerLoop_id,
    rounded_runPolls_id, id]

/-- C1 as stated fails in the arithmetic of the code: at 180 bpm (4/4,
quarters), started at clock 0 and polled at clocks 0 and 1, binary64 addition
gives the four tick times 0.1, 0.43333333333333335, 0.7666666666666666 and
1.0999999999999999.  The fourth is below the end of the window, the binary64
number 1.1, so it is scheduled by the poll at clock 1; it is not
`0 + 0.1 + 3 * secondsPerSubdivision`, whether that expression is taken exactly
(with the stored or the exact `secondsPerSubdivision`) or evaluated in binary64.
In exact arithmetic the same run schedules three ticks. -/
theorem double_run_fourth_tick_off :
    (Rounded.run roundDouble 10 0 (Poll.mk 0 { DEFAULT_STATE with bpm := 180 })
        [Poll.mk 1 { DEFAULT_STATE with bpm := 180 }]).map (fun r => clickTimes r.2) =
      some [3602879701896397 / 36028797018963968, 1951559838527215 / 4503599627370496,
        863189928579345 / 1125899906842624, 4953959590107545 / 4503599627370496] ∧
      (Rounded.computeTiming roundDouble
        { DEFAULT_STATE with bpm := 180 }).secondsPerSubdivision =
          6004799503160661 / 18014398509481984 ∧
      (4953959590107545 / 4503599627370496 : ℚ) ≠
        0 + 1 / 10 + 3 * (Rounded.computeTiming roundDouble
          { DEFAULT_STATE with bpm := 180 }).secondsPerSubdivision ∧
      (4953959590107545 / 4503599627370496 : ℚ) ≠
        0 + 1 / 10 + 3 * (computeTiming { DEFAULT_STATE with bpm := 180 }).secondsPerSubdivision ∧
      (4953959590107545 / 4503599627370496 : ℚ) ≠
        roundDouble (roundDouble (0 + roundDouble (1 / 10)) +
          roundDouble (3 * (Rounded.computeTiming roundDouble
            { DEFAULT_STATE with bpm := 180 }).secondsPerSubdivision)) ∧
      (run 10 0 (Poll.mk 0 { DEFAULT_STATE with bpm := 180 })
        [Poll.mk 1 { DEFAULT_STATE with bpm := 180 }]).map (fun r => clickTimes r.2) =
        some [1 / 10, 13 / 30, 23 / 30] := by
  have hsps : (Rounded.computeTiming roundDouble
      { DEFAULT_STATE with bpm := 180 }).secondsPerSubdivision =
        6004799503160661 / 18014398509481984 := by
    norm_num [Rounded.computeTiming, DEFAULT_STATE, getSignatureConfig, getSubdivisionFactor,
      roundDouble_third, roundDouble_third_fixed]
  refine ⟨?_, hsps, ?_, ?_, ?_, ?_⟩
  · norm_num [Rounded.run, Rounded.runPolls, Rounded.start, Rounded.schedulerLoop,
      Rounded.whileLoop, Rounded.computeTiming, MetronomeScheduler.new, scheduleTick,
      DEFAULT_STATE, getSignatureConfig, getSubdivisionFactor, SCHEDULE_AHEAD_SEC,
      clickTimes, roundDouble_tenth, roundDouble_third, roundDouble_third_fixed,
      roundDouble_tenth_fixed, roundDouble_one_tenth, roundDouble_tick1, roundDouble_tick2,
      roundDouble_tick3, roundDouble_tick4]
  · rw [hsps]; norm_num
  · norm_num [computeTiming, DEFAULT_STATE, getSignatureConfig, getSubdivisionFactor]
  · rw [hsps]
    norm_num [roundDouble_tenth, roundDouble_tenth_fixed, roundDouble_three_thirds, roundDouble_one_tenth]
  · norm_num [run, runPolls, start, schedulerLoop, whileLoop, MetronomeScheduler.new,
      scheduleTick, computeTiming, DEFAULT_STATE, getSignatureConfig, getSubdivisionFactor,
      SCHEDULE_AHEAD_SEC, clickTimes]

/-- C1, amended: in the arithmetic of the code (binary64, round to nearest,
ties to even), with tempo (in [40,240]), time signature and subdivision the same
at every poll of a run, for every clock value `t0 >= 0` read by `start()` and
every sequence of poll clock times in [0, 2^32] s (non-decreasing or not), the
run returns and its k-th scheduled tick is passed to `scheduleClick` with time
`t_k`, where `t_0 = t0 (+) 0.1` and `t_(k+1) = t_k (+) secondsPerSubdivision`,
`(+)` being the rounded addition: the poll times decide how many ticks exist,
never their timestamps.  Each gap differs from `secondsPerSubdivision` by one
rounding, at most the fraction `2^(-53)` of the later tick time. -/
theorem run_clickTimes_repeated_addition (t0 : ℚ) (first : Poll) (polls : List Poll)
    (hbpm : 40 ≤ first.state.bpm ∧ first.state.bpm ≤ 240)
    (hconst : ∀ p ∈ polls, p.state.bpm = first.state.bpm ∧
      p.state.timeSignature = first.state.timeSignature ∧
      p.state.subdivision = first.state.subdivision)
    (ht0 : 0 ≤ t0)
    (hclock : ∀ p ∈ first :: polls, 0 ≤ p.ctxTime ∧ p.ctxTime ≤ 2 ^ 32) :
    (∃ fuel r, Rounded.run roundDouble fuel t0 first polls = some r) ∧
      (∀ fuel r, Rounded.run roundDouble fuel t0 first polls = some r →
        ∀ (k : ℕ) (t : ℚ), (clickTimes r.2)[k]? = some t →
          t = tickTime roundDouble
            (Rounded.computeTiming roundDouble first.state).secondsPerSubdivision
            (roundDouble (t0 + roundDouble (1 / 10))) k) ∧
      (∀ fuel r, Rounded.run roundDouble fuel t0 first polls = some r →
        ∀ (k : ℕ) (t u : ℚ), (clickTimes r.2)[k]? = some t → (clickTimes r.2)[k + 1]? = some u →
          u = roundDouble
            (t + (Rounded.computeTiming roundDouble first.state).secondsPerSubdivision) ∧
          |u - (t + (Rounded.computeTiming roundDouble first.state).secondsPerSubdivision)| ≤
            (t + (Rounded.computeTiming roundDouble first.state).secondsPerSubdivision) /
              2 ^ 53) := by
  have hc : ∀ p ∈ first :: polls, Rounded.computeTiming roundDouble p.state =
      Rounded.computeTiming roundDouble first.state := by
    intro p hp
    rcases List.mem_cons.mp hp with rfl | hp
    · rfl
    · obtain ⟨c1, c2, c3⟩ := hconst p hp
      exact rounded_computeTiming_congr _ _ _ c1 c2 c3
  obtain ⟨s1, s2⟩ := double_sps_bounds first.state hbpm.1 hbpm.2
  have key : ∀ fuel r, Rounded.run roundDouble fuel t0 first polls = some r →
      ∀ (k : ℕ) (t : ℚ), (clickTimes r.2)[k]? = some t →
        t = tickTime roundDouble
          (Rounded.computeTiming roundDouble first.state).secondsPerSubdivision
          (roundDouble (t0 + roundDouble (1 / 10))) k := by
    intro fuel r h k t hk
    rw [rounded_run_eq, Option.map_eq_some'] at h
    obtain ⟨r0, h0, rfl⟩ := h
    obtain ⟨n, hn, _⟩ := rounded_runPolls_times roundDouble _ (first :: polls)
      (fun p hp => by rw [hc p hp]) _ _ _ _ h0
    have e1 : clickTimes (Effect.onStart :: r0.2) = clickTimes r0.2 := rfl
    simp only at hk
    rw [e1, hn, List.getElem?_map] at hk
    cases hr : (List.range n)[k]? with
    | none => rw [hr] at hk; cases hk
    | some j =>
      rw [hr] at hk
      obtain ⟨hj, rfl⟩ := List.getElem?_eq_some_iff.mp hr
      rw [List.getElem_range] at hk
      simp only [Option.map_some', Option.some.injEq] at hk
      exact hk.symm
  refine ⟨?_, key, ?_⟩
  · obtain ⟨N, r, hr⟩ := rounded_runPolls_total roundDouble 0 (3 / 512) (by norm_num)
      (first :: polls)
      (by
        intro p hp x hx0 hx
        rw [hc p hp]
        have hw := double_window_le p.ctxTime (hclock p hp).1 (hclock p hp).2
        refine double_progress x _ hx0 ?_ s1 s2
        have : x ≤ 2 ^ 33 + 2 := le_of_lt (lt_of_lt_of_le hx hw)
        norm_num at this ⊢
        linarith)
      (MetronomeScheduler.mk true true (roundDouble (t0 + roundDouble (1 / 10))) 0)
      (double_start_nonneg t0 ht0)
    exact ⟨N, (r.1, Effect.onStart :: r.2), by rw [rounded_run_eq, hr N le_rfl]; rfl⟩
  · intro fuel r h k t u hk hk1
    have ht := key fuel r h k t hk
    have hu := key fuel r h (k + 1) u hk1
    have hstep : u = roundDouble
        (t + (Rounded.computeTiming roundDouble first.state).secondsPerSubdivision) := by
      rw [hu, ht]
      rfl
    refine ⟨hstep, ?_⟩
    have hnn : 0 ≤ t := by
      rw [ht]
      exact double_tickTime_nonneg _ _ s1 (double_start_nonneg t0 ht0) k
    obtain ⟨a, b⟩ := roundDouble_near
      (t + (Rounded.computeTiming roundDouble first.state).secondsPerSubdivision)
      (tiny_le _ (by linarith))
    rw [hstep, abs_le]
    constructor <;> linarith

/-- C1 amended, at the run at 180 bpm started at clock 0 and polled at clocks 0 and 1. -/
theorem run_clickTimes_repeated_addition_witness :
    ((40 ≤ (Poll.mk 0 { DEFAULT_STATE with bpm := 180 }).state.bpm ∧
        (Poll.mk 0 { DEFAULT_STATE with bpm := 180 }).state.bpm ≤ 240) ∧
      (∀ p ∈ [Poll.mk 1 { DEFAULT_STATE with bpm := 180 }],
        p.state.bpm = (Poll.mk 0 { DEFAULT_STATE with bpm := 180 }).state.bpm ∧
        p.state.timeSignature =
          (Poll.mk 0 { DEFAULT_STATE with bpm := 180 }).state.timeSignature ∧
        p.state.subdivision = (Poll.mk 0 { DEFAULT_STATE with bpm := 180 }).state.subdivision) ∧
      (0 : ℚ) ≤ 0 ∧
      ∀ p ∈ [Poll.mk 0 { DEFAULT_STATE with bpm := 180 },
          Poll.mk 1 { DEFAULT_STATE with bpm := 180 }], 0 ≤ p.ctxTime ∧ p.ctxTime ≤ 2 ^ 32) ∧
      ∃ fuel r, Rounded.run roundDouble fuel 0 (Poll.mk 0 { DEFAULT_STATE with bpm := 180 })
        [Poll.mk 1 { DEFAULT_STATE with bpm := 180 }] = some r :=
  ⟨⟨by norm_num [DEFAULT_STATE], by simp, le_rfl, by norm_num⟩,
    (run_clickTimes_repeated_addition 0 (Poll.mk 0 { DEFAULT_STATE with bpm := 180 })
      [Poll.mk 1 { DEFAULT_STATE with bpm := 180 }] (by norm_num [DEFAULT_STATE]) (by simp)
      le_rfl (by norm_num)).1⟩

end Metronome
